import Mathlib

/-!
Shallow embedding of `scripts/csv-generator.go`

The generator loads a ClusterServiceVersion template, substitutes a fixed set of
fields from command-line flags, optionally removes the webhook certificate
volume and mount, synthesizes the related-images list and re-emits the document.

Conventions of the embedding:

* Go structs become Lean structures that keep the Go field names.
* A Go function that mutates its argument in place and may return an error
  becomes a pure function to `Outcome`: the state after the call together with
  the returned error, or `panicked` when the Go runtime faults (index out of
  range, failed type assertion).
* The things the program takes from other packages are parameters:
  the semantic-version parser (`semver.New`), the environment variable key
  constants of `pkg/environment`, and the JSON encoding of the typed manifest.
-/

set_option autoImplicit false

namespace CsvGenerator

/-! ## Data model -/

/-- Go `error` values are represented by their message. -/
abbrev GoError := String

deriving instance DecidableEq for Except

/-- Outcome of a Go call that mutates `σ` in place: it returns (with or without an
error) leaving a state behind, or the runtime panics. -/
inductive Outcome (σ : Type) where
  | returned (state : σ) (err : Option GoError)
  | panicked
  deriving DecidableEq, Repr

/-- Generic JSON value: what `json.Unmarshal` puts into an `interface{}`. -/
inductive JSON where
  | null
  | bool (b : Bool)
  | num (n : Int)
  | str (s : String)
  | arr (items : List JSON)
  | obj (fields : List (String × JSON))
  deriving Repr

/-- Go `map[string]interface{}`: an association list, looked up by first match. -/
abbrev Object := List (String × JSON)

/-- Type `semver.PRVersion`. -/
structure PRVersion where
  VersionStr : String
  VersionNum : Nat
  IsNum : Bool
  deriving DecidableEq, Repr

/-- Type `semver.Version`. -/
structure Version where
  Major : Nat
  Minor : Nat
  Patch : Nat
  Pre : List PRVersion
  Build : List String
  deriving DecidableEq, Repr

/-- Type `version.OperatorVersion`. -/
structure OperatorVersion where
  Version : Version
  deriving DecidableEq, Repr

/-- Type `v1.EnvVar` (name/value pair). -/
structure EnvVar where
  Name : String
  Value : String
  deriving DecidableEq, Repr

/-- Type `v1.VolumeMount`. -/
structure VolumeMount where
  Name : String
  MountPath : String
  deriving DecidableEq, Repr

/-- Type `v1.Volume`; `Source` stands for the volume source description. -/
structure Volume where
  Name : String
  Source : String
  deriving DecidableEq, Repr

/-- Type `v1.Container`. -/
structure Container where
  Name : String
  Image : String
  Env : List EnvVar
  VolumeMounts : List VolumeMount
  deriving DecidableEq, Repr

/-- Type `v1.PodSpec`. -/
structure PodSpec where
  Containers : List Container
  Volumes : List Volume
  deriving DecidableEq, Repr

/-- Type `v1.PodTemplateSpec`; `Namespace` is the field of its embedded object metadata. -/
structure PodTemplateSpec where
  Namespace : String
  Spec : PodSpec
  deriving DecidableEq, Repr

/-- Type `appsv1.DeploymentSpec`. -/
structure DeploymentSpec where
  Template : PodTemplateSpec
  deriving DecidableEq, Repr

/-- Type `csvv1.StrategyDeploymentSpec`. -/
structure StrategyDeploymentSpec where
  Name : String
  Spec : DeploymentSpec
  deriving DecidableEq, Repr

/-- Type `csvv1.StrategyDetailsDeployment`. -/
structure StrategyDetailsDeployment where
  DeploymentSpecs : List StrategyDeploymentSpec
  deriving DecidableEq, Repr

/-- Type `csvv1.NamedInstallStrategy`. -/
structure NamedInstallStrategy where
  StrategySpec : StrategyDetailsDeployment
  deriving DecidableEq, Repr

/-- Type `csvv1.RelatedImage`, the element type of the typed manifest's
`spec.relatedImages` (JSON tag `relatedImages,omitempty`). -/
structure RelatedImage where
  Name : String
  Image : String
  deriving DecidableEq, Repr

/-- Type `csvv1.ClusterServiceVersionSpec`. -/
structure ClusterServiceVersionSpec where
  Version : OperatorVersion
  InstallStrategy : NamedInstallStrategy
  RelatedImages : List RelatedImage
  deriving DecidableEq, Repr

/-- Type `csvv1.ClusterServiceVersion`; `Name` and `Namespace` are the fields of its
embedded object metadata. -/
structure ClusterServiceVersion where
  Name : String
  Namespace : String
  Spec : ClusterServiceVersionSpec
  deriving DecidableEq, Repr

/-- The struct `generatorFlags`. -/
structure generatorFlags where
  file : String
  dumpCRDs : Bool
  removeCerts : Bool
  «namespace» : String
  csvVersion : String
  pipelinesNamespace : String
  operatorImage : String
  operatorVersion : String
  waitForVMIStatusImage : String
  modifyVMTemplateImage : String
  diskVirtSysprepImage : String
  diskVirtCustomizeImage : String
  createVMImage : String
  modifyDataObjectImage : String
  copyTemplateImage : String
  cleanupVMImage : String
  generateSSHKeys : String
  deriving DecidableEq, Repr

/-- The string constants of package `pkg/environment` that `updateContainerEnvVars`
switches on; the constants are a parameter of the embedding. -/
structure Environment where
  OperatorVersionKey : String
  CleanupVMImageKey : String
  CopyTemplateImageKey : String
  ModifyDataObjectImageKey : String
  CreateVMImageKey : String
  DiskVirtCustomizeImageKey : String
  DiskVirtSysprepImageKey : String
  ModifyVMTemplateImageKey : String
  WaitForVMISTatusImageKey : String
  GenerateSSHKeysImageKey : String
  deriving DecidableEq, Repr

/-- The ten recognized keys, in the order of the `case` clauses. -/
def Environment.keys (env : Environment) : List String :=
  [env.OperatorVersionKey, env.CleanupVMImageKey, env.CopyTemplateImageKey,
   env.ModifyDataObjectImageKey, env.CreateVMImageKey, env.DiskVirtCustomizeImageKey,
   env.DiskVirtSysprepImageKey, env.ModifyVMTemplateImageKey, env.WaitForVMISTatusImageKey,
   env.GenerateSSHKeysImageKey]

/-! ## Related images (`buildRelatedImage`, `buildRelatedImages`) -/

/-- Function `buildRelatedImage`: a two-entry map; the returned error is always nil. -/
def buildRelatedImage (imageDesc : String) (imageName : String) : Except GoError JSON :=
  .ok (.obj [("name", .str imageName), ("image", .str imageDesc)])

/-- One `if flags.x != "" { ...; relatedImages = append(relatedImages, relatedImage) }`
block of `buildRelatedImages`, threaded through the error check. -/
def appendRelatedImage (acc : Except GoError (List JSON)) (imageDesc : String)
    (imageName : String) : Except GoError (List JSON) :=
  match acc with
  | .error err => .error err
  | .ok relatedImages =>
    if imageDesc ≠ "" then
      match buildRelatedImage imageDesc imageName with
      | .error err => .error err
      | .ok relatedImage => .ok (relatedImages ++ [relatedImage])
    else .ok relatedImages

/-- The block for `createVMImage`, which appends two records under one test. -/
def appendCreateVMImages (acc : Except GoError (List JSON)) (imageDesc : String) :
    Except GoError (List JSON) :=
  match acc with
  | .error err => .error err
  | .ok relatedImages =>
    if imageDesc ≠ "" then
      match buildRelatedImage imageDesc "create-vm-from-manifest" with
      | .error err => .error err
      | .ok relatedImage =>
        match buildRelatedImage imageDesc "create-vm-from-template" with
        | .error err => .error err
        | .ok relatedImage2 => .ok ((relatedImages ++ [relatedImage]) ++ [relatedImage2])
    else .ok relatedImages

/-- Function `buildRelatedImages`. -/
def buildRelatedImages (flags : generatorFlags) : Except GoError (List JSON) :=
  let r0 : Except GoError (List JSON) := .ok []
  let r1 := appendRelatedImage r0 flags.cleanupVMImage "cleanup-vm"
  let r2 := appendRelatedImage r1 flags.copyTemplateImage "copy-template"
  let r3 := appendRelatedImage r2 flags.generateSSHKeys "generate-ssh-keys"
  let r4 := appendRelatedImage r3 flags.modifyDataObjectImage "modify-data-object"
  let r5 := appendCreateVMImages r4 flags.createVMImage
  let r6 := appendRelatedImage r5 flags.diskVirtCustomizeImage "disk-virt-customize"
  let r7 := appendRelatedImage r6 flags.waitForVMIStatusImage "wait-for-vmi-status"
  let r8 := appendRelatedImage r7 flags.modifyVMTemplateImage "modify-vm-template"
  appendRelatedImage r8 flags.diskVirtSysprepImage "disk-virt-sysprep"

/-! ## Variable substitution (`updateContainerEnvVars`, `replaceVariables`) -/

/-- The `switch envVariable.Name` of `updateContainerEnvVars`: the first matching
case is taken, and it assigns only when its flag is non-empty. -/
def updateEnvVar (env : Environment) (flags : generatorFlags) (envVariable : EnvVar) : EnvVar :=
  if envVariable.Name = env.OperatorVersionKey then
    if flags.operatorVersion ≠ "" then { envVariable with Value := flags.operatorVersion }
    else envVariable
  else if envVariable.Name = env.CleanupVMImageKey then
    if flags.cleanupVMImage ≠ "" then { envVariable with Value := flags.cleanupVMImage }
    else envVariable
  else if envVariable.Name = env.CopyTemplateImageKey then
    if flags.copyTemplateImage ≠ "" then { envVariable with Value := flags.copyTemplateImage }
    else envVariable
  else if envVariable.Name = env.ModifyDataObjectImageKey then
    if flags.modifyDataObjectImage ≠ "" then
      { envVariable with Value := flags.modifyDataObjectImage }
    else envVariable
  else if envVariable.Name = env.CreateVMImageKey then
    if flags.createVMImage ≠ "" then { envVariable with Value := flags.createVMImage }
    else envVariable
  else if envVariable.Name = env.DiskVirtCustomizeImageKey then
    if flags.diskVirtCustomizeImage ≠ "" then
      { envVariable with Value := flags.diskVirtCustomizeImage }
    else envVariable
  else if envVariable.Name = env.DiskVirtSysprepImageKey then
    if flags.diskVirtSysprepImage ≠ "" then
      { envVariable with Value := flags.diskVirtSysprepImage }
    else envVariable
  else if envVariable.Name = env.ModifyVMTemplateImageKey then
    if flags.modifyVMTemplateImage ≠ "" then
      { envVariable with Value := flags.modifyVMTemplateImage }
    else envVariable
  else if envVariable.Name = env.WaitForVMISTatusImageKey then
    if flags.waitForVMIStatusImage ≠ "" then
      { envVariable with Value := flags.waitForVMIStatusImage }
    else envVariable
  else if envVariable.Name = env.GenerateSSHKeysImageKey then
    if flags.generateSSHKeys ≠ "" then { envVariable with Value := flags.generateSSHKeys }
    else envVariable
  else envVariable

/-- Function `updateContainerEnvVars`: starts from an empty slice and appends the
(possibly rewritten) copy of every entry, in order. -/
def updateContainerEnvVars (env : Environment) (flags : generatorFlags)
    (container : Container) : List EnvVar :=
  container.Env.foldl
    (fun updatedVariables envVariable => updatedVariables ++ [updateEnvVar env flags envVariable])
    []

/-- The container loop of `replaceVariables`: the first container named "manager"
gets the operator image and the rewritten environment, then the loop breaks. -/
def replaceManager (env : Environment) (flags : generatorFlags) :
    List Container → List Container
  | [] => []
  | container :: rest =>
    if container.Name = "manager" then
      { container with
          Image := flags.operatorImage
          Env := updateContainerEnvVars env flags container } :: rest
    else container :: replaceManager env flags rest

/-- Function `replaceVariables`. The name is assigned before the version is parsed;
`DeploymentSpecs[0]` faults on an empty list. -/
def replaceVariables (semverNew : String → Except GoError Version) (env : Environment)
    (flags : generatorFlags) (csv : ClusterServiceVersion) : Outcome ClusterServiceVersion :=
  let csv1 := { csv with Name := "tekton-tasks-operator.v" ++ flags.csvVersion }
  match semverNew flags.csvVersion with
  | .error err => .returned csv1 (some err)
  | .ok v =>
    match csv1.Spec.InstallStrategy.StrategySpec.DeploymentSpecs with
    | [] => .panicked
    | first :: others =>
      let templateSpec : PodSpec :=
        { first.Spec.Template.Spec with
            Containers := replaceManager env flags first.Spec.Template.Spec.Containers }
      let first2 : StrategyDeploymentSpec :=
        { first with
            Spec := { first.Spec with
              Template := { Namespace := flags.«namespace», Spec := templateSpec } } }
      .returned
        { Name := csv1.Name
          Namespace := flags.«namespace»
          Spec :=
            { Version := { Version := v }
              InstallStrategy := { StrategySpec := { DeploymentSpecs := first2 :: others } }
              RelatedImages := csv1.Spec.RelatedImages } }
        none

/-! ## Certificate removal (`removeCerts`) -/

/-- The statement `append(s[:i], s[i+1:]...)` on a slice `s` of length `n`: the
elements after position `i` move one place down inside the shared backing array,
whose last cell keeps its old content. The result is the backing array as seen
through `s` afterwards; the slice returned by `append` is its first `n - 1` cells. -/
def shiftDown {α : Type} (s : List α) (i : Nat) : List α :=
  s.take i ++ s.drop (i + 1) ++ s.drop (s.length - 1)

/-- The mount loop of `removeCerts`, run from index `j` over the remaining entries
`todo` of the slice `mounts`: at the first mount named "cert" the slice is
re-sliced by `append` and the loop breaks. -/
def removeCertMount (mounts : List VolumeMount) : Nat → List VolumeMount → List VolumeMount
  | _, [] => mounts
  | j, volumeMount :: todo =>
    if volumeMount.Name = "cert" then (shiftDown mounts j).take (mounts.length - 1)
    else removeCertMount mounts (j + 1) todo

/-- The container loop of `removeCerts`: only the first container named "manager"
has its mounts rewritten. -/
def removeManagerCertMount : List Container → List Container
  | [] => []
  | container :: rest =>
    if container.Name = "manager" then
      { container with
          VolumeMounts := removeCertMount container.VolumeMounts 0 container.VolumeMounts }
        :: rest
    else container :: removeManagerCertMount rest

/-- The volume loop of `removeCerts`. `backing` is the content of the backing array
seen through `templateSpec.Volumes` (whose length never changes during the loop),
`updated` the number of cells of the slice `updatedVolumes` when it has been
reassigned. Iteration `i` reads cell `i` of the current backing array; `fuel` is
the number of iterations left. -/
def removeCertVolumesLoop : Nat → Nat → List Volume → Option Nat → List Volume × Option Nat
  | 0, _, backing, updated => (backing, updated)
  | fuel + 1, i, backing, updated =>
    match backing.get? i with
    | none => (backing, updated)
    | some volume =>
      if volume.Name = "cert" then
        removeCertVolumesLoop fuel (i + 1) (shiftDown backing i) (some (backing.length - 1))
      else removeCertVolumesLoop fuel (i + 1) backing updated

/-- The volume part of `removeCerts`: `updatedVolumes` is the original slice unless a
"cert" volume was met, in which case it is the slice returned by the last `append`. -/
def removeCertVolumes (volumes : List Volume) : List Volume :=
  match removeCertVolumesLoop volumes.length 0 volumes none with
  | (backing, none) => backing
  | (backing, some n) => backing.take n

/-- Function `removeCerts`; it returns nothing, so the only outcomes are the
mutated manifest (with no error) or a fault on `DeploymentSpecs[0]`. -/
def removeCerts (csv : ClusterServiceVersion) : Outcome ClusterServiceVersion :=
  match csv.Spec.InstallStrategy.StrategySpec.DeploymentSpecs with
  | [] => .panicked
  | first :: others =>
    let templateSpec : PodSpec :=
      { Containers := removeManagerCertMount first.Spec.Template.Spec.Containers
        Volumes := removeCertVolumes first.Spec.Template.Spec.Volumes }
    let first2 : StrategyDeploymentSpec :=
      { first with
          Spec := { first.Spec with
            Template := { first.Spec.Template with Spec := templateSpec } } }
    .returned
      { csv with
          Spec := { csv.Spec with
            InstallStrategy := { StrategySpec := { DeploymentSpecs := first2 :: others } } } }
      none

/-! ## Model of the semantic-version library -/

namespace semver

/-- The digit alphabet of the library. -/
def numbers : List Char := "0123456789".toList

/-- The alphabet allowed in pre-release and build identifiers. -/
def alphanum : List Char :=
  "abcdefghijklmnopqrstuvwxyzABCDEFGHIJKLMNOPQRSTUVWXYZ0123456789-".toList

/-- Helper `containsOnly`. -/
def containsOnly (s : List Char) (set : List Char) : Bool :=
  s.all (fun c => set.contains c)

/-- Helper `hasLeadingZeroes`. -/
def hasLeadingZeroes (s : List Char) : Bool :=
  decide (1 < s.length) && s.head? == some '0'

/-- Digit accumulation of `strconv.ParseUint` in base 10. -/
def parseDigits : List Char → Nat → Option Nat
  | [], acc => some acc
  | c :: cs, acc =>
    if numbers.contains c then parseDigits cs (acc * 10 + (c.toNat - 48)) else none

/-- Model of `strconv.ParseUint(s, 10, 64)`. -/
def ParseUint (s : List Char) : Except GoError Nat :=
  if s = [] then .error "invalid syntax"
  else
    match parseDigits s 0 with
    | none => .error "invalid syntax"
    | some n => if n < 2 ^ 64 then .ok n else .error "value out of range"

/-- Splits at the first occurrence of `sep`, if there is one. -/
def cut (sep : Char) : List Char → Option (List Char × List Char)
  | [] => none
  | c :: cs =>
    if c = sep then some ([], cs)
    else
      match cut sep cs with
      | none => none
      | some (before, after) => some (c :: before, after)

/-- Model of `strings.Split(s, sep)` for a one-character separator. -/
def Split (sep : Char) : List Char → List (List Char)
  | [] => [[]]
  | c :: cs =>
    if c = sep then [] :: Split sep cs
    else
      match Split sep cs with
      | [] => [[c]]
      | part :: parts => (c :: part) :: parts

/-- Model of `strings.SplitN(s, ".", 3)`. -/
def SplitN3 (s : List Char) : List (List Char) :=
  match cut '.' s with
  | none => [s]
  | some (a, rest) =>
    match cut '.' rest with
    | none => [a, rest]
    | some (b, rest2) => [a, b, rest2]

/-- Model of `NewPRVersion`. -/
def NewPRVersion (s : List Char) : Except GoError PRVersion :=
  if s = [] then .error "Prerelease is empty"
  else if containsOnly s numbers then
    if hasLeadingZeroes s then .error "Numeric PreRelease version must not contain leading zeroes"
    else
      match ParseUint s with
      | .error err => .error err
      | .ok num => .ok { VersionStr := "", VersionNum := num, IsNum := true }
  else if containsOnly s alphanum then
    .ok { VersionStr := String.mk s, VersionNum := 0, IsNum := false }
  else .error "Invalid character(s) found in prerelease"

/-- Parses one numeric component (major, minor or patch). -/
def parseNumber (s : List Char) : Except GoError Nat :=
  if !containsOnly s numbers then .error "Invalid character(s) found in number"
  else if hasLeadingZeroes s then .error "Number must not contain leading zeroes"
  else ParseUint s

/-- The pre-release loop of `Parse`. -/
def parsePre : List (List Char) → Except GoError (List PRVersion)
  | [] => .ok []
  | prstr :: rest =>
    match NewPRVersion prstr with
    | .error err => .error err
    | .ok parsedPR =>
      match parsePre rest with
      | .error err => .error err
      | .ok more => .ok (parsedPR :: more)

/-- The build meta data loop of `Parse`. -/
def parseBuild : List (List Char) → Except GoError (List String)
  | [] => .ok []
  | str :: rest =>
    if str = [] then .error "Build meta data is empty"
    else if !containsOnly str alphanum then .error "Invalid character(s) found in build meta data"
    else
      match parseBuild rest with
      | .error err => .error err
      | .ok more => .ok (String.mk str :: more)

/-- Modelled from the spec: the parser `semver.Parse` of the semantic-version
library, whose code is not among the sources of the repository. A version is
major.minor.patch with optional pre-release and build metadata; the numbers are
decimal without leading zeroes, the identifiers are dot-separated and non-empty. -/
def Parse (s : List Char) : Except GoError Version :=
  if s = [] then .error "Version string empty"
  else
    match SplitN3 s with
    | [p0, p1, p2] =>
      match parseNumber p0 with
      | .error err => .error err
      | .ok major =>
        match parseNumber p1 with
        | .error err => .error err
        | .ok minor =>
          let (patchStr1, build) :=
            match cut '+' p2 with
            | some (before, after) => (before, Split '.' after)
            | none => (p2, [])
          let (patchStr, prerelease) :=
            match cut '-' patchStr1 with
            | some (before, after) => (before, Split '.' after)
            | none => (patchStr1, [])
          match parseNumber patchStr with
          | .error err => .error err
          | .ok patch =>
            match parsePre prerelease with
            | .error err => .error err
            | .ok pre =>
              match parseBuild build with
              | .error err => .error err
              | .ok bld =>
                .ok { Major := major, Minor := minor, Patch := patch, Pre := pre, Build := bld }
    | _ => .error "No Major.Minor.Patch elements found"

/-- Modelled from the spec: `semver.New`, the parser `replaceVariables` calls; it is
`semver.Parse` on the characters of the string. -/
def New (s : String) : Except GoError Version :=
  Parse s.toList

end semver

/-! ## Generic documents: the helpers of package `unstructured` -/

namespace unstructured

/-- Map read `m[key]`. -/
def lookup (key : String) : Object → Option JSON
  | [] => none
  | (k, v) :: rest => if k = key then some v else lookup key rest

/-- Statement `delete(m, key)`. -/
def delete (key : String) : Object → Object
  | [] => []
  | (k, v) :: rest => if k = key then delete key rest else (k, v) :: delete key rest

/-- Map write `m[key] = value`: the entry is replaced where it stands, or added. -/
def insert (key : String) (value : JSON) : Object → Object
  | [] => [(key, value)]
  | (k, v) :: rest => if k = key then (key, value) :: rest else (k, v) :: insert key value rest

/-- Helper `RemoveNestedField`: walks down the maps named by all fields but the last
and deletes the last one there; it returns silently when an intermediate value is
missing or is not a map. The maps are mutated in place, so the parent sees the
change. (The generator never calls it with an empty path.) -/
def RemoveNestedField (obj : Object) : List String → Object
  | [] => obj
  | [field] => delete field obj
  | field :: next :: rest =>
    match lookup field obj with
    | some (.obj x) => insert field (.obj (RemoveNestedField x (next :: rest))) obj
    | _ => obj

/-- Helper `NestedFieldNoCopy` as the triple (value, found, error): `.ok none` is
"not found", a non-map on the way is an error, a nil value on the way is
"not found". -/
def NestedFieldNoCopy (val : JSON) : List String → Except GoError (Option JSON)
  | [] => .ok (some val)
  | field :: rest =>
    match val with
    | .null => .ok none
    | .obj m =>
      match lookup field m with
      | none => .ok none
      | some v => NestedFieldNoCopy v rest
    | _ => .error "accessor error: expected map[string]interface{}"

/-- Helper `NestedSlice`: a (deep) copy of the slice at the path; a value found
there that is not a slice is an error. -/
def NestedSlice (obj : Object) (fields : List String) : Except GoError (Option (List JSON)) :=
  match NestedFieldNoCopy (.obj obj) fields with
  | .error err => .error err
  | .ok none => .ok none
  | .ok (some (.arr items)) => .ok (some items)
  | .ok (some _) => .error "accessor error: expected []interface{}"

/-- Helper `setNestedFieldNoCopy`: missing intermediate maps are created, an
intermediate value that is not a map is an error (and nothing has been written
by then). -/
def setNestedFieldNoCopy (obj : Object) (value : JSON) : List String → Except GoError Object
  | [] => .ok obj
  | [field] => .ok (insert field value obj)
  | field :: next :: rest =>
    match lookup field obj with
    | some (.obj valMap) =>
      match setNestedFieldNoCopy valMap value (next :: rest) with
      | .error err => .error err
      | .ok m => .ok (insert field (.obj m) obj)
    | some _ => .error "value cannot be set because the path is not a map[string]interface{}"
    | none =>
      match setNestedFieldNoCopy [] value (next :: rest) with
      | .error err => .error err
      | .ok m => .ok (insert field (.obj m) obj)

/-- Helper `SetNestedSlice`. -/
def SetNestedSlice (obj : Object) (value : List JSON) (fields : List String) :
    Except GoError Object :=
  setNestedFieldNoCopy obj (.arr value) fields

end unstructured

/-! ## Serialization (`marshallObject`) and the run (`runGenerator`) -/

/-- What is written to the output stream: the separator line or a YAML document,
the latter represented by the document tree it serializes. -/
inductive Chunk where
  | separator
  | document (doc : Object)
  deriving Repr

/-- The output stream, as the sequence of writes it has accepted. The stream is
standard output; its writes are taken to succeed. -/
abbrev Writer := List Chunk

/-- A call of `unstructured.SetNestedSlice` whose returned error is dropped, as
`marshallObject` does: on error the document is as before. -/
def setNestedSliceIgnoringError (obj : Object) (value : List JSON) (fields : List String) :
    Object :=
  match unstructured.SetNestedSlice obj value fields with
  | .ok m => m
  | .error _ => obj

/-- The loop over `deployments` in `marshallObject`; `none` is the fault of the
type assertion `obj.(map[string]interface{})` on an element that is not a map. -/
def cleanDeployments : List JSON → Option (List JSON)
  | [] => some []
  | .obj deployment :: rest =>
    let d1 := unstructured.RemoveNestedField deployment ["metadata", "creationTimestamp"]
    let d2 := unstructured.RemoveNestedField d1
      ["spec", "template", "metadata", "creationTimestamp"]
    let d3 := unstructured.RemoveNestedField d2 ["status"]
    match cleanDeployments rest with
    | none => none
    | some cleaned => some (.obj d3 :: cleaned)
  | _ :: _ => none

/-- Function `marshallObject`. `jsonRoundTrip` is `json.Marshal` followed by
`json.Unmarshal` into `r.Object`. Marshalling the resulting tree and converting
it to YAML do not fail. -/
def marshallObject {α : Type} (jsonRoundTrip : α → Except GoError Object) (obj : α)
    (relatedImages : List JSON) (writer : Writer) : Outcome Writer :=
  match jsonRoundTrip obj with
  | .error err => .returned writer (some err)
  | .ok r0 =>
    let r1 := unstructured.RemoveNestedField r0 ["metadata", "creationTimestamp"]
    let r2 := unstructured.RemoveNestedField r1 ["template", "metadata", "creationTimestamp"]
    let r3 := unstructured.RemoveNestedField r2
      ["spec", "template", "metadata", "creationTimestamp"]
    let r4 := unstructured.RemoveNestedField r3 ["status"]
    match unstructured.NestedSlice r4 ["spec", "install", "spec", "deployments"] with
    | .error err => .returned writer (some err)
    | .ok found =>
      let cleaned : Option Object :=
        match found with
        | none => some r4
        | some deployments =>
          match cleanDeployments deployments with
          | none => none
          | some deployments2 =>
            some (setNestedSliceIgnoringError r4 deployments2
              ["spec", "install", "spec", "deployments"])
      match cleaned with
      | none => .panicked
      | some r5 =>
        let r6 :=
          if relatedImages.length > 0 then
            setNestedSliceIgnoringError r5 relatedImages ["spec", "relatedImages"]
          else r5
        .returned (writer ++ [Chunk.separator, Chunk.document r6]) none

/-- Type `extv1beta1.CustomResourceDefinition`, represented by its JSON encoding. -/
abbrev CustomResourceDefinition := Object

/-- The loop over the files of `data/crd` in `runGenerator`. -/
def dumpCRDs (readAndDecodeToCRD : String → Except GoError CustomResourceDefinition) :
    List String → Writer → Outcome Writer
  | [], stdout => .returned stdout none
  | file :: files, stdout =>
    match readAndDecodeToCRD file with
    | .error err => .returned stdout (some err)
    | .ok crd =>
      match marshallObject (fun c => Except.ok c) crd [] stdout with
      | .panicked => .panicked
      | .returned stdout2 (some err) => .returned stdout2 (some err)
      | .returned stdout2 none => dumpCRDs readAndDecodeToCRD files stdout2

/-- Function `runGenerator`. The environment of the run is given by parameters:
`readCSV` is reading and decoding the template file, `jsonRoundTrip` the JSON
encoding of the typed manifest, `readDir` the listing of `data/crd`. -/
def runGenerator (semverNew : String → Except GoError Version) (env : Environment)
    (readCSV : String → Except GoError ClusterServiceVersion)
    (jsonRoundTrip : ClusterServiceVersion → Except GoError Object)
    (readDir : Except GoError (List String))
    (readAndDecodeToCRD : String → Except GoError CustomResourceDefinition)
    (f : generatorFlags) (stdout : Writer) : Outcome Writer :=
  match readCSV f.file with
  | .error err => .returned stdout (some err)
  | .ok csv0 =>
    match replaceVariables semverNew env f csv0 with
    | .panicked => .panicked
    | .returned _ (some err) => .returned stdout (some err)
    | .returned csv1 none =>
      match (if f.removeCerts then removeCerts csv1 else .returned csv1 none) with
      | .panicked => .panicked
      | .returned _ (some err) => .returned stdout (some err)
      | .returned csv2 none =>
        match buildRelatedImages f with
        | .error err => .returned stdout (some err)
        | .ok relatedImages =>
          match marshallObject jsonRoundTrip csv2 relatedImages stdout with
          | .panicked => .panicked
          | .returned stdout2 (some err) => .returned stdout2 (some err)
          | .returned stdout2 none =>
            if !f.dumpCRDs then .returned stdout2 none
            else
              match readDir with
              | .error err => .returned stdout2 (some err)
              | .ok files => dumpCRDs readAndDecodeToCRD files stdout2

/-! ## JSON encoding of the typed manifest -/

/-- An `omitempty` string field. -/
def omitEmptyString (key : String) (value : String) : Object :=
  if value = "" then [] else [(key, .str value)]

/-- An `omitempty` slice field. -/
def omitEmptyList (key : String) (items : List JSON) : Object :=
  match items with
  | [] => []
  | _ :: _ => [(key, .arr items)]

/-- Modelled from the spec: method `String` of `semver.PRVersion`, the rendering of
one pre-release identifier. -/
def PRVersion.String (v : PRVersion) : String :=
  if v.IsNum then toString v.VersionNum else v.VersionStr

/-- Modelled from the spec: method `String` of `semver.Version`, which renders a
version back to major.minor.patch, then "-" and the pre-release identifiers, then
"+" and the build identifiers, each section only when it has identifiers. -/
def Version.String (v : Version) : String :=
  let core := toString v.Major ++ "." ++ toString v.Minor ++ "." ++ toString v.Patch
  let pre :=
    match v.Pre with
    | [] => ""
    | _ :: _ => "-" ++ ".".intercalate (v.Pre.map PRVersion.String)
  let build :=
    match v.Build with
    | [] => ""
    | _ :: _ => "+" ++ ".".intercalate v.Build
  core ++ pre ++ build

/-- JSON form of `v1.EnvVar`. -/
def encodeEnvVar (e : EnvVar) : JSON :=
  .obj ([("name", .str e.Name)] ++ omitEmptyString "value" e.Value)

/-- JSON form of `v1.VolumeMount`. -/
def encodeVolumeMount (m : VolumeMount) : JSON :=
  .obj [("name", .str m.Name), ("mountPath", .str m.MountPath)]

/-- JSON form of `v1.Volume`; the description of the volume source is kept under
one key. -/
def encodeVolume (v : Volume) : JSON :=
  .obj ([("name", .str v.Name)] ++ omitEmptyString "source" v.Source)

/-- JSON form of `v1.Container`. -/
def encodeContainer (c : Container) : JSON :=
  .obj ([("name", .str c.Name)] ++ omitEmptyString "image" c.Image
    ++ omitEmptyList "env" (c.Env.map encodeEnvVar)
    ++ omitEmptyList "volumeMounts" (c.VolumeMounts.map encodeVolumeMount))

/-- JSON form of `v1.PodTemplateSpec`; the creation timestamp of the metadata has
no `omitempty` and is emitted as null. -/
def encodePodTemplateSpec (t : PodTemplateSpec) : JSON :=
  .obj [("metadata", .obj (omitEmptyString "namespace" t.Namespace
          ++ [("creationTimestamp", .null)])),
        ("spec", .obj ([("containers", .arr (t.Spec.Containers.map encodeContainer))]
          ++ omitEmptyList "volumes" (t.Spec.Volumes.map encodeVolume)))]

/-- JSON form of `csvv1.StrategyDeploymentSpec`. -/
def encodeDeployment (d : StrategyDeploymentSpec) : JSON :=
  .obj [("name", .str d.Name),
        ("spec", .obj [("template", encodePodTemplateSpec d.Spec.Template)])]

/-- JSON form of `csvv1.RelatedImage`. -/
def encodeRelatedImage (r : RelatedImage) : JSON :=
  .obj [("name", .str r.Name), ("image", .str r.Image)]

/-- JSON form of the deployment list (tag `deployments`, without `omitempty`). A
list without elements stands for the nil slice of a manifest that declares no
deployment, which `json.Marshal` encodes as `null`; a list with elements is encoded
as a sequence. -/
def encodeDeployments : List StrategyDeploymentSpec → JSON
  | [] => .null
  | first :: rest => .arr ((first :: rest).map encodeDeployment)

/-- The JSON tree of a typed manifest, following the JSON tags of the library
types, for the fields of the data model above together with the ones
`marshallObject` deletes (`creationTimestamp`, `status`). -/
def toUnstructured (csv : ClusterServiceVersion) : Object :=
  [("metadata", .obj (omitEmptyString "name" csv.Name
      ++ omitEmptyString "namespace" csv.Namespace ++ [("creationTimestamp", .null)])),
   ("spec", .obj ([("install", .obj [("spec", .obj [("deployments",
        encodeDeployments csv.Spec.InstallStrategy.StrategySpec.DeploymentSpecs)])]),
      ("version", .str csv.Spec.Version.Version.String)]
      ++ omitEmptyList "relatedImages" (csv.Spec.RelatedImages.map encodeRelatedImage))),
   ("status", .obj [])]

/-- The round trip `json.Marshal` / `json.Unmarshal` of a typed manifest. -/
def csvRoundTrip (csv : ClusterServiceVersion) : Except GoError Object :=
  .ok (toUnstructured csv)

/-! ## Concrete inputs used to evaluate the definitions -/

/-- A key set for concrete evaluations; the operator-version key is the one named
in the specification's scenario, the others follow the same naming scheme. -/
def sampleEnvironment : Environment :=
  { OperatorVersionKey := "OPERATOR_VERSION"
    CleanupVMImageKey := "CLEANUP_VM_IMG"
    CopyTemplateImageKey := "COPY_TEMPLATE_IMG"
    ModifyDataObjectImageKey := "MODIFY_DATA_OBJECT_IMG"
    CreateVMImageKey := "CREATE_VM_IMG"
    DiskVirtCustomizeImageKey := "DISK_VIRT_CUSTOMIZE_IMG"
    DiskVirtSysprepImageKey := "DISK_VIRT_SYSPREP_IMG"
    ModifyVMTemplateImageKey := "MODIFY_VM_TEMPLATE_IMG"
    WaitForVMISTatusImageKey := "WAIT_FOR_VMI_STATUS_IMG"
    GenerateSSHKeysImageKey := "GENERATE_SSH_KEYS_IMG" }

/-- Flags with only the four required values set. -/
def sampleFlags : generatorFlags :=
  { file := "data/olm-catalog/tekton-tasks-operator.clusterserviceversion.yaml"
    dumpCRDs := false
    removeCerts := false
    «namespace» := "ns1"
    csvVersion := "2.0.0"
    pipelinesNamespace := ""
    operatorImage := "quay.io/kubevirt/tekton-tasks-operator:v2"
    operatorVersion := "1.2.3"
    waitForVMIStatusImage := ""
    modifyVMTemplateImage := ""
    diskVirtSysprepImage := ""
    diskVirtCustomizeImage := ""
    createVMImage := ""
    modifyDataObjectImage := ""
    copyTemplateImage := ""
    cleanupVMImage := ""
    generateSSHKeys := "" }

/-- The zero value of `semver.Version`. -/
def zeroVersion : Version :=
  { Major := 0, Minor := 0, Patch := 0, Pre := [], Build := [] }

/-- A manager container with an operator-version entry, a foreign entry and two
mounts, one of them the certificate mount. -/
def sampleManager : Container :=
  { Name := "manager"
    Image := "template-image"
    Env := [{ Name := "OPERATOR_VERSION", Value := "old" },
            { Name := "HOME", Value := "/root" },
            { Name := "CREATE_VM_IMG", Value := "template-create-vm" }]
    VolumeMounts := [{ Name := "cert", MountPath := "/tmp/k8s-webhook-server/serving-certs" },
                     { Name := "data", MountPath := "/data" }] }

/-- A side container that is not the manager. -/
def sampleSidecar : Container :=
  { Name := "kube-rbac-proxy", Image := "proxy-image", Env := [], VolumeMounts := [] }

/-- A deployment specification with the given containers and a certificate volume. -/
def sampleDeployment (name : String) (containers : List Container) : StrategyDeploymentSpec :=
  { Name := name
    Spec := { Template :=
      { Namespace := "template-ns"
        Spec := { Containers := containers
                  Volumes := [{ Name := "cert", Source := "secret" }] } } } }

/-- A manifest with the given deployment specifications and template related images. -/
def sampleManifest (deployments : List StrategyDeploymentSpec)
    (relatedImages : List RelatedImage) : ClusterServiceVersion :=
  { Name := "template-name"
    Namespace := "template-ns"
    Spec := { Version := { Version := zeroVersion }
              InstallStrategy := { StrategySpec := { DeploymentSpecs := deployments } }
              RelatedImages := relatedImages } }

/-- A usual template: a side container, the manager, and a second deployment. -/
def usualManifest : ClusterServiceVersion :=
  sampleManifest
    [sampleDeployment "tekton-tasks-operator" [sampleSidecar, sampleManager],
     sampleDeployment "second" [sampleSidecar]]
    []

/-! ## Specification-side tables -/

/-- The mapping from recognized environment keys to configuration values, as the
specification words it: the operator-version key and the nine task-image keys,
each with the one configuration field it is mapped to. -/
def recognizedKeys (env : Environment) (flags : generatorFlags) : List (String × String) :=
  [(env.OperatorVersionKey, flags.operatorVersion),
   (env.CleanupVMImageKey, flags.cleanupVMImage),
   (env.CopyTemplateImageKey, flags.copyTemplateImage),
   (env.ModifyDataObjectImageKey, flags.modifyDataObjectImage),
   (env.CreateVMImageKey, flags.createVMImage),
   (env.DiskVirtCustomizeImageKey, flags.diskVirtCustomizeImage),
   (env.DiskVirtSysprepImageKey, flags.diskVirtSysprepImage),
   (env.ModifyVMTemplateImageKey, flags.modifyVMTemplateImage),
   (env.WaitForVMISTatusImageKey, flags.waitForVMIStatusImage),
   (env.GenerateSSHKeysImageKey, flags.generateSSHKeys)]

/-- A `switch` over a table of (key, value) cases: the first case whose key equals
the entry's name is taken. Used to reason about `updateEnvVar` by induction. -/
def switchValue : List (String × String) → EnvVar → EnvVar
  | [], e => e
  | (key, value) :: rest, e =>
    if e.Name = key then
      if value ≠ "" then { e with Value := value } else e
    else switchValue rest e

/-- The nine optional image fields with their logical names, as the specification
lists them: ten (logical name, field value) pairs in the fixed order, the create-VM
field standing under two names. -/
def relatedImageTable (flags : generatorFlags) : List (String × String) :=
  [("cleanup-vm", flags.cleanupVMImage),
   ("copy-template", flags.copyTemplateImage),
   ("generate-ssh-keys", flags.generateSSHKeys),
   ("modify-data-object", flags.modifyDataObjectImage),
   ("create-vm-from-manifest", flags.createVMImage),
   ("create-vm-from-template", flags.createVMImage),
   ("disk-virt-customize", flags.diskVirtCustomizeImage),
   ("wait-for-vmi-status", flags.waitForVMIStatusImage),
   ("modify-vm-template", flags.modifyVMTemplateImage),
   ("disk-virt-sysprep", flags.diskVirtSysprepImage)]

/-- The related-image record with the given logical name and image reference. -/
def relatedImageRecord (name : String) (image : String) : JSON :=
  .obj [("name", .str name), ("image", .str image)]

/-- The records a table of (logical name, field value) pairs stands for: one per
pair whose value is non-empty, in the order of the table. -/
def recordsOf : List (String × String) → List JSON
  | [] => []
  | (name, value) :: rest =>
    if value ≠ "" then relatedImageRecord name value :: recordsOf rest else recordsOf rest

/-- The logical name a record carries, if it has one. -/
def recordName (r : JSON) : Option String :=
  match r with
  | .obj fields =>
    match unstructured.lookup "name" fields with
    | some (.str s) => some s
    | _ => none
  | _ => none

/-- The image reference a record carries, if it has one. -/
def recordImage (r : JSON) : Option String :=
  match r with
  | .obj fields =>
    match unstructured.lookup "image" fields with
    | some (.str s) => some s
    | _ => none
  | _ => none

/-- The deployment specifications of a manifest. -/
def deploymentSpecs (csv : ClusterServiceVersion) : List StrategyDeploymentSpec :=
  csv.Spec.InstallStrategy.StrategySpec.DeploymentSpecs

/-- The container list of the first deployment's pod template, when there is one. -/
def firstContainers (csv : ClusterServiceVersion) : Option (List Container) :=
  match deploymentSpecs csv with
  | [] => none
  | first :: _ => some first.Spec.Template.Spec.Containers

/-- The `spec.relatedImages` entry of the JSON form of a typed manifest: absent for
an empty list (`omitempty`), the encoded list otherwise. -/
def templateRelatedImages (csv : ClusterServiceVersion) : Option JSON :=
  match csv.Spec.RelatedImages with
  | [] => none
  | first :: rest => some (.arr ((first :: rest).map encodeRelatedImage))

/-- The document `marshallObject` writes for a typed manifest, given the cleaned
deployment elements and the synthesized related images. -/
def renderedManifest (csv : ClusterServiceVersion) (cleaned : List JSON)
    (relatedImages : List JSON) : Object :=
  [("metadata", .obj (unstructured.delete "creationTimestamp"
      (omitEmptyString "name" csv.Name ++ omitEmptyString "namespace" csv.Namespace
        ++ [("creationTimestamp", .null)]))),
   ("spec", .obj ([("install", .obj [("spec", .obj [("deployments", .arr cleaned)])]),
      ("version", .str csv.Spec.Version.Version.String)]
      ++ (if relatedImages.length > 0 then [("relatedImages", JSON.arr relatedImages)]
          else omitEmptyList "relatedImages" (csv.Spec.RelatedImages.map encodeRelatedImage))))]

/-- A template that already carries a `spec.relatedImages` list. -/
def manifestWithRelatedImages : ClusterServiceVersion :=
  sampleManifest [sampleDeployment "tekton-tasks-operator" [sampleManager]]
    [{ Name := "template-image", Image := "quay.io/template:1" }]

/-- The first container named "manager" of a container list, if there is one. -/
def firstManager : List Container → Option Container
  | [] => none
  | container :: rest => if container.Name = "manager" then some container else firstManager rest

/-- The volume list of the first deployment's pod template, when there is one. -/
def firstVolumes (csv : ClusterServiceVersion) : Option (List Volume) :=
  match deploymentSpecs csv with
  | [] => none
  | first :: _ => some first.Spec.Template.Spec.Volumes

/-- The fixed sequence of logical names of related images. -/
def relatedImageNames : List String :=
  ["cleanup-vm", "copy-template", "generate-ssh-keys", "modify-data-object",
   "create-vm-from-manifest", "create-vm-from-template", "disk-virt-customize",
   "wait-for-vmi-status", "modify-vm-template", "disk-virt-sysprep"]

/-- A manifest whose pod template has the given volumes and only the manager
container. -/
def manifestWithVolumes (volumes : List Volume) : ClusterServiceVersion :=
  sampleManifest
    [{ Name := "tekton-tasks-operator"
       Spec := { Template :=
         { Namespace := "template-ns"
           Spec := { Containers := [sampleManager], Volumes := volumes } } } }]
    []

/-- A manager container without the certificate mount. -/
def sampleManagerNoCert : Container :=
  { sampleManager with VolumeMounts := [{ Name := "data", MountPath := "/data" }] }

/-- A manifest with neither a "cert" mount nor a "cert" volume. -/
def manifestWithoutCerts : ClusterServiceVersion :=
  sampleManifest
    [{ Name := "tekton-tasks-operator"
       Spec := { Template :=
         { Namespace := "template-ns"
           Spec := { Containers := [sampleSidecar, sampleManagerNoCert]
                     Volumes := [{ Name := "data", Source := "emptyDir" }] } } } }]
    []

/-! ## Paths in generic documents -/

/-- The entry of a document at a path: the value `NestedFieldNoCopy` reports as
found there, if it finds one. -/
def valueAt (val : JSON) (fields : List String) : Option JSON :=
  match unstructured.NestedFieldNoCopy val fields with
  | .ok (some v) => some v
  | _ => none

/-- Two paths diverge when they differ at a position that both of them have: neither
is then equal to, below or above the other. -/
def diverges : List String → List String → Bool
  | a :: p, b :: q => if a = b then diverges p q else true
  | _, _ => false

/-- The path of the deployment specifications in the document. -/
def deploymentsPath : List String := ["spec", "install", "spec", "deployments"]

/-- The path of the related images in the document. -/
def relatedImagesPath : List String := ["spec", "relatedImages"]

/-- The four paths `marshallObject` deletes from the document. -/
def strippedPaths : List (List String) :=
  [["metadata", "creationTimestamp"], ["template", "metadata", "creationTimestamp"],
   ["spec", "template", "metadata", "creationTimestamp"], ["status"]]

/-- The three paths `marshallObject` deletes from every deployment element. -/
def elementStrippedPaths : List (List String) :=
  [["metadata", "creationTimestamp"], ["spec", "template", "metadata", "creationTimestamp"],
   ["status"]]

/-- A sequence of `RemoveNestedField` calls on the same map. -/
def removeAll (obj : Object) (paths : List (List String)) : Object :=
  paths.foldl unstructured.RemoveNestedField obj

/-- What the loop of `marshallObject` does to one deployment element that is a map. -/
def cleanElement (element : JSON) : JSON :=
  match element with
  | .obj deployment => .obj (removeAll deployment elementStrippedPaths)
  | other => other

/-- Whether a JSON value is a map. -/
def JSON.isObject : JSON → Bool
  | .obj _ => true
  | _ => false

/-- The body of `marshallObject` after the JSON round trip, as a function of the
document: an error, `.ok none` for the fault of the type assertion, or the document
that is written. -/
def renderDocument (r0 : Object) (relatedImages : List JSON) : Except GoError (Option Object) :=
  let r4 := removeAll r0 strippedPaths
  match unstructured.NestedSlice r4 deploymentsPath with
  | .error err => .error err
  | .ok none =>
    .ok (some (if relatedImages.length > 0 then
      setNestedSliceIgnoringError r4 relatedImages relatedImagesPath else r4))
  | .ok (some deployments) =>
    match cleanDeployments deployments with
    | none => .ok none
    | some deployments2 =>
      .ok (some (if relatedImages.length > 0 then
        setNestedSliceIgnoringError
          (setNestedSliceIgnoringError r4 deployments2 deploymentsPath)
          relatedImages relatedImagesPath
        else setNestedSliceIgnoringError r4 deployments2 deploymentsPath))

/-- The documents `marshallObject` renders: the deployments path is not found, or it
holds a sequence whose elements are all maps. -/
def deploymentsRenderable (r0 : Object) : Prop :=
  unstructured.NestedFieldNoCopy (.obj r0) deploymentsPath = .ok none
    ∨ ∃ deployments,
        unstructured.NestedFieldNoCopy (.obj r0) deploymentsPath = .ok (some (.arr deployments))
          ∧ ∀ d ∈ deployments, d.isObject = true

/-- An optional entry that is missing or is a map: what `setNestedFieldNoCopy` can
walk through. -/
def mapOrAbsent (entry : Option JSON) : Prop :=
  entry = none ∨ ∃ x, entry = some (.obj x)

/-- The document after the deletions and the rewriting of the deployment elements,
before the related images are set: either the deployments path is not found and
only the four paths are deleted, or it holds a sequence of maps, which is replaced
by the sequence of cleaned elements. -/
def cleanedStage (r0 r5 : Object) : Prop :=
  (unstructured.NestedFieldNoCopy (.obj r0) deploymentsPath = .ok none
      ∧ r5 = removeAll r0 strippedPaths)
    ∨ ∃ deployments,
        unstructured.NestedFieldNoCopy (.obj r0) deploymentsPath = .ok (some (.arr deployments))
          ∧ (∀ d ∈ deployments, d.isObject = true)
          ∧ r5 = setNestedSliceIgnoringError (removeAll r0 strippedPaths)
                  (deployments.map cleanElement) deploymentsPath

/-- A document that carries all the fields `marshallObject` deletes, a deployment
element that carries them too, and a related-images list of its own. -/
def noisyDocument : Object :=
  [("metadata", .obj [("name", .str "n"), ("creationTimestamp", .null)]),
   ("template", .obj [("metadata", .obj [("creationTimestamp", .str "t")])]),
   ("spec", .obj
      [("template", .obj [("metadata", .obj [("creationTimestamp", .null), ("labels", .obj [])])]),
       ("install", .obj [("strategy", .str "deployment"),
          ("spec", .obj [("deployments", .arr
            [.obj [("name", .str "d"),
                   ("metadata", .obj [("creationTimestamp", .null)]),
                   ("spec", .obj [("replicas", .num 1),
                      ("template", .obj [("metadata", .obj [("creationTimestamp", .null)])])]),
                   ("status", .obj [])]])])]),
       ("relatedImages", .arr [.str "old"])]),
   ("status", .obj [("phase", .str "Succeeded")])]

/-- The deployment element of `noisyDocument`. -/
def noisyDeployment : JSON :=
  .obj [("name", .str "d"),
        ("metadata", .obj [("creationTimestamp", .null)]),
        ("spec", .obj [("replicas", .num 1),
           ("template", .obj [("metadata", .obj [("creationTimestamp", .null)])])]),
        ("status", .obj [])]

/-- The identity round trip, for an input that is a document already. -/
def documentRoundTrip (doc : Object) : Except GoError Object :=
  .ok doc

/-- The characters of the identifiers after the first one, each preceded by a dot. -/
def joinTail : List (List Char) → List Char
  | [] => []
  | a :: rest => '.' :: (a ++ joinTail rest)

/-- The characters of dot-separated identifiers. -/
def joinDots : List (List Char) → List Char
  | [] => []
  | a :: rest => a ++ joinTail rest

/-- The characters of an optional section of a version string: nothing for no
identifiers, else the separator followed by the dot-separated identifiers. -/
def sectionChars (sep : Char) (items : List (List Char)) : List Char :=
  match items with
  | [] => []
  | _ :: _ => sep :: joinDots items

/-! ## Substitution: lemmas -/

theorem updateEnvVar_eq_switchValue (env : Environment) (flags : generatorFlags) (e : EnvVar) :
    updateEnvVar env flags e = switchValue (recognizedKeys env flags) e := rfl

theorem recognizedKeys_keys (env : Environment) (flags : generatorFlags) :
    (recognizedKeys env flags).map Prod.fst = env.keys := rfl

theorem switchValue_name (table : List (String × String)) (e : EnvVar) :
    (switchValue table e).Name = e.Name := by
  induction table with
  | nil => rfl
  | cons kv rest ih =>
    obtain ⟨key, value⟩ := kv
    simp only [switchValue]
    split_ifs <;> first | rfl | exact ih

theorem switchValue_changed (table : List (String × String)) (e : EnvVar)
    (h : (switchValue table e).Value ≠ e.Value) : e.Name ∈ table.map Prod.fst := by
  induction table with
  | nil => exact absurd rfl h
  | cons kv rest ih =>
    obtain ⟨key, value⟩ := kv
    simp only [switchValue] at h
    by_cases hk : e.Name = key
    · simp [hk]
    · rw [if_neg hk] at h
      simp [ih h]

theorem switchValue_recognized (table : List (String × String)) (e : EnvVar)
    (hk : (table.map Prod.fst).Nodup) (key value : String) (hm : (key, value) ∈ table)
    (hn : e.Name = key) (hv : value ≠ "") : (switchValue table e).Value = value := by
  induction table with
  | nil => simp at hm
  | cons kv rest ih =>
    obtain ⟨k, v⟩ := kv
    simp only [List.map_cons, List.nodup_cons] at hk
    simp only [switchValue]
    rcases List.mem_cons.mp hm with heq | hrest
    · obtain ⟨h1, h2⟩ := Prod.mk.inj heq
      subst h1 h2
      rw [if_pos hn, if_pos hv]
    · have hne : e.Name ≠ k := by
        intro hek
        apply hk.1
        rw [← hek, hn]
        exact List.mem_map_of_mem Prod.fst hrest
      rw [if_neg hne]
      exact ih hk.2 hrest

theorem switchValue_unchanged (table : List (String × String)) (e : EnvVar)
    (h : ∀ key value, (key, value) ∈ table → e.Name = key → value = "") :
    switchValue table e = e := by
  induction table with
  | nil => rfl
  | cons kv rest ih =>
    obtain ⟨k, v⟩ := kv
    simp only [switchValue]
    by_cases hk : e.Name = k
    · have hv : v = "" := h k v (List.mem_cons_self _ _) hk
      rw [if_pos hk, if_neg (by simpa using hv)]
    · rw [if_neg hk]
      exact ih (fun key value hm => h key value (List.mem_cons_of_mem _ hm))

theorem foldl_append_singleton {α β : Type} (f : α → β) (l : List α) (acc : List β) :
    l.foldl (fun out a => out ++ [f a]) acc = acc ++ l.map f := by
  induction l generalizing acc with
  | nil => simp
  | cons a l ih => simp [ih]

theorem updateContainerEnvVars_eq_map (env : Environment) (flags : generatorFlags)
    (container : Container) :
    updateContainerEnvVars env flags container = container.Env.map (updateEnvVar env flags) := by
  unfold updateContainerEnvVars
  rw [foldl_append_singleton]
  simp

theorem replaceVariables_of_error (semverNew : String → Except GoError Version)
    (env : Environment) (flags : generatorFlags) (csv : ClusterServiceVersion) (err : GoError)
    (hv : semverNew flags.csvVersion = .error err) :
    replaceVariables semverNew env flags csv
      = .returned { csv with Name := "tekton-tasks-operator.v" ++ flags.csvVersion } (some err) := by
  unfold replaceVariables
  simp only [hv]

theorem replaceVariables_of_nil (semverNew : String → Except GoError Version)
    (env : Environment) (flags : generatorFlags) (csv : ClusterServiceVersion) (v : Version)
    (hv : semverNew flags.csvVersion = .ok v) (hd : deploymentSpecs csv = []) :
    replaceVariables semverNew env flags csv = .panicked := by
  unfold deploymentSpecs at hd
  unfold replaceVariables
  simp only [hv, hd]

theorem replaceVariables_of_cons (semverNew : String → Except GoError Version)
    (env : Environment) (flags : generatorFlags) (csv : ClusterServiceVersion) (v : Version)
    (first : StrategyDeploymentSpec) (others : List StrategyDeploymentSpec)
    (hv : semverNew flags.csvVersion = .ok v) (hd : deploymentSpecs csv = first :: others) :
    replaceVariables semverNew env flags csv
      = .returned
          { Name := "tekton-tasks-operator.v" ++ flags.csvVersion
            Namespace := flags.«namespace»
            Spec :=
              { Version := { Version := v }
                InstallStrategy := { StrategySpec := { DeploymentSpecs :=
                  { Name := first.Name
                    Spec := { Template :=
                      { Namespace := flags.«namespace»
                        Spec :=
                          { Containers :=
                              replaceManager env flags first.Spec.Template.Spec.Containers
                            Volumes := first.Spec.Template.Spec.Volumes } } } } :: others } }
                RelatedImages := csv.Spec.RelatedImages } }
          none := by
  unfold deploymentSpecs at hd
  unfold replaceVariables
  simp only [hv, hd]

theorem removeCerts_of_nil (csv : ClusterServiceVersion) (hd : deploymentSpecs csv = []) :
    removeCerts csv = .panicked := by
  unfold deploymentSpecs at hd
  unfold removeCerts
  simp only [hd]

theorem removeCerts_of_cons (csv : ClusterServiceVersion) (first : StrategyDeploymentSpec)
    (others : List StrategyDeploymentSpec) (hd : deploymentSpecs csv = first :: others) :
    removeCerts csv
      = .returned
          { Name := csv.Name
            Namespace := csv.Namespace
            Spec :=
              { Version := csv.Spec.Version
                InstallStrategy := { StrategySpec := { DeploymentSpecs :=
                  { Name := first.Name
                    Spec := { Template :=
                      { Namespace := first.Spec.Template.Namespace
                        Spec :=
                          { Containers :=
                              removeManagerCertMount first.Spec.Template.Spec.Containers
                            Volumes := removeCertVolumes first.Spec.Template.Spec.Volumes } } } }
                    :: others } }
                RelatedImages := csv.Spec.RelatedImages } }
          none := by
  unfold deploymentSpecs at hd
  unfold removeCerts
  simp only [hd]

theorem replaceManager_split (env : Environment) (flags : generatorFlags)
    (pre : List Container) (manager : Container) (post : List Container)
    (hpre : ∀ c ∈ pre, c.Name ≠ "manager") (hm : manager.Name = "manager") :
    replaceManager env flags (pre ++ manager :: post)
      = pre ++ { manager with
                  Image := flags.operatorImage
                  Env := updateContainerEnvVars env flags manager } :: post := by
  induction pre with
  | nil => simp [replaceManager, hm]
  | cons c pre ih =>
    have hc : c.Name ≠ "manager" := hpre c (List.mem_cons_self _ _)
    have ih2 := ih (fun x hx => hpre x (List.mem_cons_of_mem _ hx))
    simp [replaceManager, hc, ih2]

theorem replaceManager_none (env : Environment) (flags : generatorFlags)
    (containers : List Container) (h : ∀ c ∈ containers, c.Name ≠ "manager") :
    replaceManager env flags containers = containers := by
  induction containers with
  | nil => rfl
  | cons c rest ih =>
    have hc : c.Name ≠ "manager" := h c (List.mem_cons_self _ _)
    simp [replaceManager, hc, ih (fun x hx => h x (List.mem_cons_of_mem _ hx))]

/-! ## Substitution: the claims -/

/-- C1 (counterexample): with the valid csv-version "2.0.0" and a manifest whose
install strategy has no deployment specification, `replaceVariables` does not
succeed: indexing `DeploymentSpecs[0]` faults. -/
theorem replaceVariables_name_counterexample :
    semver.New sampleFlags.csvVersion = .ok { Major := 2, Minor := 0, Patch := 0, Pre := [], Build := [] }
      ∧ ¬ ∃ csv2, replaceVariables semver.New sampleEnvironment sampleFlags
            (sampleManifest [] []) = .returned csv2 none := by
  refine ⟨by decide, ?_⟩
  rintro ⟨csv2, h⟩
  have hp : replaceVariables semver.New sampleEnvironment sampleFlags (sampleManifest [] [])
      = .panicked := by decide
  rw [hp] at h
  exact Outcome.noConfusion h

/-- C1 (amended): for every manifest with at least one deployment specification and
every configuration whose csv-version the parser accepts, `replaceVariables`
returns without error and the manifest's name is "tekton-tasks-operator.v" followed
by the csv-version string exactly as supplied, whatever name the template had. -/
theorem replaceVariables_sets_name (semverNew : String → Except GoError Version)
    (env : Environment) (flags : generatorFlags) (csv : ClusterServiceVersion) (v : Version)
    (hv : semverNew flags.csvVersion = .ok v) (hd : deploymentSpecs csv ≠ []) :
    ∃ csv2, replaceVariables semverNew env flags csv = .returned csv2 none
      ∧ csv2.Name = "tekton-tasks-operator.v" ++ flags.csvVersion := by
  cases hds : deploymentSpecs csv with
  | nil => exact absurd hds hd
  | cons first others =>
    exact ⟨_, replaceVariables_of_cons semverNew env flags csv v first others hv hds, rfl⟩

/-- C1 (witness): csv-version "2.0.0" on the usual template gives the name
"tekton-tasks-operator.v2.0.0". -/
theorem replaceVariables_sets_name_witness :
    ∃ csv2, replaceVariables semver.New sampleEnvironment sampleFlags usualManifest
        = .returned csv2 none
      ∧ csv2.Name = "tekton-tasks-operator.v" ++ "2.0.0" :=
  replaceVariables_sets_name semver.New sampleEnvironment sampleFlags usualManifest
    { Major := 2, Minor := 0, Patch := 0, Pre := [], Build := [] } (by decide) (by decide)

/-- C2: for every manifest with at least one deployment specification and every
configuration with a valid csv-version, after `replaceVariables` the manifest's own
namespace and the namespace of the first deployment's pod template both equal the
configured namespace, and the further deployment specifications are unchanged (in
particular their namespace fields). -/
theorem replaceVariables_sets_namespaces (semverNew : String → Except GoError Version)
    (env : Environment) (flags : generatorFlags) (csv : ClusterServiceVersion) (v : Version)
    (first : StrategyDeploymentSpec) (others : List StrategyDeploymentSpec)
    (hv : semverNew flags.csvVersion = .ok v) (hd : deploymentSpecs csv = first :: others) :
    ∃ csv2 first2, replaceVariables semverNew env flags csv = .returned csv2 none
      ∧ csv2.Namespace = flags.«namespace»
      ∧ deploymentSpecs csv2 = first2 :: others
      ∧ first2.Spec.Template.Namespace = flags.«namespace»
      ∧ (deploymentSpecs csv2).tail.map (fun d => d.Spec.Template.Namespace)
          = (deploymentSpecs csv).tail.map (fun d => d.Spec.Template.Namespace) := by
  refine ⟨_, _, replaceVariables_of_cons semverNew env flags csv v first others hv hd,
    rfl, rfl, rfl, ?_⟩
  rw [hd]
  rfl

/-- C2 (witness): namespace "ns1" on the usual template, whose second deployment
keeps its own namespace. -/
theorem replaceVariables_sets_namespaces_witness :
    ∃ csv2 first2, replaceVariables semver.New sampleEnvironment sampleFlags usualManifest
        = .returned csv2 none
      ∧ csv2.Namespace = "ns1"
      ∧ deploymentSpecs csv2 = first2 :: [sampleDeployment "second" [sampleSidecar]]
      ∧ first2.Spec.Template.Namespace = "ns1"
      ∧ (deploymentSpecs csv2).tail.map (fun d => d.Spec.Template.Namespace)
          = (deploymentSpecs usualManifest).tail.map (fun d => d.Spec.Template.Namespace) :=
  replaceVariables_sets_namespaces semver.New sampleEnvironment sampleFlags usualManifest
    { Major := 2, Minor := 0, Patch := 0, Pre := [], Build := [] }
    (sampleDeployment "tekton-tasks-operator" [sampleSidecar, sampleManager])
    [sampleDeployment "second" [sampleSidecar]] (by decide) (by decide)

/-- C4: when the first deployment's pod template has a container named "manager",
`replaceVariables` (valid csv-version) gives the first such container the
configured operator image, whatever that value is, and leaves every other
container, later ones named "manager" included, as it was; the number and order of
containers are unchanged. -/
theorem replaceVariables_manager_image (semverNew : String → Except GoError Version)
    (env : Environment) (flags : generatorFlags) (csv : ClusterServiceVersion) (v : Version)
    (first : StrategyDeploymentSpec) (others : List StrategyDeploymentSpec)
    (pre : List Container) (manager : Container) (post : List Container)
    (hv : semverNew flags.csvVersion = .ok v) (hd : deploymentSpecs csv = first :: others)
    (hc : first.Spec.Template.Spec.Containers = pre ++ manager :: post)
    (hpre : ∀ c ∈ pre, c.Name ≠ "manager") (hm : manager.Name = "manager") :
    ∃ csv2 manager2, replaceVariables semverNew env flags csv = .returned csv2 none
      ∧ firstContainers csv2 = some (pre ++ manager2 :: post)
      ∧ manager2.Image = flags.operatorImage
      ∧ manager2.Name = manager.Name
      ∧ manager2.VolumeMounts = manager.VolumeMounts
      ∧ manager2.Env = updateContainerEnvVars env flags manager := by
  refine ⟨_, { manager with
                Image := flags.operatorImage
                Env := updateContainerEnvVars env flags manager },
    replaceVariables_of_cons semverNew env flags csv v first others hv hd, ?_, rfl, rfl, rfl, rfl⟩
  simp only [firstContainers, deploymentSpecs]
  rw [hc, replaceManager_split env flags pre manager post hpre hm]

/-- C4 (witness): with an empty operator image, the manager of the usual template
gets the empty image; the side container before it and a second container named
"manager" after it are untouched. -/
theorem replaceVariables_manager_image_witness :
    ∃ csv2 manager2,
      replaceVariables semver.New sampleEnvironment { sampleFlags with operatorImage := "" }
          (sampleManifest [sampleDeployment "d" [sampleSidecar, sampleManager, sampleManager]] [])
        = .returned csv2 none
      ∧ firstContainers csv2 = some ([sampleSidecar] ++ manager2 :: [sampleManager])
      ∧ manager2.Image = ""
      ∧ manager2.Name = sampleManager.Name
      ∧ manager2.VolumeMounts = sampleManager.VolumeMounts
      ∧ manager2.Env
          = updateContainerEnvVars sampleEnvironment { sampleFlags with operatorImage := "" }
              sampleManager :=
  replaceVariables_manager_image semver.New sampleEnvironment
    { sampleFlags with operatorImage := "" }
    (sampleManifest [sampleDeployment "d" [sampleSidecar, sampleManager, sampleManager]] [])
    { Major := 2, Minor := 0, Patch := 0, Pre := [], Build := [] }
    (sampleDeployment "d" [sampleSidecar, sampleManager, sampleManager]) []
    [sampleSidecar] sampleManager [sampleManager]
    (by decide) (by decide) (by decide) (by decide) (by decide)

/-- C5 (counterexample): on a manifest whose install strategy has an empty
deployment-specification list, `replaceVariables` (with the valid csv-version
"2.0.0") and `removeCerts` both fault instead of returning. -/
theorem empty_deployments_fault :
    replaceVariables semver.New sampleEnvironment sampleFlags (sampleManifest [] [])
        = .panicked
      ∧ removeCerts (sampleManifest [] []) = .panicked := by
  decide

/-- C5 (amended): for every manifest with at least one deployment specification,
including one whose first deployment has an empty container list,
`replaceVariables` (with a valid csv-version) and `removeCerts` return normally
without error; an empty container list is "no matching container" and stays
empty. -/
theorem no_fault_with_a_deployment (semverNew : String → Except GoError Version)
    (env : Environment) (flags : generatorFlags) (csv : ClusterServiceVersion) (v : Version)
    (hv : semverNew flags.csvVersion = .ok v) (hd : deploymentSpecs csv ≠ []) :
    (∃ csv2, replaceVariables semverNew env flags csv = .returned csv2 none
        ∧ (firstContainers csv = some [] → firstContainers csv2 = some []))
      ∧ (∃ csv3, removeCerts csv = .returned csv3 none
        ∧ (firstContainers csv = some [] → firstContainers csv3 = some [])) := by
  cases hds : deploymentSpecs csv with
  | nil => exact absurd hds hd
  | cons first others =>
    refine ⟨⟨_, replaceVariables_of_cons semverNew env flags csv v first others hv hds, ?_⟩,
      ⟨_, removeCerts_of_cons csv first others hds, ?_⟩⟩
    · intro h
      simp only [firstContainers, hds, Option.some.injEq] at h
      simp only [firstContainers, deploymentSpecs, h, replaceManager]
    · intro h
      simp only [firstContainers, hds, Option.some.injEq] at h
      simp only [firstContainers, deploymentSpecs, h, removeManagerCertMount]

/-- C5 (witness): a manifest with one deployment that has no container; both calls
return and the container list is still empty. -/
theorem no_fault_with_a_deployment_witness :
    (∃ csv2, replaceVariables semver.New sampleEnvironment sampleFlags
          (sampleManifest [sampleDeployment "d" []] []) = .returned csv2 none
        ∧ firstContainers csv2 = some [])
      ∧ (∃ csv3, removeCerts (sampleManifest [sampleDeployment "d" []] []) = .returned csv3 none
        ∧ firstContainers csv3 = some []) := by
  obtain ⟨⟨csv2, h2, k2⟩, ⟨csv3, h3, k3⟩⟩ :=
    no_fault_with_a_deployment semver.New sampleEnvironment sampleFlags
      (sampleManifest [sampleDeployment "d" []] [])
      { Major := 2, Minor := 0, Patch := 0, Pre := [], Build := [] } (by decide) (by decide)
  exact ⟨⟨csv2, h2, k2 (by decide)⟩, ⟨csv3, h3, k3 (by decide)⟩⟩

theorem updateContainerEnvVars_getElem? (env : Environment) (flags : generatorFlags)
    (container : Container) (i : Nat) :
    (updateContainerEnvVars env flags container)[i]?
      = (container.Env[i]?).map (switchValue (recognizedKeys env flags)) := by
  rw [updateContainerEnvVars_eq_map, List.getElem?_map]
  rfl

/-- C6: the list returned by `updateContainerEnvVars` has the length of the
container's environment list and the same name at every position, and an entry's
value differs from the original only where the name is one of the ten recognized
keys. -/
theorem updateContainerEnvVars_preserves_shape (env : Environment) (flags : generatorFlags)
    (container : Container) :
    (updateContainerEnvVars env flags container).length = container.Env.length
      ∧ (updateContainerEnvVars env flags container).map EnvVar.Name
          = container.Env.map EnvVar.Name
      ∧ ∀ (i : Nat) (e e2 : EnvVar), container.Env[i]? = some e →
          (updateContainerEnvVars env flags container)[i]? = some e2 →
          e2.Value ≠ e.Value → e.Name ∈ env.keys := by
  refine ⟨?_, ?_, ?_⟩
  · rw [updateContainerEnvVars_eq_map, List.length_map]
  · rw [updateContainerEnvVars_eq_map, List.map_map]
    apply List.map_congr_left
    intro e _
    exact switchValue_name (recognizedKeys env flags) e
  · intro i e e2 he he2 hne
    rw [updateContainerEnvVars_getElem?, he] at he2
    simp only [Option.map_some', Option.some.injEq] at he2
    subst he2
    rw [← recognizedKeys_keys env flags]
    exact switchValue_changed (recognizedKeys env flags) e hne

/-- C6 (witness): the manager of the usual template, whose operator-version entry is
the one that changes. -/
theorem updateContainerEnvVars_preserves_shape_witness :
    (updateContainerEnvVars sampleEnvironment sampleFlags sampleManager).length = 3
      ∧ (updateContainerEnvVars sampleEnvironment sampleFlags sampleManager).map EnvVar.Name
          = ["OPERATOR_VERSION", "HOME", "CREATE_VM_IMG"]
      ∧ "OPERATOR_VERSION" ∈ sampleEnvironment.keys :=
  ⟨(updateContainerEnvVars_preserves_shape sampleEnvironment sampleFlags sampleManager).1,
   (updateContainerEnvVars_preserves_shape sampleEnvironment sampleFlags sampleManager).2.1,
   (updateContainerEnvVars_preserves_shape sampleEnvironment sampleFlags sampleManager).2.2
      0 { Name := "OPERATOR_VERSION", Value := "old" }
      { Name := "OPERATOR_VERSION", Value := "1.2.3" } (by decide) (by decide) (by decide)⟩

/-- C7: for every environment entry of the container handed to
`updateContainerEnvVars` (the manager container), with pairwise distinct key
constants: if the entry's name is a recognized key and the configuration value
mapped to that key is non-empty, the entry's value afterwards is that configuration
value; in every other case (unrecognized name, or recognized name with an empty
configuration value) the entry is unchanged. -/
theorem updateContainerEnvVars_values (env : Environment) (flags : generatorFlags)
    (container : Container) (hk : env.keys.Nodup) (i : Nat) (e : EnvVar)
    (he : container.Env[i]? = some e) :
    ∃ e2, (updateContainerEnvVars env flags container)[i]? = some e2
      ∧ e2.Name = e.Name
      ∧ (∀ key value, (key, value) ∈ recognizedKeys env flags → e.Name = key → value ≠ "" →
          e2.Value = value)
      ∧ ((∀ key value, (key, value) ∈ recognizedKeys env flags → e.Name = key → value = "") →
          e2 = e) := by
  refine ⟨switchValue (recognizedKeys env flags) e, ?_, ?_, ?_, ?_⟩
  · rw [updateContainerEnvVars_getElem?, he]
    rfl
  · exact switchValue_name _ e
  · intro key value hm hn hv
    have hk2 : ((recognizedKeys env flags).map Prod.fst).Nodup := by
      rw [recognizedKeys_keys]
      exact hk
    exact switchValue_recognized _ e hk2 key value hm hn hv
  · intro h
    exact switchValue_unchanged _ e h

/-- C7 (witness): the entry OPERATOR_VERSION with value "old" becomes "1.2.3" under
operator-version "1.2.3"; the recognized entry CREATE_VM_IMG, whose configuration
value is empty, is unchanged, and so is the unrecognized entry HOME. -/
theorem updateContainerEnvVars_values_witness :
    (∃ e2, (updateContainerEnvVars sampleEnvironment sampleFlags sampleManager)[0]? = some e2
      ∧ e2.Name = "OPERATOR_VERSION" ∧ e2.Value = "1.2.3")
    ∧ (∃ e3, (updateContainerEnvVars sampleEnvironment sampleFlags sampleManager)[2]? = some e3
      ∧ e3 = { Name := "CREATE_VM_IMG", Value := "template-create-vm" })
    ∧ updateContainerEnvVars sampleEnvironment sampleFlags sampleManager
        = [{ Name := "OPERATOR_VERSION", Value := "1.2.3" },
           { Name := "HOME", Value := "/root" },
           { Name := "CREATE_VM_IMG", Value := "template-create-vm" }] := by
  obtain ⟨e2, h2, hn2, hv2, _⟩ :=
    updateContainerEnvVars_values sampleEnvironment sampleFlags sampleManager (by decide) 0
      { Name := "OPERATOR_VERSION", Value := "old" } (by decide)
  obtain ⟨e3, h3, _, _, hu3⟩ :=
    updateContainerEnvVars_values sampleEnvironment sampleFlags sampleManager (by decide) 2
      { Name := "CREATE_VM_IMG", Value := "template-create-vm" } (by decide)
  refine ⟨⟨e2, h2, hn2, hv2 "OPERATOR_VERSION" "1.2.3" (by decide) rfl (by decide)⟩,
    ⟨e3, h3, hu3 ?_⟩, by decide⟩
  intro key value hm hk
  subst hk
  simp [recognizedKeys, sampleEnvironment, sampleFlags] at hm
  exact hm

/-! ## Related images: lemmas -/

theorem appendRelatedImage_ok (acc : List JSON) (imageDesc imageName : String) :
    appendRelatedImage (.ok acc) imageDesc imageName
      = .ok (acc ++ recordsOf [(imageName, imageDesc)]) := by
  by_cases h : imageDesc = "" <;>
    simp [appendRelatedImage, buildRelatedImage, recordsOf, relatedImageRecord, h]

theorem appendCreateVMImages_ok (acc : List JSON) (imageDesc : String) :
    appendCreateVMImages (.ok acc) imageDesc
      = .ok (acc ++ recordsOf [("create-vm-from-manifest", imageDesc),
                               ("create-vm-from-template", imageDesc)]) := by
  by_cases h : imageDesc = "" <;>
    simp [appendCreateVMImages, buildRelatedImage, recordsOf, relatedImageRecord, h]

theorem recordsOf_append (a b : List (String × String)) :
    recordsOf (a ++ b) = recordsOf a ++ recordsOf b := by
  induction a with
  | nil => rfl
  | cons kv rest ih =>
    obtain ⟨name, value⟩ := kv
    by_cases h : value = "" <;> simp [recordsOf, h, ih]

theorem buildRelatedImages_eq (flags : generatorFlags) :
    buildRelatedImages flags = .ok (recordsOf (relatedImageTable flags)) := by
  unfold buildRelatedImages
  simp only [appendRelatedImage_ok, appendCreateVMImages_ok, List.nil_append,
    ← recordsOf_append]
  rfl

theorem recordName_relatedImageRecord (name image : String) :
    recordName (relatedImageRecord name image) = some name := by
  simp [recordName, relatedImageRecord, unstructured.lookup]

theorem recordImage_relatedImageRecord (name image : String) :
    recordImage (relatedImageRecord name image) = some image := by
  simp [recordImage, relatedImageRecord, unstructured.lookup]

theorem mem_recordsOf (t : List (String × String)) (r : JSON) :
    r ∈ recordsOf t ↔
      ∃ name value, (name, value) ∈ t ∧ value ≠ "" ∧ r = relatedImageRecord name value := by
  induction t with
  | nil => simp [recordsOf]
  | cons kv rest ih =>
    obtain ⟨k, w⟩ := kv
    by_cases h : w = ""
    · simp only [recordsOf, h, ne_eq, not_true_eq_false, if_false, ih, List.mem_cons,
        Prod.mk.injEq]
      constructor
      · rintro ⟨n, v, hm, hv, hr⟩
        exact ⟨n, v, Or.inr hm, hv, hr⟩
      · rintro ⟨n, v, hm | hm, hv, hr⟩
        · exact absurd hm.2 hv
        · exact ⟨n, v, hm, hv, hr⟩
    · simp only [recordsOf, ne_eq, h, not_false_eq_true, if_true, List.mem_cons, ih,
        Prod.mk.injEq]
      constructor
      · rintro (hr | ⟨n, v, hm, hv, hr⟩)
        · exact ⟨k, w, Or.inl ⟨rfl, rfl⟩, h, hr⟩
        · exact ⟨n, v, Or.inr hm, hv, hr⟩
      · rintro ⟨n, v, hm | hm, hv, hr⟩
        · left
          rw [hr, hm.1, hm.2]
        · exact Or.inr ⟨n, v, hm, hv, hr⟩

theorem recordName_of_mem_recordsOf (t : List (String × String)) (r : JSON)
    (h : r ∈ recordsOf t) : ∃ name, name ∈ t.map Prod.fst ∧ recordName r = some name := by
  obtain ⟨name, value, hm, _, hr⟩ := (mem_recordsOf t r).mp h
  refine ⟨name, List.mem_map_of_mem Prod.fst hm, ?_⟩
  rw [hr, recordName_relatedImageRecord]

theorem filter_recordsOf_of_not_mem (t : List (String × String)) (name : String)
    (h : name ∉ t.map Prod.fst) :
    (recordsOf t).filter (fun r => decide (recordName r = some name)) = [] := by
  rw [List.filter_eq_nil_iff]
  intro r hr
  obtain ⟨n, hn, hrn⟩ := recordName_of_mem_recordsOf t r hr
  have hne : n ≠ name := fun heq => h (heq ▸ hn)
  simp [hrn, hne]

theorem filter_recordsOf_of_mem (t : List (String × String)) (name value : String)
    (hk : (t.map Prod.fst).Nodup) (hm : (name, value) ∈ t) (hv : value ≠ "") :
    (recordsOf t).filter (fun r => decide (recordName r = some name))
      = [relatedImageRecord name value] := by
  induction t with
  | nil => simp at hm
  | cons kv rest ih =>
    obtain ⟨k, w⟩ := kv
    simp only [List.map_cons, List.nodup_cons] at hk
    rcases List.mem_cons.mp hm with heq | hrest
    · obtain ⟨h1, h2⟩ := Prod.mk.inj heq
      subst h1 h2
      simp only [recordsOf, ne_eq, hv, not_false_eq_true, if_true]
      rw [List.filter_cons_of_pos (by simp [recordName_relatedImageRecord]),
        filter_recordsOf_of_not_mem rest name hk.1]
    · have hne : k ≠ name := by
        intro hkn
        apply hk.1
        rw [hkn]
        exact List.mem_map_of_mem Prod.fst hrest
      by_cases hw : w = ""
      · simp only [recordsOf, hw, ne_eq, not_true_eq_false, if_false]
        exact ih hk.2 hrest
      · simp only [recordsOf, ne_eq, hw, not_false_eq_true, if_true]
        rw [List.filter_cons_of_neg (by simp [recordName_relatedImageRecord, hne])]
        exact ih hk.2 hrest

theorem recordsOf_absent (t : List (String × String)) (name : String)
    (hk : (t.map Prod.fst).Nodup) (hm : (name, "") ∈ t) :
    ∀ r ∈ recordsOf t, recordName r ≠ some name := by
  induction t with
  | nil => simp at hm
  | cons kv rest ih =>
    obtain ⟨k, w⟩ := kv
    simp only [List.map_cons, List.nodup_cons] at hk
    intro r hr
    rcases List.mem_cons.mp hm with heq | hrest
    · obtain ⟨h1, h2⟩ := Prod.mk.inj heq
      subst h1 h2
      simp only [recordsOf, ne_eq, not_true_eq_false, if_false] at hr
      obtain ⟨n, hn, hrn⟩ := recordName_of_mem_recordsOf rest r hr
      rw [hrn]
      intro hsome
      apply hk.1
      rw [← Option.some.inj hsome]
      exact hn
    · have hne : k ≠ name := by
        intro hkn
        apply hk.1
        rw [hkn]
        exact List.mem_map_of_mem Prod.fst hrest
      by_cases hw : w = ""
      · simp only [recordsOf, hw, ne_eq, not_true_eq_false, if_false] at hr
        exact ih hk.2 hrest r hr
      · simp only [recordsOf, ne_eq, hw, not_false_eq_true, if_true, List.mem_cons] at hr
        rcases hr with hr | hr
        · rw [hr, recordName_relatedImageRecord]
          intro hsome
          exact hne (Option.some.inj hsome)
        · exact ih hk.2 hrest r hr

theorem relatedImageTable_names_nodup (flags : generatorFlags) :
    ((relatedImageTable flags).map Prod.fst).Nodup := by
  simp [relatedImageTable]

/-! ## Related images: the claims -/

/-- C8: `buildRelatedImages` returns without error a list in which, for each of the
nine optional image fields: if the field is empty no record carries one of its
logical names; if it is non-empty each of its logical names occurs in exactly one
record, whose image is the field's value; and the list has no other records. -/
theorem buildRelatedImages_records (flags : generatorFlags) :
    ∃ l, buildRelatedImages flags = .ok l
      ∧ (∀ name value, (name, value) ∈ relatedImageTable flags → value = "" →
          ∀ r ∈ l, recordName r ≠ some name)
      ∧ (∀ name value, (name, value) ∈ relatedImageTable flags → value ≠ "" →
          ∃ r, l.filter (fun x => decide (recordName x = some name)) = [r]
            ∧ recordName r = some name ∧ recordImage r = some value)
      ∧ (∀ r ∈ l, ∃ name value, (name, value) ∈ relatedImageTable flags ∧ value ≠ ""
          ∧ r = relatedImageRecord name value) := by
  refine ⟨_, buildRelatedImages_eq flags, ?_, ?_, ?_⟩
  · intro name value hm hv
    subst hv
    exact recordsOf_absent _ name (relatedImageTable_names_nodup flags) hm
  · intro name value hm hv
    exact ⟨relatedImageRecord name value,
      filter_recordsOf_of_mem _ name value (relatedImageTable_names_nodup flags) hm hv,
      recordName_relatedImageRecord name value, recordImage_relatedImageRecord name value⟩
  · intro r hr
    exact (mem_recordsOf _ r).mp hr

/-- C8 (witness): with only the copy-template image set, no record is named
"cleanup-vm", exactly one is named "copy-template" and it carries the configured
image, and the list is that single record. -/
theorem buildRelatedImages_records_witness :
    ∃ l r, buildRelatedImages { sampleFlags with copyTemplateImage := "quay.io/copy:1" } = .ok l
      ∧ (∀ x ∈ l, recordName x ≠ some "cleanup-vm")
      ∧ l.filter (fun x => decide (recordName x = some "copy-template")) = [r]
      ∧ recordImage r = some "quay.io/copy:1"
      ∧ l = [relatedImageRecord "copy-template" "quay.io/copy:1"] := by
  obtain ⟨l, hl, habsent, hpresent, _⟩ :=
    buildRelatedImages_records { sampleFlags with copyTemplateImage := "quay.io/copy:1" }
  obtain ⟨r, hr, _, hi⟩ := hpresent "copy-template" "quay.io/copy:1" (by decide) (by decide)
  have hl2 : buildRelatedImages { sampleFlags with copyTemplateImage := "quay.io/copy:1" }
      = .ok [relatedImageRecord "copy-template" "quay.io/copy:1"] := rfl
  rw [hl2] at hl
  exact ⟨l, r, hl2.trans hl, habsent "cleanup-vm" "" (by decide) rfl, hr, hi,
    (Except.ok.inj hl).symm⟩

theorem relatedImageTable_split (flags : generatorFlags) :
    relatedImageTable flags
      = [("cleanup-vm", flags.cleanupVMImage), ("copy-template", flags.copyTemplateImage),
         ("generate-ssh-keys", flags.generateSSHKeys),
         ("modify-data-object", flags.modifyDataObjectImage)]
        ++ ([("create-vm-from-manifest", flags.createVMImage),
             ("create-vm-from-template", flags.createVMImage)]
        ++ [("disk-virt-customize", flags.diskVirtCustomizeImage),
            ("wait-for-vmi-status", flags.waitForVMIStatusImage),
            ("modify-vm-template", flags.modifyVMTemplateImage),
            ("disk-virt-sysprep", flags.diskVirtSysprepImage)]) := rfl

theorem recordName_ne_of_mem_recordsOf (t : List (String × String)) (name : String)
    (h : name ∉ t.map Prod.fst) : ∀ r ∈ recordsOf t, recordName r ≠ some name := by
  intro r hr
  obtain ⟨n, hn, hrn⟩ := recordName_of_mem_recordsOf t r hr
  rw [hrn]
  intro hsome
  exact h ((Option.some.inj hsome) ▸ hn)

/-- C9: when the create-VM image field is non-empty, `buildRelatedImages` yields
exactly two records derived from it, named "create-vm-from-manifest" and
"create-vm-from-template", adjacent and in that order, both with the field's value
as image; when the field is empty neither name occurs. -/
theorem buildRelatedImages_createVM (flags : generatorFlags) :
    ∃ l, buildRelatedImages flags = .ok l
      ∧ (flags.createVMImage ≠ "" →
          ∃ pre post,
            l = pre ++ [relatedImageRecord "create-vm-from-manifest" flags.createVMImage,
                        relatedImageRecord "create-vm-from-template" flags.createVMImage] ++ post
            ∧ ∀ r ∈ pre ++ post, recordName r ≠ some "create-vm-from-manifest"
                ∧ recordName r ≠ some "create-vm-from-template")
      ∧ (flags.createVMImage = "" →
          ∀ r ∈ l, recordName r ≠ some "create-vm-from-manifest"
            ∧ recordName r ≠ some "create-vm-from-template") := by
  refine ⟨_, buildRelatedImages_eq flags, ?_, ?_⟩
  · intro hne
    refine ⟨recordsOf [("cleanup-vm", flags.cleanupVMImage),
        ("copy-template", flags.copyTemplateImage), ("generate-ssh-keys", flags.generateSSHKeys),
        ("modify-data-object", flags.modifyDataObjectImage)],
      recordsOf [("disk-virt-customize", flags.diskVirtCustomizeImage),
        ("wait-for-vmi-status", flags.waitForVMIStatusImage),
        ("modify-vm-template", flags.modifyVMTemplateImage),
        ("disk-virt-sysprep", flags.diskVirtSysprepImage)], ?_, ?_⟩
    · rw [relatedImageTable_split, recordsOf_append, recordsOf_append]
      simp [recordsOf, hne]
    · intro r hr
      rcases List.mem_append.mp hr with h | h
      · exact ⟨recordName_ne_of_mem_recordsOf _ _ (by simp) r h,
          recordName_ne_of_mem_recordsOf _ _ (by simp) r h⟩
      · exact ⟨recordName_ne_of_mem_recordsOf _ _ (by simp) r h,
          recordName_ne_of_mem_recordsOf _ _ (by simp) r h⟩
  · intro hempty r hr
    have hn := relatedImageTable_names_nodup flags
    exact ⟨recordsOf_absent _ "create-vm-from-manifest" hn
        (by simp [relatedImageTable, hempty]) r hr,
      recordsOf_absent _ "create-vm-from-template" hn
        (by simp [relatedImageTable, hempty]) r hr⟩

/-- C9 (witness): with the create-VM image and the disk-virt-sysprep image set, the
two create-VM records stand next to each other, before the sysprep record. -/
theorem buildRelatedImages_createVM_witness :
    ∃ l pre post,
      buildRelatedImages
          { sampleFlags with createVMImage := "quay.io/create-vm:1", diskVirtSysprepImage := "s" }
        = .ok l
      ∧ l = pre ++ [relatedImageRecord "create-vm-from-manifest" "quay.io/create-vm:1",
                    relatedImageRecord "create-vm-from-template" "quay.io/create-vm:1"] ++ post
      ∧ (∀ r ∈ pre ++ post, recordName r ≠ some "create-vm-from-manifest"
          ∧ recordName r ≠ some "create-vm-from-template")
      ∧ l = [relatedImageRecord "create-vm-from-manifest" "quay.io/create-vm:1",
             relatedImageRecord "create-vm-from-template" "quay.io/create-vm:1",
             relatedImageRecord "disk-virt-sysprep" "s"] := by
  obtain ⟨l, hl, hpresent, _⟩ :=
    buildRelatedImages_createVM
      { sampleFlags with createVMImage := "quay.io/create-vm:1", diskVirtSysprepImage := "s" }
  obtain ⟨pre, post, hsplit, hothers⟩ := hpresent (by decide)
  have hl2 : buildRelatedImages
        { sampleFlags with createVMImage := "quay.io/create-vm:1", diskVirtSysprepImage := "s" }
      = .ok [relatedImageRecord "create-vm-from-manifest" "quay.io/create-vm:1",
             relatedImageRecord "create-vm-from-template" "quay.io/create-vm:1",
             relatedImageRecord "disk-virt-sysprep" "s"] := rfl
  rw [hl2] at hl
  exact ⟨l, pre, post, hl2.trans hl, hsplit, hothers, (Except.ok.inj hl).symm⟩

/-! ## Serialization and the run: lemmas -/

theorem cleanDeployments_encoded (deployments : List StrategyDeploymentSpec) :
    ∃ cleaned, cleanDeployments (deployments.map encodeDeployment) = some cleaned := by
  induction deployments with
  | nil => exact ⟨[], rfl⟩
  | cons d rest ih =>
    obtain ⟨cleaned, hc⟩ := ih
    simp only [List.map_cons, encodeDeployment, cleanDeployments, hc]
    exact ⟨_, rfl⟩

theorem marshallObject_manifest (csv : ClusterServiceVersion) (relatedImages : List JSON)
    (writer : Writer) (cleaned : List JSON) (first : StrategyDeploymentSpec)
    (others : List StrategyDeploymentSpec) (hd : deploymentSpecs csv = first :: others)
    (hc : cleanDeployments
      (csv.Spec.InstallStrategy.StrategySpec.DeploymentSpecs.map encodeDeployment) = some cleaned) :
    marshallObject csvRoundTrip csv relatedImages writer
      = .returned
          (writer ++ [Chunk.separator, Chunk.document (renderedManifest csv cleaned relatedImages)])
          none := by
  unfold deploymentSpecs at hd
  rw [hd, List.map_cons] at hc
  cases hr : csv.Spec.RelatedImages <;> cases relatedImages <;>
    simp [marshallObject, csvRoundTrip, toUnstructured, encodeDeployments, hd,
      unstructured.RemoveNestedField,
      unstructured.lookup, unstructured.insert, unstructured.delete,
      unstructured.NestedSlice, unstructured.NestedFieldNoCopy,
      setNestedSliceIgnoringError, unstructured.SetNestedSlice,
      unstructured.setNestedFieldNoCopy, omitEmptyList, renderedManifest, hr, hc]

/-- A typed manifest without deployment specification is not rendered: its deployment
list is encoded as null, `NestedSlice` returns an error and nothing is written. -/
theorem marshallObject_without_deployments (relatedImages : List JSON) (writer : Writer) :
    ∃ err, marshallObject csvRoundTrip (sampleManifest [] []) relatedImages writer
      = .returned writer (some err) := by
  cases relatedImages <;> exact ⟨_, rfl⟩

theorem renderedManifest_relatedImages (csv : ClusterServiceVersion) (cleaned : List JSON)
    (relatedImages : List JSON) :
    unstructured.NestedFieldNoCopy (.obj (renderedManifest csv cleaned relatedImages))
        ["spec", "relatedImages"]
      = .ok (if relatedImages.length > 0 then some (.arr relatedImages)
             else templateRelatedImages csv) := by
  cases hr : csv.Spec.RelatedImages <;> cases relatedImages <;>
    simp [renderedManifest, unstructured.NestedFieldNoCopy, unstructured.lookup,
      omitEmptyList, templateRelatedImages, hr]

theorem recordsOf_eq_nil_iff (t : List (String × String)) :
    recordsOf t = [] ↔ ∀ name value, (name, value) ∈ t → value = "" := by
  induction t with
  | nil => simp [recordsOf]
  | cons kv rest ih =>
    obtain ⟨k, w⟩ := kv
    by_cases hw : w = ""
    · simp only [recordsOf, hw, ne_eq, not_true_eq_false, if_false, ih, List.mem_cons,
        Prod.mk.injEq]
      constructor
      · rintro h n v (⟨_, hv⟩ | hm)
        · exact hv
        · exact h n v hm
      · intro h n v hm
        exact h n v (Or.inr hm)
    · simp only [recordsOf, ne_eq, hw, not_false_eq_true, if_true]
      constructor
      · intro h
        exact absurd h (List.cons_ne_nil _ _)
      · intro h
        exact absurd (h k w (List.mem_cons_self _ _)) hw

/-! ## Serialization and the run: the claims -/

/-- C3: when the csv-version does not parse, `replaceVariables` returns the parser's
error, and `runGenerator` (the template having been read and decoded) returns that
same error with the output stream exactly as it was: nothing is written, whatever
the manifest, the encoder and the other flags are. -/
theorem runGenerator_invalid_version (semverNew : String → Except GoError Version)
    (env : Environment) (readCSV : String → Except GoError ClusterServiceVersion)
    (jsonRoundTrip : ClusterServiceVersion → Except GoError Object)
    (readDir : Except GoError (List String))
    (readAndDecodeToCRD : String → Except GoError CustomResourceDefinition)
    (f : generatorFlags) (csv : ClusterServiceVersion) (stdout : Writer) (err : GoError)
    (hcsv : readCSV f.file = .ok csv) (hv : semverNew f.csvVersion = .error err) :
    (∃ csv2, replaceVariables semverNew env f csv = .returned csv2 (some err))
      ∧ runGenerator semverNew env readCSV jsonRoundTrip readDir readAndDecodeToCRD f stdout
          = .returned stdout (some err) := by
  have h := replaceVariables_of_error semverNew env f csv err hv
  refine ⟨⟨_, h⟩, ?_⟩
  unfold runGenerator
  simp only [hcsv, h]

/-- C3 (witness): csv-version "not-a-version" on the usual template, with mount
removal and CRD dumping switched on. -/
theorem runGenerator_invalid_version_witness :
    (∃ csv2, replaceVariables semver.New sampleEnvironment
          { sampleFlags with csvVersion := "not-a-version", removeCerts := true, dumpCRDs := true }
          usualManifest
        = .returned csv2 (some "No Major.Minor.Patch elements found"))
      ∧ runGenerator semver.New sampleEnvironment (fun _ => .ok usualManifest) csvRoundTrip
          (.ok ["crd.yaml"]) (fun _ => .ok [])
          { sampleFlags with csvVersion := "not-a-version", removeCerts := true, dumpCRDs := true }
          []
        = .returned [] (some "No Major.Minor.Patch elements found") :=
  runGenerator_invalid_version semver.New sampleEnvironment (fun _ => .ok usualManifest)
    csvRoundTrip (.ok ["crd.yaml"]) (fun _ => .ok [])
    { sampleFlags with csvVersion := "not-a-version", removeCerts := true, dumpCRDs := true }
    usualManifest [] "No Major.Minor.Patch elements found" rfl (by decide)

/-- C10 (counterexample): a template that carries a `spec.relatedImages` list,
rendered with all nine optional image fields empty: the synthesized list is empty,
and the document written by the run has the template's list at
`spec.relatedImages`. -/
theorem template_relatedImages_survive :
    buildRelatedImages sampleFlags = .ok []
      ∧ ∃ doc,
          runGenerator semver.New sampleEnvironment (fun _ => .ok manifestWithRelatedImages)
              csvRoundTrip (.ok []) (fun _ => .ok []) sampleFlags []
            = .returned [Chunk.separator, Chunk.document doc] none
          ∧ unstructured.NestedFieldNoCopy (.obj doc) ["spec", "relatedImages"]
              = .ok (some (.arr [.obj [("name", .str "template-image"),
                                       ("image", .str "quay.io/template:1")]])) :=
  ⟨rfl, _, rfl, rfl⟩

/-- C10 (amended): for every manifest with at least one deployment specification and
every configuration with a valid csv-version (the runs that reach serialization),
`marshallObject`, applied as in `runGenerator` to the substituted manifest and the
list synthesized by `buildRelatedImages`, writes one document; when at least one
of the nine optional image fields is non-empty its `spec.relatedImages` is exactly
the synthesized list, whatever list the template carried; when all nine are empty
the path is not written and carries what the encoding of the manifest has there:
the template's own list, or no entry when the template has none. -/
theorem rendered_relatedImages (semverNew : String → Except GoError Version)
    (env : Environment) (f : generatorFlags) (csv : ClusterServiceVersion) (v : Version)
    (writer : Writer) (hv : semverNew f.csvVersion = .ok v) (hd : deploymentSpecs csv ≠ []) :
    ∃ csv1 csv2 relatedImages doc,
      replaceVariables semverNew env f csv = .returned csv1 none
      ∧ (if f.removeCerts then removeCerts csv1 else .returned csv1 none) = .returned csv2 none
      ∧ buildRelatedImages f = .ok relatedImages
      ∧ marshallObject csvRoundTrip csv2 relatedImages writer
          = .returned (writer ++ [Chunk.separator, Chunk.document doc]) none
      ∧ (relatedImages = [] ↔
          ∀ name value, (name, value) ∈ relatedImageTable f → value = "")
      ∧ (relatedImages ≠ [] →
          unstructured.NestedFieldNoCopy (.obj doc) ["spec", "relatedImages"]
            = .ok (some (.arr relatedImages)))
      ∧ (relatedImages = [] →
          unstructured.NestedFieldNoCopy (.obj doc) ["spec", "relatedImages"]
            = .ok (templateRelatedImages csv))
      ∧ (relatedImages = [] → csv.Spec.RelatedImages = [] →
          unstructured.NestedFieldNoCopy (.obj doc) ["spec", "relatedImages"] = .ok none) := by
  cases hds : deploymentSpecs csv with
  | nil => exact absurd hds hd
  | cons first others =>
    have h1 := replaceVariables_of_cons semverNew env f csv v first others hv hds
    have key : ∀ (csv2 : ClusterServiceVersion) (first2 : StrategyDeploymentSpec),
        deploymentSpecs csv2 = first2 :: others →
        csv2.Spec.RelatedImages = csv.Spec.RelatedImages →
        ∃ doc, marshallObject csvRoundTrip csv2 (recordsOf (relatedImageTable f)) writer
            = .returned (writer ++ [Chunk.separator, Chunk.document doc]) none
          ∧ unstructured.NestedFieldNoCopy (.obj doc) ["spec", "relatedImages"]
              = .ok (if (recordsOf (relatedImageTable f)).length > 0
                     then some (.arr (recordsOf (relatedImageTable f)))
                     else templateRelatedImages csv) := by
      intro csv2 first2 hd2 hri
      obtain ⟨cleaned, hc⟩ :=
        cleanDeployments_encoded csv2.Spec.InstallStrategy.StrategySpec.DeploymentSpecs
      refine ⟨_, marshallObject_manifest csv2 _ writer cleaned first2 others hd2 hc, ?_⟩
      rw [renderedManifest_relatedImages csv2 cleaned (recordsOf (relatedImageTable f))]
      simp only [templateRelatedImages, hri]
    have hrem : ∃ (csv2 : ClusterServiceVersion) (first2 : StrategyDeploymentSpec),
        (if f.removeCerts then removeCerts
            { Name := "tekton-tasks-operator.v" ++ f.csvVersion
              Namespace := f.«namespace»
              Spec :=
                { Version := { Version := v }
                  InstallStrategy := { StrategySpec := { DeploymentSpecs :=
                    { Name := first.Name
                      Spec := { Template :=
                        { Namespace := f.«namespace»
                          Spec :=
                            { Containers :=
                                replaceManager env f first.Spec.Template.Spec.Containers
                              Volumes := first.Spec.Template.Spec.Volumes } } } } :: others } }
                  RelatedImages := csv.Spec.RelatedImages } }
          else .returned
            { Name := "tekton-tasks-operator.v" ++ f.csvVersion
              Namespace := f.«namespace»
              Spec :=
                { Version := { Version := v }
                  InstallStrategy := { StrategySpec := { DeploymentSpecs :=
                    { Name := first.Name
                      Spec := { Template :=
                        { Namespace := f.«namespace»
                          Spec :=
                            { Containers :=
                                replaceManager env f first.Spec.Template.Spec.Containers
                              Volumes := first.Spec.Template.Spec.Volumes } } } } :: others } }
                  RelatedImages := csv.Spec.RelatedImages } } none)
          = .returned csv2 none
        ∧ deploymentSpecs csv2 = first2 :: others
        ∧ csv2.Spec.RelatedImages = csv.Spec.RelatedImages := by
      by_cases hflag : f.removeCerts = true
      · rw [if_pos hflag]
        exact ⟨_, _, removeCerts_of_cons _ _ others rfl, rfl, rfl⟩
      · rw [if_neg hflag]
        exact ⟨_, _, rfl, rfl, rfl⟩
    obtain ⟨csv2, first2, hrem2, hd2, hri⟩ := hrem
    obtain ⟨doc, hm, hl⟩ := key csv2 first2 hd2 hri
    refine ⟨_, csv2, recordsOf (relatedImageTable f), doc, h1, hrem2,
      buildRelatedImages_eq f, hm, recordsOf_eq_nil_iff _, ?_, ?_, ?_⟩
    · intro hne
      rw [hl, if_pos (List.length_pos.mpr hne)]
    · intro he
      rw [hl, he]
      rfl
    · intro he hr
      rw [hl, he]
      simp [templateRelatedImages, hr]

/-- C10 (witness): the template with its own list, run with the create-VM image set:
the document carries the synthesized pair in place of the template's list. -/
theorem rendered_relatedImages_witness :
    ∃ csv2 doc,
      marshallObject csvRoundTrip csv2
          [relatedImageRecord "create-vm-from-manifest" "quay.io/create-vm:1",
           relatedImageRecord "create-vm-from-template" "quay.io/create-vm:1"] []
        = .returned ([] ++ [Chunk.separator, Chunk.document doc]) none
      ∧ unstructured.NestedFieldNoCopy (.obj doc) ["spec", "relatedImages"]
          = .ok (some (.arr
              [relatedImageRecord "create-vm-from-manifest" "quay.io/create-vm:1",
               relatedImageRecord "create-vm-from-template" "quay.io/create-vm:1"])) := by
  obtain ⟨_, csv2, relatedImages, doc, _, _, hl, hm, _, hne, _, _⟩ :=
    rendered_relatedImages semver.New sampleEnvironment
      { sampleFlags with createVMImage := "quay.io/create-vm:1" }
      manifestWithRelatedImages { Major := 2, Minor := 0, Patch := 0, Pre := [], Build := [] } []
      (by decide) (by decide)
  have hl2 : buildRelatedImages { sampleFlags with createVMImage := "quay.io/create-vm:1" }
      = .ok [relatedImageRecord "create-vm-from-manifest" "quay.io/create-vm:1",
             relatedImageRecord "create-vm-from-template" "quay.io/create-vm:1"] := rfl
  rw [hl2] at hl
  have he := Except.ok.inj hl
  subst he
  exact ⟨csv2, doc, hm, hne (List.cons_ne_nil _ _)⟩

theorem shiftDown_take {α : Type} (s : List α) (i : Nat) (hi : i < s.length) :
    (shiftDown s i).take (s.length - 1) = s.take i ++ s.drop (i + 1) := by
  unfold shiftDown
  have hlen : (s.take i ++ s.drop (i + 1)).length = s.length - 1 := by
    simp only [List.length_append, List.length_take, List.length_drop]
    omega
  rw [List.take_append_eq_append_take, hlen]
  simp only [Nat.sub_self, List.take_zero, List.append_nil]
  rw [← hlen, List.take_length]

theorem removeCertMount_of_first (mounts done mpre mpost : List VolumeMount)
    (cert : VolumeMount) (hall : mounts = done ++ (mpre ++ cert :: mpost))
    (hmpre : ∀ m ∈ mpre, m.Name ≠ "cert") (hcert : cert.Name = "cert") :
    removeCertMount mounts done.length (mpre ++ cert :: mpost)
      = done ++ mpre ++ mpost := by
  induction mpre generalizing done with
  | nil =>
    simp only [List.nil_append, removeCertMount, hcert, if_true]
    rw [shiftDown_take mounts done.length (by rw [hall]; simp)]
    rw [hall]
    simp
  | cons m mpre ih =>
    have hm : m.Name ≠ "cert" := hmpre m (List.mem_cons_self _ _)
    simp only [List.cons_append, removeCertMount, hm, if_false]
    have h := ih (done ++ [m]) (by rw [hall]; simp)
      (fun x hx => hmpre x (List.mem_cons_of_mem _ hx))
    simp only [List.length_append, List.length_singleton, List.append_assoc,
      List.singleton_append] at h
    simp only [List.append_eq]
    rw [h]
    simp

theorem removeCertMount_of_none (mounts todo : List VolumeMount) (j : Nat)
    (h : ∀ m ∈ todo, m.Name ≠ "cert") : removeCertMount mounts j todo = mounts := by
  induction todo generalizing j with
  | nil => rfl
  | cons m rest ih =>
    have hm : m.Name ≠ "cert" := h m (List.mem_cons_self _ _)
    simp only [removeCertMount, hm, if_false]
    exact ih (j + 1) (fun x hx => h x (List.mem_cons_of_mem _ hx))

theorem removeManagerCertMount_split (pre : List Container) (manager : Container)
    (post : List Container) (hpre : ∀ c ∈ pre, c.Name ≠ "manager")
    (hm : manager.Name = "manager") :
    removeManagerCertMount (pre ++ manager :: post)
      = pre ++ { manager with
                  VolumeMounts :=
                    removeCertMount manager.VolumeMounts 0 manager.VolumeMounts } :: post := by
  induction pre with
  | nil => simp [removeManagerCertMount, hm]
  | cons c pre ih =>
    have hc : c.Name ≠ "manager" := hpre c (List.mem_cons_self _ _)
    simp [removeManagerCertMount, hc, ih (fun x hx => hpre x (List.mem_cons_of_mem _ hx))]

theorem removeManagerCertMount_none (containers : List Container)
    (h : ∀ c ∈ containers, c.Name ≠ "manager") :
    removeManagerCertMount containers = containers := by
  induction containers with
  | nil => rfl
  | cons c rest ih =>
    have hc : c.Name ≠ "manager" := h c (List.mem_cons_self _ _)
    simp [removeManagerCertMount, hc, ih (fun x hx => h x (List.mem_cons_of_mem _ hx))]

theorem removeManagerCertMount_of_no_cert (containers : List Container)
    (h : ∀ c, firstManager containers = some c → ∀ m ∈ c.VolumeMounts, m.Name ≠ "cert") :
    removeManagerCertMount containers = containers := by
  induction containers with
  | nil => rfl
  | cons c rest ih =>
    by_cases hc : c.Name = "manager"
    · have hno := h c (by simp [firstManager, hc])
      rw [removeManagerCertMount, if_pos hc,
        removeCertMount_of_none c.VolumeMounts c.VolumeMounts 0 hno]
    · simp only [removeManagerCertMount, hc, if_false]
      rw [ih (fun x hx => h x (by simpa [firstManager, hc] using hx))]

theorem removeCertVolumesLoop_of_none (fuel i : Nat) (backing : List Volume)
    (h : ∀ v ∈ backing, v.Name ≠ "cert") :
    removeCertVolumesLoop fuel i backing none = (backing, none) := by
  induction fuel generalizing i with
  | zero => rfl
  | succ fuel ih =>
    simp only [removeCertVolumesLoop]
    cases hg : backing.get? i with
    | none => rfl
    | some volume =>
      have hv : volume.Name ≠ "cert" := h volume (List.get?_mem hg)
      simp only [hv, if_false]
      exact ih (i + 1)

theorem removeCertVolumes_of_none (volumes : List Volume)
    (h : ∀ v ∈ volumes, v.Name ≠ "cert") : removeCertVolumes volumes = volumes := by
  unfold removeCertVolumes
  rw [removeCertVolumesLoop_of_none _ _ _ h]

theorem recordsOf_eq_filter_map (t : List (String × String)) :
    recordsOf t
      = (t.filter (fun p => decide (p.2 ≠ ""))).map (fun p => relatedImageRecord p.1 p.2) := by
  induction t with
  | nil => rfl
  | cons kv rest ih =>
    obtain ⟨name, value⟩ := kv
    by_cases h : value = "" <;> simp [recordsOf, h, ih]

theorem recordsOf_names (t : List (String × String)) :
    (recordsOf t).filterMap recordName
      = (t.filter (fun p => decide (p.2 ≠ ""))).map Prod.fst := by
  induction t with
  | nil => rfl
  | cons kv rest ih =>
    obtain ⟨name, value⟩ := kv
    by_cases h : value = "" <;>
      simp [recordsOf, h, ih, recordName_relatedImageRecord]

/-! ## Certificate removal: the claims -/

/-- C11: when the first container named "manager" has a volume mount named "cert",
`removeCerts` deletes exactly the first such mount of that container: its mount
list becomes the original with that one position erased, later mounts named "cert"
and all other mounts keeping their order; the other containers (and so their mount
lists) and the further deployments are unchanged. -/
theorem removeCerts_removes_first_cert_mount (csv : ClusterServiceVersion)
    (first : StrategyDeploymentSpec) (others : List StrategyDeploymentSpec)
    (pre : List Container) (manager : Container) (post : List Container)
    (mpre : List VolumeMount) (cert : VolumeMount) (mpost : List VolumeMount)
    (hd : deploymentSpecs csv = first :: others)
    (hc : first.Spec.Template.Spec.Containers = pre ++ manager :: post)
    (hpre : ∀ c ∈ pre, c.Name ≠ "manager") (hm : manager.Name = "manager")
    (hv : manager.VolumeMounts = mpre ++ cert :: mpost)
    (hmpre : ∀ m ∈ mpre, m.Name ≠ "cert") (hcert : cert.Name = "cert") :
    ∃ csv2 first2 manager2, removeCerts csv = .returned csv2 none
      ∧ deploymentSpecs csv2 = first2 :: others
      ∧ first2.Spec.Template.Spec.Containers = pre ++ manager2 :: post
      ∧ manager2.VolumeMounts = mpre ++ mpost
      ∧ manager2.VolumeMounts = manager.VolumeMounts.eraseIdx mpre.length
      ∧ manager2.Name = manager.Name ∧ manager2.Image = manager.Image
      ∧ manager2.Env = manager.Env := by
  have hmounts : removeCertMount manager.VolumeMounts 0 manager.VolumeMounts = mpre ++ mpost := by
    have h := removeCertMount_of_first manager.VolumeMounts [] mpre mpost cert
      (by simpa using hv) hmpre hcert
    rw [hv] at h ⊢
    simpa using h
  refine ⟨_, _, { manager with VolumeMounts := mpre ++ mpost },
    removeCerts_of_cons csv first others hd, rfl, ?_, rfl, ?_, rfl, rfl, rfl⟩
  · show removeManagerCertMount first.Spec.Template.Spec.Containers = _
    rw [hc, removeManagerCertMount_split pre manager post hpre hm, hmounts]
  · show mpre ++ mpost = manager.VolumeMounts.eraseIdx mpre.length
    rw [hv, List.eraseIdx_append_of_length_le (Nat.le_refl _)]
    simp

/-- C11 (witness): a manager with the mounts data, cert, logs, cert loses the first
"cert" mount only. -/
theorem removeCerts_removes_first_cert_mount_witness :
    ∃ csv2 first2 manager2,
      removeCerts (sampleManifest [sampleDeployment "d"
          [sampleSidecar,
           { sampleManager with
               VolumeMounts := [{ Name := "data", MountPath := "/data" },
                                { Name := "cert", MountPath := "/first" },
                                { Name := "logs", MountPath := "/logs" },
                                { Name := "cert", MountPath := "/second" }] }]] [])
        = .returned csv2 none
      ∧ deploymentSpecs csv2 = first2 :: []
      ∧ first2.Spec.Template.Spec.Containers = [sampleSidecar] ++ manager2 :: []
      ∧ manager2.VolumeMounts
          = [{ Name := "data", MountPath := "/data" }]
            ++ [{ Name := "logs", MountPath := "/logs" },
                { Name := "cert", MountPath := "/second" }] := by
  obtain ⟨csv2, first2, manager2, h1, h2, h3, h4, _⟩ :=
    removeCerts_removes_first_cert_mount
      (sampleManifest [sampleDeployment "d"
          [sampleSidecar,
           { sampleManager with
               VolumeMounts := [{ Name := "data", MountPath := "/data" },
                                { Name := "cert", MountPath := "/first" },
                                { Name := "logs", MountPath := "/logs" },
                                { Name := "cert", MountPath := "/second" }] }]] [])
      (sampleDeployment "d"
          [sampleSidecar,
           { sampleManager with
               VolumeMounts := [{ Name := "data", MountPath := "/data" },
                                { Name := "cert", MountPath := "/first" },
                                { Name := "logs", MountPath := "/logs" },
                                { Name := "cert", MountPath := "/second" }] }])
      [] [sampleSidecar]
      { sampleManager with
          VolumeMounts := [{ Name := "data", MountPath := "/data" },
                           { Name := "cert", MountPath := "/first" },
                           { Name := "logs", MountPath := "/logs" },
                           { Name := "cert", MountPath := "/second" }] }
      [] [{ Name := "data", MountPath := "/data" }] { Name := "cert", MountPath := "/first" }
      [{ Name := "logs", MountPath := "/logs" }, { Name := "cert", MountPath := "/second" }]
      (by decide) (by decide) (by decide) (by decide) (by decide) (by decide) (by decide)
  exact ⟨csv2, first2, manager2, h1, h2, h3, h4⟩

/-- C12 (the code at the failing input): with two volumes named "cert" followed by a
volume "data", `removeCerts` leaves the second "cert" volume in the list; with the
volumes cert, data, cert, logs it leaves data, logs, logs. -/
theorem removeCerts_two_cert_volumes :
    (∃ csv2, removeCerts (manifestWithVolumes
          [{ Name := "cert", Source := "secret-a" }, { Name := "cert", Source := "secret-b" },
           { Name := "data", Source := "emptyDir" }])
        = .returned csv2 none
      ∧ firstVolumes csv2
          = some [{ Name := "cert", Source := "secret-b" }, { Name := "data", Source := "emptyDir" }])
    ∧ (∃ csv3, removeCerts (manifestWithVolumes
          [{ Name := "cert", Source := "secret-a" }, { Name := "data", Source := "emptyDir" },
           { Name := "cert", Source := "secret-b" }, { Name := "logs", Source := "emptyDir" }])
        = .returned csv3 none
      ∧ firstVolumes csv3
          = some [{ Name := "data", Source := "emptyDir" }, { Name := "logs", Source := "emptyDir" },
                  { Name := "logs", Source := "emptyDir" }]) :=
  ⟨⟨_, rfl, rfl⟩, ⟨_, rfl, rfl⟩⟩

/-- C14: when the first deployment's pod template has no container named "manager",
`replaceVariables` with a valid csv-version returns no error and leaves the
container list unchanged, and `removeCerts` leaves every container (so every
container's volume mounts) unchanged. -/
theorem no_manager_is_a_no_op (semverNew : String → Except GoError Version)
    (env : Environment) (flags : generatorFlags) (csv : ClusterServiceVersion) (v : Version)
    (first : StrategyDeploymentSpec) (others : List StrategyDeploymentSpec)
    (hv : semverNew flags.csvVersion = .ok v) (hd : deploymentSpecs csv = first :: others)
    (hno : ∀ c ∈ first.Spec.Template.Spec.Containers, c.Name ≠ "manager") :
    (∃ csv2 first2, replaceVariables semverNew env flags csv = .returned csv2 none
        ∧ deploymentSpecs csv2 = first2 :: others
        ∧ first2.Spec.Template.Spec.Containers = first.Spec.Template.Spec.Containers)
      ∧ (∃ csv3 first3, removeCerts csv = .returned csv3 none
        ∧ deploymentSpecs csv3 = first3 :: others
        ∧ first3.Spec.Template.Spec.Containers = first.Spec.Template.Spec.Containers
        ∧ first3.Spec.Template.Spec.Containers.map Container.VolumeMounts
            = first.Spec.Template.Spec.Containers.map Container.VolumeMounts) := by
  refine ⟨⟨_, _, replaceVariables_of_cons semverNew env flags csv v first others hv hd, rfl,
      replaceManager_none env flags _ hno⟩,
    ⟨_, _, removeCerts_of_cons csv first others hd, rfl,
      removeManagerCertMount_none _ hno, ?_⟩⟩
  show (removeManagerCertMount first.Spec.Template.Spec.Containers).map _ = _
  rw [removeManagerCertMount_none _ hno]

/-- C14 (witness): a template whose only container is a side container with a
"cert" mount. -/
theorem no_manager_is_a_no_op_witness :
    (∃ csv2 first2,
        replaceVariables semver.New sampleEnvironment sampleFlags
            (sampleManifest [sampleDeployment "d"
              [{ sampleSidecar with VolumeMounts := [{ Name := "cert", MountPath := "/c" }] }]] [])
          = .returned csv2 none
        ∧ deploymentSpecs csv2 = first2 :: []
        ∧ first2.Spec.Template.Spec.Containers
            = [{ sampleSidecar with VolumeMounts := [{ Name := "cert", MountPath := "/c" }] }])
      ∧ (∃ csv3 first3,
        removeCerts (sampleManifest [sampleDeployment "d"
              [{ sampleSidecar with VolumeMounts := [{ Name := "cert", MountPath := "/c" }] }]] [])
          = .returned csv3 none
        ∧ deploymentSpecs csv3 = first3 :: []
        ∧ first3.Spec.Template.Spec.Containers
            = [{ sampleSidecar with VolumeMounts := [{ Name := "cert", MountPath := "/c" }] }]
        ∧ first3.Spec.Template.Spec.Containers.map Container.VolumeMounts
            = [[{ Name := "cert", MountPath := "/c" }]]) :=
  no_manager_is_a_no_op semver.New sampleEnvironment sampleFlags
    (sampleManifest [sampleDeployment "d"
      [{ sampleSidecar with VolumeMounts := [{ Name := "cert", MountPath := "/c" }] }]] [])
    { Major := 2, Minor := 0, Patch := 0, Pre := [], Build := [] }
    (sampleDeployment "d"
      [{ sampleSidecar with VolumeMounts := [{ Name := "cert", MountPath := "/c" }] }])
    [] (by decide) (by decide) (by decide)

/-- C15: the list returned by `buildRelatedImages` is the fixed table of the ten
logical names filtered to the non-empty fields, each kept pair giving one record;
so the logical names appear in the relative order of the fixed sequence, the
result depends only on the fields through that table, and equal configurations
give equal lists. -/
theorem buildRelatedImages_order (flags : generatorFlags) :
    buildRelatedImages flags
        = .ok (((relatedImageTable flags).filter (fun p => decide (p.2 ≠ ""))).map
            (fun p => relatedImageRecord p.1 p.2))
      ∧ (relatedImageTable flags).map Prod.fst = relatedImageNames
      ∧ (∃ l, buildRelatedImages flags = .ok l
          ∧ List.Sublist (l.filterMap recordName) relatedImageNames
          ∧ (l.filterMap recordName).length = l.length)
      ∧ (∀ flags2, relatedImageTable flags2 = relatedImageTable flags →
          buildRelatedImages flags2 = buildRelatedImages flags)
      ∧ (∀ flags2, flags2 = flags → buildRelatedImages flags2 = buildRelatedImages flags) := by
  refine ⟨?_, rfl, ⟨_, buildRelatedImages_eq flags, ?_, ?_⟩, ?_, ?_⟩
  · rw [buildRelatedImages_eq, recordsOf_eq_filter_map]
  · rw [recordsOf_names]
    have h : (relatedImageTable flags).map Prod.fst = relatedImageNames := rfl
    rw [← h]
    exact List.Sublist.map _ (List.filter_sublist _)
  · rw [recordsOf_names, recordsOf_eq_filter_map, List.length_map, List.length_map]
  · intro flags2 h
    rw [buildRelatedImages_eq, buildRelatedImages_eq, h]
  · intro flags2 h
    rw [h]

/-- C15 (witness): with the sysprep, cleanup and create-VM images set (named here in
another order than the fixed one), the names come out in the fixed order; and a
configuration that differs only in the namespace gives the same list. -/
theorem buildRelatedImages_order_witness :
    buildRelatedImages
        { sampleFlags with diskVirtSysprepImage := "s", cleanupVMImage := "c", createVMImage := "v" }
      = .ok [relatedImageRecord "cleanup-vm" "c", relatedImageRecord "create-vm-from-manifest" "v",
             relatedImageRecord "create-vm-from-template" "v",
             relatedImageRecord "disk-virt-sysprep" "s"]
    ∧ buildRelatedImages
        { sampleFlags with diskVirtSysprepImage := "s", cleanupVMImage := "c", createVMImage := "v",
                           «namespace» := "other" }
      = buildRelatedImages
        { sampleFlags with diskVirtSysprepImage := "s", cleanupVMImage := "c", createVMImage := "v" } :=
  ⟨(buildRelatedImages_order
      { sampleFlags with diskVirtSysprepImage := "s", cleanupVMImage := "c",
                         createVMImage := "v" }).1,
   (buildRelatedImages_order
      { sampleFlags with diskVirtSysprepImage := "s", cleanupVMImage := "c",
                         createVMImage := "v" }).2.2.2.1
      { sampleFlags with diskVirtSysprepImage := "s", cleanupVMImage := "c", createVMImage := "v",
                         «namespace» := "other" } rfl⟩

/-- C18: if the first container named "manager" (when there is one) has no volume
mount named "cert" and the pod template has no volume named "cert", `removeCerts`
returns the manifest unchanged; and when the `removeCerts` flag is false,
`runGenerator` hands to `marshallObject` the manifest exactly as `replaceVariables`
left it. -/
theorem removeCerts_no_op_and_flag (semverNew : String → Except GoError Version)
    (env : Environment) (readCSV : String → Except GoError ClusterServiceVersion)
    (jsonRoundTrip : ClusterServiceVersion → Except GoError Object)
    (readDir : Except GoError (List String))
    (readAndDecodeToCRD : String → Except GoError CustomResourceDefinition) :
    (∀ (csv : ClusterServiceVersion) (first : StrategyDeploymentSpec)
        (others : List StrategyDeploymentSpec),
        deploymentSpecs csv = first :: others →
        (∀ c, firstManager first.Spec.Template.Spec.Containers = some c →
          ∀ m ∈ c.VolumeMounts, m.Name ≠ "cert") →
        (∀ v ∈ first.Spec.Template.Spec.Volumes, v.Name ≠ "cert") →
        removeCerts csv = .returned csv none)
      ∧ (∀ (f : generatorFlags) (csv0 csv1 : ClusterServiceVersion) (stdout : Writer),
          f.removeCerts = false → readCSV f.file = .ok csv0 →
          replaceVariables semverNew env f csv0 = .returned csv1 none →
          ∃ relatedImages, buildRelatedImages f = .ok relatedImages
            ∧ runGenerator semverNew env readCSV jsonRoundTrip readDir readAndDecodeToCRD f stdout
                = match marshallObject jsonRoundTrip csv1 relatedImages stdout with
                  | .panicked => .panicked
                  | .returned stdout2 (some err) => .returned stdout2 (some err)
                  | .returned stdout2 none =>
                    if !f.dumpCRDs then .returned stdout2 none
                    else
                      match readDir with
                      | .error err => .returned stdout2 (some err)
                      | .ok files => dumpCRDs readAndDecodeToCRD files stdout2) := by
  constructor
  · intro csv first others hd hmounts hvolumes
    rw [removeCerts_of_cons csv first others hd,
      removeManagerCertMount_of_no_cert _ hmounts, removeCertVolumes_of_none _ hvolumes]
    obtain ⟨name, ns, ⟨ver, ⟨⟨deps⟩⟩, ri⟩⟩ := csv
    simp only [deploymentSpecs] at hd
    subst hd
    rfl
  · intro f csv0 csv1 stdout hflag hcsv hrep
    refine ⟨_, buildRelatedImages_eq f, ?_⟩
    unfold runGenerator
    simp only [hcsv, hrep, hflag, buildRelatedImages_eq f, Bool.false_eq_true, if_false]

/-- C18 (witness): a template without "cert" mount and volume passes `removeCerts`
unchanged; and a run with the flag off on the usual template hands the manifest
returned by `replaceVariables` to `marshallObject`. -/
theorem removeCerts_no_op_and_flag_witness :
    removeCerts manifestWithoutCerts = .returned manifestWithoutCerts none
      ∧ ∃ csv1 relatedImages,
          replaceVariables semver.New sampleEnvironment sampleFlags usualManifest
            = .returned csv1 none
          ∧ buildRelatedImages sampleFlags = .ok relatedImages
          ∧ runGenerator semver.New sampleEnvironment (fun _ => .ok usualManifest) csvRoundTrip
                (.ok []) (fun _ => .ok []) sampleFlags []
              = match marshallObject csvRoundTrip csv1 relatedImages [] with
                | .panicked => .panicked
                | .returned stdout2 (some err) => .returned stdout2 (some err)
                | .returned stdout2 none =>
                  if !sampleFlags.dumpCRDs then .returned stdout2 none
                  else
                    match (Except.ok [] : Except GoError (List String)) with
                    | .error err => .returned stdout2 (some err)
                    | .ok files => dumpCRDs (fun _ => .ok []) files stdout2 := by
  have h := removeCerts_no_op_and_flag semver.New sampleEnvironment
    (fun _ => .ok usualManifest) csvRoundTrip (.ok []) (fun _ => .ok [])
  refine ⟨h.1 manifestWithoutCerts
      { Name := "tekton-tasks-operator"
        Spec := { Template :=
          { Namespace := "template-ns"
            Spec := { Containers := [sampleSidecar, sampleManagerNoCert]
                      Volumes := [{ Name := "data", Source := "emptyDir" }] } } } }
      [] rfl ?_ (by decide), ?_⟩
  · intro c hc
    have hc2 : c = sampleManagerNoCert := by
      have h2 : firstManager [sampleSidecar, sampleManagerNoCert] = some sampleManagerNoCert := by
        decide
      rw [h2] at hc
      exact (Option.some.inj hc).symm
    subst hc2
    decide
  · obtain ⟨relatedImages, hr, hrun⟩ := h.2 sampleFlags usualManifest _ [] rfl rfl
      (replaceVariables_of_cons semver.New sampleEnvironment sampleFlags usualManifest
        { Major := 2, Minor := 0, Patch := 0, Pre := [], Build := [] }
        (sampleDeployment "tekton-tasks-operator" [sampleSidecar, sampleManager])
        [sampleDeployment "second" [sampleSidecar]] (by decide) (by decide))
    exact ⟨_, relatedImages, replaceVariables_of_cons semver.New sampleEnvironment sampleFlags
        usualManifest { Major := 2, Minor := 0, Patch := 0, Pre := [], Build := [] }
        (sampleDeployment "tekton-tasks-operator" [sampleSidecar, sampleManager])
        [sampleDeployment "second" [sampleSidecar]] (by decide) (by decide), hr, hrun⟩

/-! ## Generic documents: lemmas -/

theorem lookup_insert_self (key : String) (value : JSON) (m : Object) :
    unstructured.lookup key (unstructured.insert key value m) = some value := by
  induction m with
  | nil => simp [unstructured.insert, unstructured.lookup]
  | cons kv rest ih =>
    obtain ⟨k, v⟩ := kv
    by_cases h : k = key
    · simp [unstructured.insert, unstructured.lookup, h]
    · simp [unstructured.insert, unstructured.lookup, h, ih]

theorem lookup_insert_ne (key other : String) (value : JSON) (m : Object) (h : other ≠ key) :
    unstructured.lookup other (unstructured.insert key value m) = unstructured.lookup other m := by
  induction m with
  | nil => simp [unstructured.insert, unstructured.lookup, h.symm]
  | cons kv rest ih =>
    obtain ⟨k, v⟩ := kv
    by_cases hk : k = key
    · subst hk
      simp [unstructured.insert, unstructured.lookup, h.symm]
    · by_cases ho : k = other
      · subst ho
        simp [unstructured.insert, unstructured.lookup, h]
      · simp [unstructured.insert, unstructured.lookup, hk, ho, ih]

theorem lookup_delete_self (key : String) (m : Object) :
    unstructured.lookup key (unstructured.delete key m) = none := by
  induction m with
  | nil => rfl
  | cons kv rest ih =>
    obtain ⟨k, v⟩ := kv
    by_cases h : k = key
    · simp [unstructured.delete, h, ih]
    · simp [unstructured.delete, unstructured.lookup, h, ih]

theorem lookup_delete_ne (key other : String) (m : Object) (h : other ≠ key) :
    unstructured.lookup other (unstructured.delete key m) = unstructured.lookup other m := by
  induction m with
  | nil => rfl
  | cons kv rest ih =>
    obtain ⟨k, v⟩ := kv
    by_cases hk : k = key
    · subst hk
      simp [unstructured.delete, unstructured.lookup, h.symm, ih]
    · by_cases ho : k = other
      · subst ho
        simp [unstructured.delete, unstructured.lookup, h]
      · simp [unstructured.delete, unstructured.lookup, hk, ho, ih]

theorem nestedField_obj_cons (m : Object) (field : String) (rest : List String) :
    unstructured.NestedFieldNoCopy (.obj m) (field :: rest)
      = match unstructured.lookup field m with
        | none => .ok none
        | some v => unstructured.NestedFieldNoCopy v rest := rfl

theorem diverges_comm (p q : List String) : diverges p q = diverges q p := by
  induction p generalizing q with
  | nil => cases q <;> rfl
  | cons a p ih =>
    cases q with
    | nil => rfl
    | cons b q =>
      by_cases h : a = b
      · subst h
        simp [diverges, ih q]
      · have h2 : ¬ b = a := fun e => h e.symm
        simp [diverges, h, h2]

theorem removeNestedField_frame (m : Object) (p q : List String) (h : diverges p q = true) :
    unstructured.NestedFieldNoCopy (.obj (unstructured.RemoveNestedField m p)) q
      = unstructured.NestedFieldNoCopy (.obj m) q := by
  induction p generalizing m q with
  | nil => simp [diverges] at h
  | cons f p ih =>
    cases q with
    | nil => simp [diverges] at h
    | cons b q =>
      by_cases hfb : f = b
      · subst hfb
        simp only [diverges, if_true] at h
        cases p with
        | nil => simp [diverges] at h
        | cons g rest =>
          simp only [unstructured.RemoveNestedField]
          cases hl : unstructured.lookup f m with
          | none => rfl
          | some v =>
            cases v with
            | obj x =>
              simp only [nestedField_obj_cons, lookup_insert_self, hl]
              exact ih x q h
            | null => rfl
            | bool _ => rfl
            | num _ => rfl
            | str _ => rfl
            | arr _ => rfl
      · have hbf : b ≠ f := fun e => hfb e.symm
        cases p with
        | nil =>
          simp only [unstructured.RemoveNestedField, nestedField_obj_cons,
            lookup_delete_ne f b m hbf]
        | cons g rest =>
          simp only [unstructured.RemoveNestedField]
          cases hl : unstructured.lookup f m with
          | none => rfl
          | some v =>
            cases v with
            | obj x => simp only [nestedField_obj_cons, lookup_insert_ne f b _ m hbf]
            | null => rfl
            | bool _ => rfl
            | num _ => rfl
            | str _ => rfl
            | arr _ => rfl

theorem removeNestedField_absent (m : Object) (p : List String) (h : p ≠ []) :
    valueAt (.obj (unstructured.RemoveNestedField m p)) p = none := by
  induction p generalizing m with
  | nil => exact absurd rfl h
  | cons f p ih =>
    cases p with
    | nil =>
      simp [valueAt, unstructured.RemoveNestedField, nestedField_obj_cons, lookup_delete_self]
    | cons g rest =>
      simp only [unstructured.RemoveNestedField]
      cases hl : unstructured.lookup f m with
      | none => simp [valueAt, nestedField_obj_cons, hl]
      | some v =>
        cases v with
        | obj x =>
          have h2 := ih x (List.cons_ne_nil _ _)
          simp only [valueAt, nestedField_obj_cons, lookup_insert_self] at h2 ⊢
          exact h2
        | null => simp [valueAt, nestedField_obj_cons, hl, unstructured.NestedFieldNoCopy]
        | bool _ => simp [valueAt, nestedField_obj_cons, hl, unstructured.NestedFieldNoCopy]
        | num _ => simp [valueAt, nestedField_obj_cons, hl, unstructured.NestedFieldNoCopy]
        | str _ => simp [valueAt, nestedField_obj_cons, hl, unstructured.NestedFieldNoCopy]
        | arr _ => simp [valueAt, nestedField_obj_cons, hl, unstructured.NestedFieldNoCopy]

theorem nestedField_nil_obj (q : List String) (h : q ≠ []) :
    unstructured.NestedFieldNoCopy (.obj []) q = .ok none := by
  cases q with
  | nil => exact absurd rfl h
  | cons b q => rfl

theorem setNestedField_found (m m2 : Object) (value : JSON) (p : List String)
    (hs : unstructured.setNestedFieldNoCopy m value p = .ok m2) (hp : p ≠ []) :
    unstructured.NestedFieldNoCopy (.obj m2) p = .ok (some value) := by
  induction p generalizing m m2 with
  | nil => exact absurd rfl hp
  | cons f p ih =>
    cases p with
    | nil =>
      simp only [unstructured.setNestedFieldNoCopy, Except.ok.injEq] at hs
      subst hs
      simp only [nestedField_obj_cons, lookup_insert_self]
      rfl
    | cons g rest =>
      cases hl : unstructured.lookup f m with
      | none =>
        simp only [unstructured.setNestedFieldNoCopy, hl] at hs
        cases hi : unstructured.setNestedFieldNoCopy [] value (g :: rest) with
        | error e => simp [hi] at hs
        | ok mm =>
          simp only [hi, Except.ok.injEq] at hs
          subst hs
          simp only [nestedField_obj_cons, lookup_insert_self]
          exact ih [] mm hi (List.cons_ne_nil _ _)
      | some y =>
        cases y with
        | obj x =>
          simp only [unstructured.setNestedFieldNoCopy, hl] at hs
          cases hi : unstructured.setNestedFieldNoCopy x value (g :: rest) with
          | error e => simp [hi] at hs
          | ok mm =>
            simp only [hi, Except.ok.injEq] at hs
            subst hs
            simp only [nestedField_obj_cons, lookup_insert_self]
            exact ih x mm hi (List.cons_ne_nil _ _)
        | null => simp [unstructured.setNestedFieldNoCopy, hl] at hs
        | bool _ => simp [unstructured.setNestedFieldNoCopy, hl] at hs
        | num _ => simp [unstructured.setNestedFieldNoCopy, hl] at hs
        | str _ => simp [unstructured.setNestedFieldNoCopy, hl] at hs
        | arr _ => simp [unstructured.setNestedFieldNoCopy, hl] at hs

theorem setNestedField_frame (m m2 : Object) (value : JSON) (p q : List String)
    (hs : unstructured.setNestedFieldNoCopy m value p = .ok m2) (h : diverges p q = true) :
    unstructured.NestedFieldNoCopy (.obj m2) q = unstructured.NestedFieldNoCopy (.obj m) q := by
  induction p generalizing m m2 q with
  | nil => simp [diverges] at h
  | cons f p ih =>
    cases q with
    | nil => simp [diverges] at h
    | cons b q =>
      by_cases hfb : f = b
      · subst hfb
        simp only [diverges, if_true] at h
        cases p with
        | nil => simp [diverges] at h
        | cons g rest =>
          have hq : q ≠ [] := by
            intro hq
            subst hq
            simp [diverges] at h
          cases hl : unstructured.lookup f m with
          | none =>
            simp only [unstructured.setNestedFieldNoCopy, hl] at hs
            cases hi : unstructured.setNestedFieldNoCopy [] value (g :: rest) with
            | error e => simp [hi] at hs
            | ok mm =>
              simp only [hi, Except.ok.injEq] at hs
              subst hs
              simp only [nestedField_obj_cons, lookup_insert_self, hl]
              rw [ih [] mm q hi h]
              exact nestedField_nil_obj q hq
          | some y =>
            cases y with
            | obj x =>
              simp only [unstructured.setNestedFieldNoCopy, hl] at hs
              cases hi : unstructured.setNestedFieldNoCopy x value (g :: rest) with
              | error e => simp [hi] at hs
              | ok mm =>
                simp only [hi, Except.ok.injEq] at hs
                subst hs
                simp only [nestedField_obj_cons, lookup_insert_self, hl]
                exact ih x mm q hi h
            | null => simp [unstructured.setNestedFieldNoCopy, hl] at hs
            | bool _ => simp [unstructured.setNestedFieldNoCopy, hl] at hs
            | num _ => simp [unstructured.setNestedFieldNoCopy, hl] at hs
            | str _ => simp [unstructured.setNestedFieldNoCopy, hl] at hs
            | arr _ => simp [unstructured.setNestedFieldNoCopy, hl] at hs
      · have hbf : b ≠ f := fun e => hfb e.symm
        have hins : ∀ x, m2 = unstructured.insert f x m →
            unstructured.NestedFieldNoCopy (.obj m2) (b :: q)
              = unstructured.NestedFieldNoCopy (.obj m) (b :: q) := by
          intro x hx
          subst hx
          simp only [nestedField_obj_cons, lookup_insert_ne f b _ m hbf]
        cases p with
        | nil =>
          simp only [unstructured.setNestedFieldNoCopy, Except.ok.injEq] at hs
          exact hins _ hs.symm
        | cons g rest =>
          cases hl : unstructured.lookup f m with
          | none =>
            simp only [unstructured.setNestedFieldNoCopy, hl] at hs
            cases hi : unstructured.setNestedFieldNoCopy [] value (g :: rest) with
            | error e => simp [hi] at hs
            | ok mm =>
              simp only [hi, Except.ok.injEq] at hs
              exact hins _ hs.symm
          | some y =>
            cases y with
            | obj x =>
              simp only [unstructured.setNestedFieldNoCopy, hl] at hs
              cases hi : unstructured.setNestedFieldNoCopy x value (g :: rest) with
              | error e => simp [hi] at hs
              | ok mm =>
                simp only [hi, Except.ok.injEq] at hs
                exact hins _ hs.symm
            | null => simp [unstructured.setNestedFieldNoCopy, hl] at hs
            | bool _ => simp [unstructured.setNestedFieldNoCopy, hl] at hs
            | num _ => simp [unstructured.setNestedFieldNoCopy, hl] at hs
            | str _ => simp [unstructured.setNestedFieldNoCopy, hl] at hs
            | arr _ => simp [unstructured.setNestedFieldNoCopy, hl] at hs

theorem setNestedField_of_found (m : Object) (value x : JSON) (p : List String)
    (hf : unstructured.NestedFieldNoCopy (.obj m) p = .ok (some x)) (hp : p ≠ []) :
    ∃ m2, unstructured.setNestedFieldNoCopy m value p = .ok m2 := by
  induction p generalizing m with
  | nil => exact absurd rfl hp
  | cons f p ih =>
    cases p with
    | nil => exact ⟨_, rfl⟩
    | cons g rest =>
      rw [nestedField_obj_cons] at hf
      cases hl : unstructured.lookup f m with
      | none => simp [hl] at hf
      | some y =>
        simp only [hl] at hf
        cases y with
        | obj y2 =>
          obtain ⟨mm, hmm⟩ := ih y2 hf (List.cons_ne_nil _ _)
          exact ⟨unstructured.insert f (.obj mm) m,
            by simp only [unstructured.setNestedFieldNoCopy, hl, hmm]⟩
        | null => simp [unstructured.NestedFieldNoCopy] at hf
        | bool _ => simp [unstructured.NestedFieldNoCopy] at hf
        | num _ => simp [unstructured.NestedFieldNoCopy] at hf
        | str _ => simp [unstructured.NestedFieldNoCopy] at hf
        | arr _ => simp [unstructured.NestedFieldNoCopy] at hf

theorem setNestedField_two (m : Object) (value : JSON) (a b : String)
    (h : mapOrAbsent (unstructured.lookup a m)) :
    ∃ m2, unstructured.setNestedFieldNoCopy m value [a, b] = .ok m2 := by
  rcases h with h | ⟨x, h⟩
  · exact ⟨unstructured.insert a (.obj (unstructured.insert b value [])) m,
      by simp only [unstructured.setNestedFieldNoCopy, h]⟩
  · exact ⟨unstructured.insert a (.obj (unstructured.insert b value x)) m,
      by simp only [unstructured.setNestedFieldNoCopy, h]⟩

theorem setIgnoringError_frame (m : Object) (value : List JSON) (p q : List String)
    (h : diverges p q = true) :
    unstructured.NestedFieldNoCopy (.obj (setNestedSliceIgnoringError m value p)) q
      = unstructured.NestedFieldNoCopy (.obj m) q := by
  unfold setNestedSliceIgnoringError unstructured.SetNestedSlice
  cases hs : unstructured.setNestedFieldNoCopy m (.arr value) p with
  | error e => rfl
  | ok m2 => exact setNestedField_frame m m2 _ p q hs h

theorem removeNestedField_kind (m : Object) (p : List String) (key : String)
    (h : mapOrAbsent (unstructured.lookup key m)) :
    mapOrAbsent (unstructured.lookup key (unstructured.RemoveNestedField m p)) := by
  cases p with
  | nil => exact h
  | cons f p =>
    cases p with
    | nil =>
      simp only [unstructured.RemoveNestedField]
      by_cases hk : key = f
      · subst hk
        exact Or.inl (lookup_delete_self key m)
      · rw [lookup_delete_ne f key m hk]
        exact h
    | cons g rest =>
      simp only [unstructured.RemoveNestedField]
      cases hl : unstructured.lookup f m with
      | none => exact h
      | some y =>
        cases y with
        | obj x =>
          by_cases hk : key = f
          · subst hk
            exact Or.inr ⟨_, lookup_insert_self key _ m⟩
          · simp only
            rw [lookup_insert_ne f key _ m hk]
            exact h
        | null => exact h
        | bool _ => exact h
        | num _ => exact h
        | str _ => exact h
        | arr _ => exact h

theorem setIgnoringError_kind (m : Object) (value : List JSON) (f g : String)
    (rest : List String) (key : String) (h : mapOrAbsent (unstructured.lookup key m)) :
    mapOrAbsent (unstructured.lookup key
      (setNestedSliceIgnoringError m value (f :: g :: rest))) := by
  unfold setNestedSliceIgnoringError unstructured.SetNestedSlice
  have hins : ∀ x, mapOrAbsent (unstructured.lookup key (unstructured.insert f (.obj x) m)) := by
    intro x
    by_cases hk : key = f
    · subst hk
      exact Or.inr ⟨_, lookup_insert_self key _ m⟩
    · rw [lookup_insert_ne f key _ m hk]
      exact h
  cases hl : unstructured.lookup f m with
  | none =>
    simp only [unstructured.setNestedFieldNoCopy, hl]
    cases hi : unstructured.setNestedFieldNoCopy [] (.arr value) (g :: rest) with
    | error e => exact h
    | ok mm => exact hins mm
  | some y =>
    cases y with
    | obj x =>
      simp only [unstructured.setNestedFieldNoCopy, hl]
      cases hi : unstructured.setNestedFieldNoCopy x (.arr value) (g :: rest) with
      | error e => exact h
      | ok mm => exact hins mm
    | null => simpa only [unstructured.setNestedFieldNoCopy, hl] using h
    | bool _ => simpa only [unstructured.setNestedFieldNoCopy, hl] using h
    | num _ => simpa only [unstructured.setNestedFieldNoCopy, hl] using h
    | str _ => simpa only [unstructured.setNestedFieldNoCopy, hl] using h
    | arr _ => simpa only [unstructured.setNestedFieldNoCopy, hl] using h

theorem valueAt_congr (a b : JSON) (q : List String)
    (h : unstructured.NestedFieldNoCopy a q = unstructured.NestedFieldNoCopy b q) :
    valueAt a q = valueAt b q := by
  unfold valueAt
  rw [h]

theorem removeAll_cons (m : Object) (p : List String) (ps : List (List String)) :
    removeAll m (p :: ps) = removeAll (unstructured.RemoveNestedField m p) ps := rfl

theorem removeAll_frame (m : Object) (ps : List (List String)) (q : List String)
    (h : ∀ p ∈ ps, diverges p q = true) :
    unstructured.NestedFieldNoCopy (.obj (removeAll m ps)) q
      = unstructured.NestedFieldNoCopy (.obj m) q := by
  induction ps generalizing m with
  | nil => rfl
  | cons p ps ih =>
    rw [removeAll_cons, ih _ (fun x hx => h x (List.mem_cons_of_mem _ hx)),
      removeNestedField_frame m p q (h p (List.mem_cons_self _ _))]

theorem removeAll_absent (m : Object) (ps : List (List String))
    (hne : ∀ p ∈ ps, p ≠ []) (hpw : ps.Pairwise (fun a b => diverges a b = true)) :
    ∀ p ∈ ps, valueAt (.obj (removeAll m ps)) p = none := by
  induction ps generalizing m with
  | nil => intro p hp; simp at hp
  | cons a ps ih =>
    rw [List.pairwise_cons] at hpw
    intro p hp
    rw [removeAll_cons]
    rcases List.mem_cons.mp hp with heq | hin
    · subst heq
      rw [valueAt_congr _ _ _ (removeAll_frame _ ps p
        (fun x hx => by rw [diverges_comm]; exact hpw.1 x hx))]
      exact removeNestedField_absent m p (hne p (List.mem_cons_self _ _))
    · exact ih _ (fun x hx => hne x (List.mem_cons_of_mem _ hx)) hpw.2 p hin

theorem removeAll_kind (m : Object) (ps : List (List String)) (key : String)
    (h : mapOrAbsent (unstructured.lookup key m)) :
    mapOrAbsent (unstructured.lookup key (removeAll m ps)) := by
  induction ps generalizing m with
  | nil => exact h
  | cons p ps ih =>
    rw [removeAll_cons]
    exact ih _ (removeNestedField_kind m p key h)

theorem cleanDeployments_of_objects (ds : List JSON) (h : ∀ d ∈ ds, d.isObject = true) :
    cleanDeployments ds = some (ds.map cleanElement) := by
  induction ds with
  | nil => rfl
  | cons d ds ih =>
    have hd := h d (List.mem_cons_self _ _)
    have ih2 := ih (fun x hx => h x (List.mem_cons_of_mem _ hx))
    cases d with
    | obj m =>
      simp only [cleanDeployments, ih2, List.map_cons]
      rfl
    | null => simp [JSON.isObject] at hd
    | bool _ => simp [JSON.isObject] at hd
    | num _ => simp [JSON.isObject] at hd
    | str _ => simp [JSON.isObject] at hd
    | arr _ => simp [JSON.isObject] at hd

theorem cleanDeployments_some (ds cleaned : List JSON) (h : cleanDeployments ds = some cleaned) :
    (∀ d ∈ ds, d.isObject = true) ∧ cleaned = ds.map cleanElement := by
  induction ds generalizing cleaned with
  | nil =>
    simp only [cleanDeployments, Option.some.injEq] at h
    subst h
    exact ⟨fun d hd => by simp at hd, rfl⟩
  | cons d ds ih =>
    cases d with
    | obj m =>
      cases hc : cleanDeployments ds with
      | none => simp [cleanDeployments, hc] at h
      | some rest =>
        obtain ⟨hall, hrest⟩ := ih rest hc
        simp only [cleanDeployments, hc, Option.some.injEq] at h
        subst h
        subst hrest
        refine ⟨?_, rfl⟩
        intro x hx
        rcases List.mem_cons.mp hx with hx | hx
        · subst hx
          rfl
        · exact hall x hx
    | null => simp [cleanDeployments] at h
    | bool _ => simp [cleanDeployments] at h
    | num _ => simp [cleanDeployments] at h
    | str _ => simp [cleanDeployments] at h
    | arr _ => simp [cleanDeployments] at h

theorem marshallObject_eq_renderDocument {α : Type}
    (jsonRoundTrip : α → Except GoError Object) (obj : α) (r0 : Object)
    (relatedImages : List JSON) (writer : Writer) (hr : jsonRoundTrip obj = .ok r0) :
    marshallObject jsonRoundTrip obj relatedImages writer
      = match renderDocument r0 relatedImages with
        | .error err => .returned writer (some err)
        | .ok none => .panicked
        | .ok (some doc) =>
          .returned (writer ++ [Chunk.separator, Chunk.document doc]) none := by
  unfold marshallObject renderDocument
  simp only [hr, removeAll, strippedPaths, deploymentsPath, relatedImagesPath, List.foldl]
  cases unstructured.NestedSlice _ _ with
  | error e => rfl
  | ok found =>
    cases found with
    | none => rfl
    | some ds =>
      simp only
      cases cleanDeployments ds with
      | none => rfl
      | some ds2 => rfl

theorem strippedPaths_diverge_deployments :
    ∀ p ∈ strippedPaths, diverges p deploymentsPath = true := by decide

theorem strippedPaths_diverge_relatedImages :
    ∀ p ∈ strippedPaths, diverges p relatedImagesPath = true := by decide

theorem strippedPaths_pairwise :
    strippedPaths.Pairwise (fun a b => diverges a b = true) := by
  simp [strippedPaths, diverges]

theorem elementStrippedPaths_pairwise :
    elementStrippedPaths.Pairwise (fun a b => diverges a b = true) := by
  simp [elementStrippedPaths, diverges]

theorem stripped_deployments (r0 : Object) :
    unstructured.NestedFieldNoCopy (.obj (removeAll r0 strippedPaths)) deploymentsPath
      = unstructured.NestedFieldNoCopy (.obj r0) deploymentsPath :=
  removeAll_frame r0 strippedPaths deploymentsPath strippedPaths_diverge_deployments

theorem nestedSlice_eq (m : Object) (p : List String) :
    unstructured.NestedSlice m p
      = match unstructured.NestedFieldNoCopy (.obj m) p with
        | .error err => .error err
        | .ok none => .ok none
        | .ok (some (.arr items)) => .ok (some items)
        | .ok (some _) => .error "accessor error: expected []interface{}" := rfl

theorem renderDocument_some (r0 : Object) (relatedImages : List JSON) (doc : Object)
    (h : renderDocument r0 relatedImages = .ok (some doc)) :
    ∃ r5, cleanedStage r0 r5
      ∧ doc = (if relatedImages.length > 0 then
          setNestedSliceIgnoringError r5 relatedImages relatedImagesPath else r5) := by
  unfold renderDocument at h
  simp only [nestedSlice_eq, stripped_deployments] at h
  cases hf : unstructured.NestedFieldNoCopy (.obj r0) deploymentsPath with
  | error e => simp [hf] at h
  | ok found =>
    cases found with
    | none =>
      simp only [hf, Except.ok.injEq, Option.some.injEq] at h
      exact ⟨_, Or.inl ⟨hf, rfl⟩, h.symm⟩
    | some v =>
      cases v with
      | arr ds =>
        simp only [hf] at h
        cases hc : cleanDeployments ds with
        | none => simp [hc] at h
        | some ds2 =>
          obtain ⟨hall, hds2⟩ := cleanDeployments_some ds ds2 hc
          subst hds2
          simp only [hc, Except.ok.injEq, Option.some.injEq] at h
          exact ⟨_, Or.inr ⟨ds, hf, hall, rfl⟩, h.symm⟩
      | null => simp [hf] at h
      | bool _ => simp [hf] at h
      | num _ => simp [hf] at h
      | str _ => simp [hf] at h
      | obj _ => simp [hf] at h

theorem renderDocument_of_renderable (r0 : Object) (relatedImages : List JSON)
    (h : deploymentsRenderable r0) :
    ∃ doc, renderDocument r0 relatedImages = .ok (some doc) := by
  unfold renderDocument
  simp only [nestedSlice_eq, stripped_deployments]
  rcases h with h | ⟨ds, h, hall⟩
  · simp only [h]
    exact ⟨_, rfl⟩
  · simp only [h, cleanDeployments_of_objects ds hall]
    exact ⟨_, rfl⟩

theorem renderable_of_renderDocument (r0 : Object) (relatedImages : List JSON) (doc : Object)
    (h : renderDocument r0 relatedImages = .ok (some doc)) : deploymentsRenderable r0 := by
  obtain ⟨r5, hstage, _⟩ := renderDocument_some r0 relatedImages doc h
  rcases hstage with ⟨h1, _⟩ | ⟨ds, h1, hall, _⟩
  · exact Or.inl h1
  · exact Or.inr ⟨ds, h1, hall⟩

theorem cleanedStage_frame (r0 r5 : Object) (hs : cleanedStage r0 r5) (q : List String)
    (h1 : ∀ p ∈ strippedPaths, diverges p q = true) (h2 : diverges deploymentsPath q = true) :
    unstructured.NestedFieldNoCopy (.obj r5) q = unstructured.NestedFieldNoCopy (.obj r0) q := by
  rcases hs with ⟨_, hr⟩ | ⟨ds, _, _, hr⟩
  · rw [hr]
    exact removeAll_frame r0 strippedPaths q h1
  · rw [hr, setIgnoringError_frame _ _ _ q h2]
    exact removeAll_frame r0 strippedPaths q h1

theorem cleanedStage_absent (r0 r5 : Object) (hs : cleanedStage r0 r5) :
    ∀ p ∈ strippedPaths, valueAt (.obj r5) p = none := by
  intro p hp
  have habs := removeAll_absent r0 strippedPaths (by decide) strippedPaths_pairwise p hp
  rcases hs with ⟨_, hr⟩ | ⟨ds, _, _, hr⟩
  · rw [hr]
    exact habs
  · rw [hr, valueAt_congr _ _ _ (setIgnoringError_frame _ _ _ p
      (by rw [diverges_comm]; exact strippedPaths_diverge_deployments p hp))]
    exact habs

theorem cleanedStage_kind (r0 r5 : Object) (hs : cleanedStage r0 r5) (key : String)
    (h : mapOrAbsent (unstructured.lookup key r0)) :
    mapOrAbsent (unstructured.lookup key r5) := by
  rcases hs with ⟨_, hr⟩ | ⟨ds, _, _, hr⟩
  · rw [hr]
    exact removeAll_kind r0 strippedPaths key h
  · rw [hr]
    exact setIgnoringError_kind _ _ _ _ _ key (removeAll_kind r0 strippedPaths key h)

theorem cleanedStage_deployments (r0 r5 : Object) (hs : cleanedStage r0 r5) :
    (unstructured.NestedFieldNoCopy (.obj r0) deploymentsPath = .ok none →
        unstructured.NestedFieldNoCopy (.obj r5) deploymentsPath = .ok none)
      ∧ (∀ ds, unstructured.NestedFieldNoCopy (.obj r0) deploymentsPath
            = .ok (some (.arr ds)) →
          (∀ d ∈ ds, d.isObject = true)
            ∧ unstructured.NestedFieldNoCopy (.obj r5) deploymentsPath
                = .ok (some (.arr (ds.map cleanElement)))) := by
  rcases hs with ⟨h0, hr⟩ | ⟨ds, h0, hall, hr⟩
  · refine ⟨fun _ => ?_, fun ds hds => ?_⟩
    · rw [hr, stripped_deployments]
      exact h0
    · rw [h0] at hds
      simp at hds
  · refine ⟨fun hn => ?_, fun ds2 hds => ?_⟩
    · rw [h0] at hn
      simp at hn
    · rw [h0] at hds
      simp only [Except.ok.injEq, Option.some.injEq, JSON.arr.injEq] at hds
      subst hds
      refine ⟨hall, ?_⟩
      have hfound : unstructured.NestedFieldNoCopy (.obj (removeAll r0 strippedPaths))
          deploymentsPath = .ok (some (.arr ds)) := by
        rw [stripped_deployments]
        exact h0
      obtain ⟨m2, hm2⟩ := setNestedField_of_found (removeAll r0 strippedPaths)
        (.arr (ds.map cleanElement)) _ deploymentsPath hfound (by decide)
      have hr5 : r5 = m2 := by
        rw [hr]
        unfold setNestedSliceIgnoringError unstructured.SetNestedSlice
        rw [hm2]
      rw [hr5]
      exact setNestedField_found _ m2 _ deploymentsPath hm2 (by decide)

theorem nestedField_head_kind (m : Object) (a b : String) (rest : List String)
    (x : Option JSON)
    (h : unstructured.NestedFieldNoCopy (.obj m) (a :: b :: rest) = .ok x) :
    unstructured.lookup a m = some .null ∨ mapOrAbsent (unstructured.lookup a m) := by
  rw [nestedField_obj_cons] at h
  cases hl : unstructured.lookup a m with
  | none => exact Or.inr (Or.inl rfl)
  | some y =>
    cases y with
    | null => exact Or.inl rfl
    | obj z => exact Or.inr (Or.inr ⟨z, rfl⟩)
    | bool _ => simp [hl, unstructured.NestedFieldNoCopy] at h
    | num _ => simp [hl, unstructured.NestedFieldNoCopy] at h
    | str _ => simp [hl, unstructured.NestedFieldNoCopy] at h
    | arr _ => simp [hl, unstructured.NestedFieldNoCopy] at h

theorem renderable_spec_kind (r0 : Object) (h : deploymentsRenderable r0)
    (hnull : unstructured.lookup "spec" r0 ≠ some .null) :
    mapOrAbsent (unstructured.lookup "spec" r0) := by
  rcases h with h | ⟨ds, h, _⟩
  · rcases nestedField_head_kind r0 "spec" "install" ["spec", "deployments"] _ h with h2 | h2
    · exact absurd h2 hnull
    · exact h2
  · rcases nestedField_head_kind r0 "spec" "install" ["spec", "deployments"] _ h with h2 | h2
    · exact absurd h2 hnull
    · exact h2

theorem marshallObject_rendered {α : Type} (jsonRoundTrip : α → Except GoError Object)
    (obj : α) (r0 : Object) (relatedImages : List JSON) (writer writer2 : Writer)
    (hr : jsonRoundTrip obj = .ok r0)
    (h : marshallObject jsonRoundTrip obj relatedImages writer = .returned writer2 none) :
    ∃ doc, renderDocument r0 relatedImages = .ok (some doc)
      ∧ writer2 = writer ++ [Chunk.separator, Chunk.document doc] := by
  rw [marshallObject_eq_renderDocument jsonRoundTrip obj r0 relatedImages writer hr] at h
  cases hd : renderDocument r0 relatedImages with
  | error e => simp [hd] at h
  | ok found =>
    cases found with
    | none => simp [hd] at h
    | some doc =>
      simp only [hd, Outcome.returned.injEq, and_true] at h
      exact ⟨doc, rfl, h.symm⟩

theorem marshallObject_of_renderable {α : Type} (jsonRoundTrip : α → Except GoError Object)
    (obj : α) (r0 : Object) (relatedImages : List JSON) (writer : Writer)
    (hr : jsonRoundTrip obj = .ok r0) (h : deploymentsRenderable r0) :
    ∃ doc, renderDocument r0 relatedImages = .ok (some doc)
      ∧ marshallObject jsonRoundTrip obj relatedImages writer
          = .returned (writer ++ [Chunk.separator, Chunk.document doc]) none := by
  obtain ⟨doc, hd⟩ := renderDocument_of_renderable r0 relatedImages h
  refine ⟨doc, hd, ?_⟩
  rw [marshallObject_eq_renderDocument jsonRoundTrip obj r0 relatedImages writer hr, hd]

theorem rendered_absent (r0 : Object) (relatedImages : List JSON) (doc : Object)
    (h : renderDocument r0 relatedImages = .ok (some doc)) :
    ∀ p ∈ strippedPaths, valueAt (.obj doc) p = none := by
  obtain ⟨r5, hs, hdoc⟩ := renderDocument_some r0 relatedImages doc h
  intro p hp
  have h5 := cleanedStage_absent r0 r5 hs p hp
  by_cases hl : relatedImages.length > 0
  · rw [hdoc, if_pos hl, valueAt_congr _ _ _ (setIgnoringError_frame _ _ _ p
      (by rw [diverges_comm]; exact strippedPaths_diverge_relatedImages p hp))]
    exact h5
  · rw [hdoc, if_neg hl]
    exact h5

theorem rendered_frame (r0 : Object) (relatedImages : List JSON) (doc : Object)
    (h : renderDocument r0 relatedImages = .ok (some doc)) (q : List String)
    (h1 : ∀ p ∈ strippedPaths, diverges p q = true) (h2 : diverges deploymentsPath q = true)
    (h3 : diverges relatedImagesPath q = true) :
    unstructured.NestedFieldNoCopy (.obj doc) q = unstructured.NestedFieldNoCopy (.obj r0) q := by
  obtain ⟨r5, hs, hdoc⟩ := renderDocument_some r0 relatedImages doc h
  have h5 := cleanedStage_frame r0 r5 hs q h1 h2
  by_cases hl : relatedImages.length > 0
  · rw [hdoc, if_pos hl, setIgnoringError_frame _ _ _ q h3]
    exact h5
  · rw [hdoc, if_neg hl]
    exact h5

theorem rendered_deployments (r0 : Object) (relatedImages : List JSON) (doc : Object)
    (h : renderDocument r0 relatedImages = .ok (some doc)) :
    (unstructured.NestedFieldNoCopy (.obj r0) deploymentsPath = .ok none →
        unstructured.NestedFieldNoCopy (.obj doc) deploymentsPath = .ok none)
      ∧ (∀ ds, unstructured.NestedFieldNoCopy (.obj r0) deploymentsPath
            = .ok (some (.arr ds)) →
          unstructured.NestedFieldNoCopy (.obj doc) deploymentsPath
            = .ok (some (.arr (ds.map cleanElement)))) := by
  obtain ⟨r5, hs, hdoc⟩ := renderDocument_some r0 relatedImages doc h
  have h5 := cleanedStage_deployments r0 r5 hs
  have hfr : unstructured.NestedFieldNoCopy (.obj doc) deploymentsPath
      = unstructured.NestedFieldNoCopy (.obj r5) deploymentsPath := by
    by_cases hl : relatedImages.length > 0
    · rw [hdoc, if_pos hl, setIgnoringError_frame _ _ _ deploymentsPath (by decide)]
    · rw [hdoc, if_neg hl]
  rw [hfr]
  exact ⟨h5.1, fun ds hds => (h5.2 ds hds).2⟩

theorem renderDocument_sets_relatedImages (r0 : Object) (relatedImages : List JSON) (doc : Object)
    (h : renderDocument r0 relatedImages = .ok (some doc)) (hne : relatedImages ≠ [])
    (hnull : unstructured.lookup "spec" r0 ≠ some .null) :
    unstructured.NestedFieldNoCopy (.obj doc) relatedImagesPath
      = .ok (some (.arr relatedImages)) := by
  obtain ⟨r5, hs, hdoc⟩ := renderDocument_some r0 relatedImages doc h
  have hk := cleanedStage_kind r0 r5 hs "spec"
    (renderable_spec_kind r0 (renderable_of_renderDocument r0 relatedImages doc h) hnull)
  obtain ⟨m2, hm2⟩ := setNestedField_two r5 (.arr relatedImages) "spec" "relatedImages" hk
  have hdoc2 : doc = m2 := by
    rw [hdoc, if_pos (List.length_pos.mpr hne)]
    unfold setNestedSliceIgnoringError unstructured.SetNestedSlice relatedImagesPath
    rw [hm2]
  rw [hdoc2]
  exact setNestedField_found r5 m2 _ _ hm2 (by decide)

theorem cleanElement_absent (d : JSON) (hd : d.isObject = true) :
    ∀ p ∈ elementStrippedPaths, valueAt (cleanElement d) p = none := by
  cases d with
  | obj m => exact removeAll_absent m elementStrippedPaths (by decide) elementStrippedPaths_pairwise
  | null => simp [JSON.isObject] at hd
  | bool _ => simp [JSON.isObject] at hd
  | num _ => simp [JSON.isObject] at hd
  | str _ => simp [JSON.isObject] at hd
  | arr _ => simp [JSON.isObject] at hd

theorem cleanElement_frame (d : JSON) (q : List String)
    (h : ∀ p ∈ elementStrippedPaths, diverges p q = true) :
    unstructured.NestedFieldNoCopy (cleanElement d) q = unstructured.NestedFieldNoCopy d q := by
  cases d with
  | obj m => exact removeAll_frame m elementStrippedPaths q h
  | null => rfl
  | bool _ => rfl
  | num _ => rfl
  | str _ => rfl
  | arr _ => rfl

theorem valueAt_of_found (val v : JSON) (q : List String)
    (h : unstructured.NestedFieldNoCopy val q = .ok (some v)) : valueAt val q = some v := by
  unfold valueAt
  rw [h]

theorem valueAt_of_not_found (val : JSON) (q : List String)
    (h : unstructured.NestedFieldNoCopy val q = .ok none) : valueAt val q = none := by
  unfold valueAt
  rw [h]

/-! ## Serialization of generic documents: the claims -/

/-- Malformed structure is a failure of its own: a document whose
`spec.install.spec.deployments` is null is not rendered, `marshallObject` returns the
error of `NestedSlice` and writes nothing, and this is so with the four deleted
paths absent just as with `status` and `metadata.creationTimestamp` present. -/
theorem null_deployments_not_rendered :
    marshallObject documentRoundTrip
        [("spec", .obj [("install", .obj [("spec", .obj [("deployments", .null)])])])] [] []
      = .returned [] (some "accessor error: expected []interface{}")
    ∧ marshallObject documentRoundTrip
        [("metadata", .obj [("creationTimestamp", .null)]),
         ("spec", .obj [("install", .obj [("spec", .obj [("deployments", .null)])])]),
         ("status", .obj [])] [] []
      = .returned [] (some "accessor error: expected []interface{}") :=
  ⟨rfl, rfl⟩

theorem rendered_iff_renderable {α : Type} (jsonRoundTrip : α → Except GoError Object)
    (obj : α) (r0 : Object) (relatedImages : List JSON) (writer : Writer)
    (hr : jsonRoundTrip obj = .ok r0) :
    (∃ writer2, marshallObject jsonRoundTrip obj relatedImages writer = .returned writer2 none)
      ↔ deploymentsRenderable r0 := by
  constructor
  · rintro ⟨writer2, h⟩
    obtain ⟨doc, hd, _⟩ := marshallObject_rendered jsonRoundTrip obj r0 relatedImages writer
      writer2 hr h
    exact renderable_of_renderDocument r0 relatedImages doc hd
  · intro h
    obtain ⟨doc, _, hm⟩ := marshallObject_of_renderable jsonRoundTrip obj r0 relatedImages writer
      hr h
    exact ⟨_, hm⟩

theorem renderable_without_paths (r0 : Object) (paths : List (List String))
    (hsub : ∀ p ∈ paths, p ∈ strippedPaths) :
    deploymentsRenderable (removeAll r0 paths) ↔ deploymentsRenderable r0 := by
  unfold deploymentsRenderable
  rw [removeAll_frame r0 paths deploymentsPath
    (fun p hp => strippedPaths_diverge_deployments p (hsub p hp))]

/-- C13: for every input object, including ones that carry these fields, a document
rendered by `marshallObject` has no top-level `status` entry and no
`creationTimestamp` entry at metadata, at template.metadata or at
spec.template.metadata. The absence of these paths is not an error: an input whose
`spec.install.spec.deployments` is not found or is a sequence of maps is rendered
without error whether or not the paths are present, and an input that is the same
document with any of the four paths already deleted is rendered without error
exactly when the document itself is. -/
theorem marshallObject_strips {α : Type} (jsonRoundTrip : α → Except GoError Object)
    (obj : α) (r0 : Object) (relatedImages : List JSON) (writer : Writer)
    (hr : jsonRoundTrip obj = .ok r0) :
    (∀ writer2, marshallObject jsonRoundTrip obj relatedImages writer = .returned writer2 none →
        ∃ doc, writer2 = writer ++ [Chunk.separator, Chunk.document doc]
          ∧ valueAt (.obj doc) ["status"] = none
          ∧ valueAt (.obj doc) ["metadata", "creationTimestamp"] = none
          ∧ valueAt (.obj doc) ["template", "metadata", "creationTimestamp"] = none
          ∧ valueAt (.obj doc) ["spec", "template", "metadata", "creationTimestamp"] = none)
      ∧ (deploymentsRenderable r0 →
          ∃ doc, marshallObject jsonRoundTrip obj relatedImages writer
            = .returned (writer ++ [Chunk.separator, Chunk.document doc]) none)
      ∧ (∀ (obj2 : α) (paths : List (List String)), (∀ p ∈ paths, p ∈ strippedPaths) →
          jsonRoundTrip obj2 = .ok (removeAll r0 paths) →
          ((∃ writer2, marshallObject jsonRoundTrip obj2 relatedImages writer
              = .returned writer2 none)
            ↔ ∃ writer2, marshallObject jsonRoundTrip obj relatedImages writer
              = .returned writer2 none)) := by
  refine ⟨?_, ?_, ?_⟩
  · intro writer2 h
    obtain ⟨doc, hd, hw⟩ := marshallObject_rendered jsonRoundTrip obj r0 relatedImages writer
      writer2 hr h
    have habs := rendered_absent r0 relatedImages doc hd
    exact ⟨doc, hw, habs _ (by decide), habs _ (by decide), habs _ (by decide),
      habs _ (by decide)⟩
  · intro hrender
    obtain ⟨doc, _, hm⟩ := marshallObject_of_renderable jsonRoundTrip obj r0 relatedImages writer
      hr hrender
    exact ⟨doc, hm⟩
  · intro obj2 paths hsub hr2
    rw [rendered_iff_renderable jsonRoundTrip obj2 _ relatedImages writer hr2,
      rendered_iff_renderable jsonRoundTrip obj r0 relatedImages writer hr]
    exact renderable_without_paths r0 paths hsub

/-- C13 (witness): a document that carries `status` and the three creation
timestamps is rendered without them, and the same document with the four paths
already deleted is rendered without error too. -/
theorem marshallObject_strips_witness :
    (∃ doc, marshallObject documentRoundTrip noisyDocument [] []
        = .returned ([] ++ [Chunk.separator, Chunk.document doc]) none
      ∧ valueAt (.obj noisyDocument) ["status"] = some (.obj [("phase", .str "Succeeded")])
      ∧ valueAt (.obj doc) ["status"] = none
      ∧ valueAt (.obj doc) ["metadata", "creationTimestamp"] = none
      ∧ valueAt (.obj doc) ["template", "metadata", "creationTimestamp"] = none
      ∧ valueAt (.obj doc) ["spec", "template", "metadata", "creationTimestamp"] = none)
    ∧ valueAt (.obj (removeAll noisyDocument strippedPaths)) ["status"] = none
    ∧ ∃ writer2, marshallObject documentRoundTrip (removeAll noisyDocument strippedPaths) [] []
        = .returned writer2 none := by
  have h := marshallObject_strips documentRoundTrip noisyDocument noisyDocument [] [] rfl
  obtain ⟨doc, hm⟩ := h.2.1 (Or.inr ⟨[noisyDeployment], rfl, by decide⟩)
  obtain ⟨doc2, hw, h1, h2, h3, h4⟩ := h.1 _ hm
  have hdoc : doc = doc2 := by
    simp only [List.nil_append, List.cons.injEq, Chunk.document.injEq, and_true, true_and] at hw
    exact hw
  subst hdoc
  exact ⟨⟨doc, hm, rfl, h1, h2, h3, h4⟩, rfl,
    (h.2.2 (removeAll noisyDocument strippedPaths) strippedPaths (fun _ hp => hp) rfl).mpr
      ⟨_, hm⟩⟩

/-- C16 (counterexample): a document whose `spec` entry is null is rendered, but the
non-empty related-images list is not written: the error of `SetNestedSlice` is
dropped and the rendered document has no `spec.relatedImages`. -/
theorem relatedImages_not_set_under_null_spec :
    marshallObject documentRoundTrip [("spec", .null)] [relatedImageRecord "cleanup-vm" "i"] []
        = .returned [Chunk.separator, Chunk.document [("spec", .null)]] none
      ∧ valueAt (.obj [("spec", .null)]) relatedImagesPath = none :=
  ⟨rfl, rfl⟩

/-- C16 (amended): for every document whose `spec` entry is not null and every
non-empty related-images list, a document rendered by `marshallObject` has at
`spec.relatedImages` exactly the given list, whatever the document had at that path
before; such a document is rendered whenever its `spec.install.spec.deployments` is
not found or is a sequence of maps. -/
theorem marshallObject_sets_relatedImages {α : Type}
    (jsonRoundTrip : α → Except GoError Object) (obj : α) (r0 : Object)
    (relatedImages : List JSON) (writer : Writer) (hr : jsonRoundTrip obj = .ok r0)
    (hne : relatedImages ≠ []) (hnull : unstructured.lookup "spec" r0 ≠ some .null) :
    (∀ writer2, marshallObject jsonRoundTrip obj relatedImages writer = .returned writer2 none →
        ∃ doc, writer2 = writer ++ [Chunk.separator, Chunk.document doc]
          ∧ valueAt (.obj doc) relatedImagesPath = some (.arr relatedImages))
      ∧ (deploymentsRenderable r0 →
          ∃ doc, marshallObject jsonRoundTrip obj relatedImages writer
              = .returned (writer ++ [Chunk.separator, Chunk.document doc]) none
            ∧ valueAt (.obj doc) relatedImagesPath = some (.arr relatedImages)) := by
  constructor
  · intro writer2 h
    obtain ⟨doc, hd, hw⟩ := marshallObject_rendered jsonRoundTrip obj r0 relatedImages writer
      writer2 hr h
    exact ⟨doc, hw, valueAt_of_found _ _ _
      (renderDocument_sets_relatedImages r0 relatedImages doc hd hne hnull)⟩
  · intro hrender
    obtain ⟨doc, hd, hm⟩ := marshallObject_of_renderable jsonRoundTrip obj r0 relatedImages
      writer hr hrender
    exact ⟨doc, hm, valueAt_of_found _ _ _
      (renderDocument_sets_relatedImages r0 relatedImages doc hd hne hnull)⟩

/-- C16 (witness): the document that has the list ["old"] at `spec.relatedImages` is
rendered with the given two records there. -/
theorem marshallObject_sets_relatedImages_witness :
    valueAt (.obj noisyDocument) relatedImagesPath = some (.arr [.str "old"])
      ∧ ∃ doc, marshallObject documentRoundTrip noisyDocument
            [relatedImageRecord "cleanup-vm" "a", relatedImageRecord "copy-template" "b"] []
          = .returned ([] ++ [Chunk.separator, Chunk.document doc]) none
        ∧ valueAt (.obj doc) relatedImagesPath
            = some (.arr [relatedImageRecord "cleanup-vm" "a",
                          relatedImageRecord "copy-template" "b"]) :=
  ⟨rfl, (marshallObject_sets_relatedImages documentRoundTrip noisyDocument noisyDocument
      [relatedImageRecord "cleanup-vm" "a", relatedImageRecord "copy-template" "b"] [] rfl
      (List.cons_ne_nil _ _) (by simp [noisyDocument, unstructured.lookup])).2
      (Or.inr ⟨[noisyDeployment], rfl, by decide⟩)⟩

/-- C17 (counterexample): a document whose `spec.install.spec.deployments` is a
sequence with an element that is not a map makes `marshallObject` fault at the type
assertion, so no document is rendered; and a document without that path in which
`spec.install` is a string is not rendered either, `NestedSlice` returning an
error. -/
theorem deployments_not_rendered :
    valueAt (.obj [("spec", .obj [("install", .obj [("spec", .obj
          [("deployments", .arr [.str "x"])])])])]) deploymentsPath
        = some (.arr [.str "x"])
      ∧ marshallObject documentRoundTrip
          [("spec", .obj [("install", .obj [("spec", .obj
            [("deployments", .arr [.str "x"])])])])] [] []
        = .panicked
      ∧ valueAt (.obj [("spec", .obj [("install", .str "x")])]) deploymentsPath = none
      ∧ marshallObject documentRoundTrip [("spec", .obj [("install", .str "x")])] [] []
        = .returned [] (some "accessor error: expected map[string]interface{}") :=
  ⟨rfl, rfl, rfl, rfl⟩

/-- C17 (amended): for every document that has a sequence of maps at
`spec.install.spec.deployments`, the rendered document has at that path the
sequence of the cleaned elements, of the same length and in the same order, where
no element has a `status` entry, a metadata.creationTimestamp entry or a
spec.template.metadata.creationTimestamp entry and every entry of an element at a
path apart from these three is as before; a document in which that path is not
found (a key on the way is missing or null) is rendered without the path being
created. -/
theorem marshallObject_cleans_deployments {α : Type}
    (jsonRoundTrip : α → Except GoError Object) (obj : α) (r0 : Object)
    (relatedImages : List JSON) (writer : Writer) (hr : jsonRoundTrip obj = .ok r0) :
    (∀ ds, unstructured.NestedFieldNoCopy (.obj r0) deploymentsPath = .ok (some (.arr ds)) →
        (∀ d ∈ ds, d.isObject = true) →
        ∃ doc, marshallObject jsonRoundTrip obj relatedImages writer
            = .returned (writer ++ [Chunk.separator, Chunk.document doc]) none
          ∧ valueAt (.obj doc) deploymentsPath = some (.arr (ds.map cleanElement))
          ∧ (ds.map cleanElement).length = ds.length
          ∧ ∀ d ∈ ds,
              valueAt (cleanElement d) ["status"] = none
              ∧ valueAt (cleanElement d) ["metadata", "creationTimestamp"] = none
              ∧ valueAt (cleanElement d)
                  ["spec", "template", "metadata", "creationTimestamp"] = none
              ∧ ∀ q, (∀ p ∈ elementStrippedPaths, diverges p q = true) →
                  valueAt (cleanElement d) q = valueAt d q)
      ∧ (unstructured.NestedFieldNoCopy (.obj r0) deploymentsPath = .ok none →
          ∃ doc, marshallObject jsonRoundTrip obj relatedImages writer
              = .returned (writer ++ [Chunk.separator, Chunk.document doc]) none
            ∧ valueAt (.obj doc) deploymentsPath = none) := by
  constructor
  · intro ds hds hall
    obtain ⟨doc, hd, hm⟩ := marshallObject_of_renderable jsonRoundTrip obj r0 relatedImages
      writer hr (Or.inr ⟨ds, hds, hall⟩)
    refine ⟨doc, hm, valueAt_of_found _ _ _ ((rendered_deployments r0 relatedImages doc hd).2
      ds hds), List.length_map _ _, ?_⟩
    intro d hdmem
    have habs := cleanElement_absent d (hall d hdmem)
    exact ⟨habs _ (by decide), habs _ (by decide), habs _ (by decide),
      fun q hq => valueAt_congr _ _ _ (cleanElement_frame d q hq)⟩
  · intro hnone
    obtain ⟨doc, hd, hm⟩ := marshallObject_of_renderable jsonRoundTrip obj r0 relatedImages
      writer hr (Or.inl hnone)
    exact ⟨doc, hm, valueAt_of_not_found _ _
      ((rendered_deployments r0 relatedImages doc hd).1 hnone)⟩

/-- C17 (witness): the deployment element of the noisy document loses its three
noise entries and keeps its name and its replica count; a document with only a
`metadata` entry is rendered without a deployments path. -/
theorem marshallObject_cleans_deployments_witness :
    (∃ doc, marshallObject documentRoundTrip noisyDocument [] []
          = .returned ([] ++ [Chunk.separator, Chunk.document doc]) none
        ∧ valueAt (.obj doc) deploymentsPath = some (.arr [cleanElement noisyDeployment])
        ∧ valueAt (cleanElement noisyDeployment) ["status"] = none
        ∧ valueAt (cleanElement noisyDeployment) ["metadata", "creationTimestamp"] = none
        ∧ valueAt (cleanElement noisyDeployment)
            ["spec", "template", "metadata", "creationTimestamp"] = none
        ∧ valueAt (cleanElement noisyDeployment) ["spec", "replicas"] = some (.num 1)
        ∧ valueAt (cleanElement noisyDeployment) ["name"] = some (.str "d"))
      ∧ (∃ doc, marshallObject documentRoundTrip [("metadata", .obj [("name", .str "n")])] [] []
          = .returned ([] ++ [Chunk.separator, Chunk.document doc]) none
        ∧ valueAt (.obj doc) deploymentsPath = none) := by
  have h := marshallObject_cleans_deployments documentRoundTrip noisyDocument noisyDocument
    [] [] rfl
  have h2 := marshallObject_cleans_deployments documentRoundTrip
    [("metadata", .obj [("name", .str "n")])] [("metadata", .obj [("name", .str "n")])] [] [] rfl
  obtain ⟨doc, hm, hv, _, hel⟩ := h.1 [noisyDeployment] rfl (by decide)
  obtain ⟨hs, hmc, hsc, hfr⟩ := hel noisyDeployment (List.mem_singleton.mpr rfl)
  refine ⟨⟨doc, hm, hv, hs, hmc, hsc, ?_, ?_⟩, h2.2 rfl⟩
  · rw [hfr ["spec", "replicas"] (by decide)]
    rfl
  · rw [hfr ["name"] (by decide)]
    rfl

/-- C19: the stripping and the related-image injection of `marshallObject` leave
everything else as it was: in a rendered document every entry at a path that
parts from the four deleted paths, from `spec.install.spec.deployments` and from
`spec.relatedImages` has the value it had in the document before stripping; the
sequence at `spec.install.spec.deployments` is the original one element by
element, each element keeping every entry at a path that parts from the three
paths deleted in it. Every document whose deployments path is not found or holds a
sequence of maps is rendered. -/
theorem marshallObject_lossless {α : Type} (jsonRoundTrip : α → Except GoError Object)
    (obj : α) (r0 : Object) (relatedImages : List JSON) (writer : Writer)
    (hr : jsonRoundTrip obj = .ok r0) :
    (∀ writer2, marshallObject jsonRoundTrip obj relatedImages writer = .returned writer2 none →
        ∃ doc, writer2 = writer ++ [Chunk.separator, Chunk.document doc]
          ∧ (∀ q, (∀ p ∈ strippedPaths, diverges p q = true) →
              diverges deploymentsPath q = true → diverges relatedImagesPath q = true →
              valueAt (.obj doc) q = valueAt (.obj r0) q)
          ∧ (∀ ds, valueAt (.obj r0) deploymentsPath = some (.arr ds) →
              valueAt (.obj doc) deploymentsPath = some (.arr (ds.map cleanElement))
              ∧ ∀ d ∈ ds, ∀ q, (∀ p ∈ elementStrippedPaths, diverges p q = true) →
                  valueAt (cleanElement d) q = valueAt d q))
      ∧ (deploymentsRenderable r0 →
          ∃ doc, marshallObject jsonRoundTrip obj relatedImages writer
            = .returned (writer ++ [Chunk.separator, Chunk.document doc]) none) := by
  constructor
  · intro writer2 h
    obtain ⟨doc, hd, hw⟩ := marshallObject_rendered jsonRoundTrip obj r0 relatedImages writer
      writer2 hr h
    refine ⟨doc, hw, fun q h1 h2 h3 =>
      valueAt_congr _ _ _ (rendered_frame r0 relatedImages doc hd q h1 h2 h3), ?_⟩
    intro ds hds
    have hfound : unstructured.NestedFieldNoCopy (.obj r0) deploymentsPath
        = .ok (some (.arr ds)) := by
      unfold valueAt at hds
      cases hn : unstructured.NestedFieldNoCopy (.obj r0) deploymentsPath with
      | error e => simp [hn] at hds
      | ok found =>
        cases found with
        | none => simp [hn] at hds
        | some v =>
          simp only [hn, Option.some.injEq] at hds
          rw [hds]
    exact ⟨valueAt_of_found _ _ _ ((rendered_deployments r0 relatedImages doc hd).2 ds hfound),
      fun d _ q hq => valueAt_congr _ _ _ (cleanElement_frame d q hq)⟩
  · intro hrender
    obtain ⟨doc, _, hm⟩ := marshallObject_of_renderable jsonRoundTrip obj r0 relatedImages writer
      hr hrender
    exact ⟨doc, hm⟩

/-- C19 (witness): in the rendered noisy document the name in the metadata, the
labels of spec.template.metadata and the install strategy are as in the input. -/
theorem marshallObject_lossless_witness :
    ∃ doc, marshallObject documentRoundTrip noisyDocument
          [relatedImageRecord "cleanup-vm" "a"] []
        = .returned ([] ++ [Chunk.separator, Chunk.document doc]) none
      ∧ valueAt (.obj doc) ["metadata", "name"] = some (.str "n")
      ∧ valueAt (.obj doc) ["spec", "template", "metadata", "labels"] = some (.obj [])
      ∧ valueAt (.obj doc) ["spec", "install", "strategy"] = some (.str "deployment")
      ∧ valueAt (.obj doc) deploymentsPath = some (.arr [cleanElement noisyDeployment]) := by
  have h := marshallObject_lossless documentRoundTrip noisyDocument noisyDocument
    [relatedImageRecord "cleanup-vm" "a"] [] rfl
  obtain ⟨doc, hm⟩ := h.2 (Or.inr ⟨[noisyDeployment], rfl, by decide⟩)
  obtain ⟨doc2, hw, hfr, hdep⟩ := h.1 _ hm
  have hdoc : doc = doc2 := by
    simp only [List.nil_append, List.cons.injEq, Chunk.document.injEq, and_true, true_and] at hw
    exact hw
  subst hdoc
  refine ⟨doc, hm, ?_, ?_, ?_, (hdep [noisyDeployment] rfl).1⟩
  · rw [hfr ["metadata", "name"] (by decide) (by decide) (by decide)]
    rfl
  · rw [hfr ["spec", "template", "metadata", "labels"] (by decide) (by decide) (by decide)]
    rfl
  · rw [hfr ["spec", "install", "strategy"] (by decide) (by decide) (by decide)]
    rfl

/-! ## Semantic versions: lemmas -/

theorem toDigitsCore_eq (n : Nat) :
    ∀ (fuel : Nat) (ds : List Char), n < fuel →
      Nat.toDigitsCore 10 fuel n ds = Nat.toDigitsCore 10 (n + 1) n [] ++ ds := by
  induction n using Nat.strong_induction_on with
  | _ n ih =>
    intro fuel ds hlt
    cases fuel with
    | zero => exact absurd hlt (Nat.not_lt_zero _)
    | succ f =>
      by_cases h0 : n / 10 = 0
      · simp [Nat.toDigitsCore, h0]
      · have hlt2 : n / 10 < n := Nat.div_lt_self (by omega) (by decide)
        have h1 := ih (n / 10) hlt2 f (Nat.digitChar (n % 10) :: ds) (by omega)
        have h2 := ih (n / 10) hlt2 n [Nat.digitChar (n % 10)] hlt2
        simp only [Nat.toDigitsCore, h0, if_false]
        rw [h1, h2]
        simp

theorem toDigits_small (n : Nat) (h : n < 10) : Nat.toDigits 10 n = [Nat.digitChar n] := by
  have h0 : n / 10 = 0 := Nat.div_eq_of_lt h
  have h1 : n % 10 = n := Nat.mod_eq_of_lt h
  simp [Nat.toDigits, Nat.toDigitsCore, h0, h1]

theorem toDigits_step (m d : Nat) (hm : 0 < m) (hd : d < 10) :
    Nat.toDigits 10 (m * 10 + d) = Nat.toDigits 10 m ++ [Nat.digitChar d] := by
  have hdiv : (m * 10 + d) / 10 = m := by omega
  have hmod : (m * 10 + d) % 10 = d := by omega
  have h0 : ¬ (m * 10 + d) / 10 = 0 := by omega
  unfold Nat.toDigits
  rw [Nat.toDigitsCore]
  simp only [hdiv, hmod, h0, if_false] 
  rw [toDigitsCore_eq m (m * 10 + d) [Nat.digitChar d] (by omega)]
  rw [if_neg (by omega)]

theorem digitChar_of_numbers :
    ∀ c ∈ semver.numbers, Nat.digitChar (c.toNat - 48) = c ∧ c.toNat - 48 < 10 := by
  decide

theorem toString_data (n : Nat) : (toString n).data = Nat.toDigits 10 n := rfl

theorem parseDigits_snoc (cs : List Char) (c : Char) (acc : Nat) :
    semver.parseDigits (cs ++ [c]) acc
      = (semver.parseDigits cs acc).bind
          (fun m => if semver.numbers.contains c then some (m * 10 + (c.toNat - 48)) else none) := by
  induction cs generalizing acc with
  | nil => simp only [List.nil_append, semver.parseDigits, Option.some_bind]
  | cons a cs ih =>
    simp only [List.cons_append, semver.parseDigits]
    split
    · exact ih _
    · rfl

theorem parseDigits_pos (cs : List Char) (acc r : Nat) (hacc : 0 < acc)
    (h : semver.parseDigits cs acc = some r) : 0 < r := by
  induction cs generalizing acc with
  | nil =>
    simp only [semver.parseDigits, Option.some.injEq] at h
    omega
  | cons a cs ih =>
    simp only [semver.parseDigits] at h
    split at h
    · exact ih _ (by omega) h
    · simp at h

theorem digit_pos_of_ne_zero :
    ∀ c ∈ semver.numbers, c ≠ '0' → 0 < c.toNat - 48 := by
  decide

theorem parseDigits_head_pos (cs : List Char) (r : Nat) (hne : cs ≠ [])
    (hhead : cs.head? ≠ some '0') (h : semver.parseDigits cs 0 = some r) : 0 < r := by
  cases cs with
  | nil => exact absurd rfl hne
  | cons a cs =>
    simp only [semver.parseDigits] at h
    split at h
    · rename_i hmem
      have ha : a ≠ '0' := by
        intro ha
        apply hhead
        rw [ha]
        rfl
      have hpos : 0 < a.toNat - 48 := by
        have hmem2 : a ∈ semver.numbers := by simpa using hmem
        exact digit_pos_of_ne_zero a hmem2 ha
      exact parseDigits_pos cs _ r (by omega) h
    · simp at h

theorem parseDigits_toDigits (cs : List Char) :
    ∀ n, cs ≠ [] → (1 < cs.length → cs.head? ≠ some '0') →
      semver.parseDigits cs 0 = some n → Nat.toDigits 10 n = cs := by
  induction cs using List.reverseRecOn with
  | nil => intro n hne; exact absurd rfl hne
  | append_singleton init c ih =>
    intro n _ hlead h
    rw [parseDigits_snoc] at h
    cases hm : semver.parseDigits init 0 with
    | none => simp [hm] at h
    | some m =>
      simp only [hm, Option.some_bind] at h
      split at h
      · rename_i hmem
        have hmem2 : c ∈ semver.numbers := by simpa using hmem
        obtain ⟨hchar, hlt⟩ := digitChar_of_numbers c hmem2
        simp only [Option.some.injEq] at h
        subst h
        cases hinit : init with
        | nil =>
          subst hinit
          simp only [semver.parseDigits, Option.some.injEq] at hm
          subst hm
          simp only [Nat.zero_mul, Nat.zero_add, List.nil_append]
          rw [toDigits_small _ hlt, hchar]
        | cons a rest =>
          have hne : init ≠ [] := by rw [hinit]; exact List.cons_ne_nil _ _
          have hhead : init.head? ≠ some '0' := by
            have h1 := hlead (by rw [hinit]; simp)
            rw [hinit] at h1 ⊢
            simpa using h1
          have hpos := parseDigits_head_pos init m hne hhead hm
          have hrec := ih m hne (fun _ => hhead) hm
          rw [toDigits_step m _ hpos hlt, hrec, hchar, hinit]
      · simp at h

theorem containsOnly_iff (s set : List Char) :
    semver.containsOnly s set = true ↔ ∀ c ∈ s, c ∈ set := by
  simp [semver.containsOnly, List.all_eq_true]

theorem parseNumber_toDigits (p : List Char) (n : Nat) (h : semver.parseNumber p = .ok n) :
    Nat.toDigits 10 n = p := by
  unfold semver.parseNumber at h
  split at h
  · simp at h
  · split at h
    · simp at h
    · rename_i hzero
      unfold semver.ParseUint at h
      split at h
      · simp at h
      · rename_i hne
        cases hd : semver.parseDigits p 0 with
        | none => simp [hd] at h
        | some m =>
          simp only [hd] at h
          split at h
          · simp only [Except.ok.injEq] at h
            subst h
            apply parseDigits_toDigits p m hne _ hd
            intro hlen hhead
            apply hzero
            simp [semver.hasLeadingZeroes, hlen, hhead]
          · simp at h

theorem cut_some (sep : Char) (l a b : List Char) (h : semver.cut sep l = some (a, b)) :
    l = a ++ sep :: b := by
  induction l generalizing a with
  | nil => simp [semver.cut] at h
  | cons c cs ih =>
    simp only [semver.cut] at h
    split at h
    · rename_i hc
      simp only [Option.some.injEq, Prod.mk.injEq] at h
      obtain ⟨h1, h2⟩ := h
      subst h1 h2 hc
      rfl
    · cases hcut : semver.cut sep cs with
      | none => simp [hcut] at h
      | some ab =>
        obtain ⟨before, after⟩ := ab
        simp only [hcut, Option.some.injEq, Prod.mk.injEq] at h
        obtain ⟨h1, h2⟩ := h
        subst h1 h2
        rw [ih before hcut]
        rfl

theorem split_ne_nil (sep : Char) (l : List Char) :
    ∃ p ps, semver.Split sep l = p :: ps := by
  induction l with
  | nil => exact ⟨[], [], rfl⟩
  | cons c cs ih =>
    obtain ⟨p, ps, hp⟩ := ih
    by_cases hc : c = sep
    · exact ⟨[], semver.Split sep cs, by simp [semver.Split, hc]⟩
    · exact ⟨c :: p, ps, by simp [semver.Split, hc, hp]⟩

theorem joinDots_split (l : List Char) : joinDots (semver.Split '.' l) = l := by
  induction l with
  | nil => rfl
  | cons c cs ih =>
    obtain ⟨p, ps, hp⟩ := split_ne_nil '.' cs
    rw [hp] at ih
    by_cases hc : c = '.'
    · subst hc
      simp only [semver.Split, if_true, hp, joinDots, joinTail, List.nil_append]
      simp only [joinDots] at ih
      rw [ih]
    · simp only [semver.Split, hc, if_false, hp, joinDots, List.cons_append]
      simp only [joinDots] at ih
      rw [ih]

theorem intercalate_go_data (acc : String) (l : List String) :
    (String.intercalate.go acc "." l).data = acc.data ++ joinTail (l.map String.data) := by
  induction l generalizing acc with
  | nil => simp [String.intercalate.go, joinTail]
  | cons a rest ih =>
    simp only [String.intercalate.go, ih, String.data_append, List.map_cons, joinTail]
    simp

theorem intercalate_data (l : List String) :
    (".".intercalate l).data = joinDots (l.map String.data) := by
  cases l with
  | nil => rfl
  | cons a rest => simp [String.intercalate, intercalate_go_data, joinDots]

theorem newPRVersion_string (s : List Char) (pr : PRVersion)
    (h : semver.NewPRVersion s = .ok pr) : pr.String.data = s := by
  unfold semver.NewPRVersion at h
  split at h
  · simp at h
  · split at h
    · rename_i hnum
      split at h
      · simp at h
      · rename_i hzero
        cases hp : semver.ParseUint s with
        | error e => simp [hp] at h
        | ok num =>
          simp only [hp, Except.ok.injEq] at h
          subst h
          have hn : semver.parseNumber s = .ok num := by
            simp [semver.parseNumber, hnum, hzero, hp]
          simp only [PRVersion.String, if_true, toString_data]
          exact parseNumber_toDigits s num hn
    · split at h
      · simp only [Except.ok.injEq] at h
        subst h
        simp [PRVersion.String]
      · simp at h

theorem parsePre_strings (parts : List (List Char)) (pre : List PRVersion)
    (h : semver.parsePre parts = .ok pre) :
    pre.map (fun v => v.String.data) = parts := by
  induction parts generalizing pre with
  | nil =>
    simp only [semver.parsePre, Except.ok.injEq] at h
    subst h
    rfl
  | cons p rest ih =>
    simp only [semver.parsePre] at h
    cases hp : semver.NewPRVersion p with
    | error e => simp [hp] at h
    | ok pr =>
      cases hr : semver.parsePre rest with
      | error e => simp [hp, hr] at h
      | ok more =>
        simp only [hp, hr, Except.ok.injEq] at h
        subst h
        simp only [List.map_cons, newPRVersion_string p pr hp, ih more hr]

theorem parseBuild_strings (parts : List (List Char)) (bld : List String)
    (h : semver.parseBuild parts = .ok bld) : bld.map String.data = parts := by
  induction parts generalizing bld with
  | nil =>
    simp only [semver.parseBuild, Except.ok.injEq] at h
    subst h
    rfl
  | cons p rest ih =>
    simp only [semver.parseBuild] at h
    split at h
    · simp at h
    · split at h
      · simp at h
      · cases hr : semver.parseBuild rest with
        | error e => simp [hr] at h
        | ok more =>
          simp only [hr, Except.ok.injEq] at h
          subst h
          simp only [List.map_cons, ih more hr]

theorem splitN3_three (s p0 p1 p2 : List Char) (h : semver.SplitN3 s = [p0, p1, p2]) :
    s = p0 ++ '.' :: (p1 ++ '.' :: p2) := by
  unfold semver.SplitN3 at h
  cases h1 : semver.cut '.' s with
  | none => simp [h1] at h
  | some ab =>
    obtain ⟨a, rest⟩ := ab
    simp only [h1] at h
    cases h2 : semver.cut '.' rest with
    | none => simp [h2] at h
    | some bc =>
      obtain ⟨b, rest2⟩ := bc
      simp only [h2, List.cons.injEq, and_true] at h
      obtain ⟨ha, hb, hc⟩ := h
      subst ha hb hc
      rw [cut_some '.' s a rest h1, cut_some '.' rest b rest2 h2]

theorem version_string_data (v : Version) :
    v.String.data
      = Nat.toDigits 10 v.Major ++ '.' :: (Nat.toDigits 10 v.Minor ++ '.' ::
          (Nat.toDigits 10 v.Patch
            ++ (sectionChars '-' (v.Pre.map (fun p => p.String.data))
            ++ sectionChars '+' (v.Build.map String.data)))) := by
  unfold Version.String
  cases hp : v.Pre <;> cases hb : v.Build <;>
    simp [String.data_append, toString_data, intercalate_data, List.map_map, Function.comp_def,
      sectionChars]

theorem optional_section (sep : Char) (l before : List Char) (parts : List (List Char))
    (h : (match semver.cut sep l with
          | some (b, a) => (b, semver.Split '.' a)
          | none => (l, [])) = (before, parts)) :
    before ++ sectionChars sep parts = l := by
  cases hc : semver.cut sep l with
  | none =>
    simp only [hc, Prod.mk.injEq] at h
    obtain ⟨h1, h2⟩ := h
    subst h1 h2
    simp [sectionChars]
  | some ba =>
    obtain ⟨b, a⟩ := ba
    simp only [hc, Prod.mk.injEq] at h
    obtain ⟨h1, h2⟩ := h
    subst h1 h2
    obtain ⟨p, ps, hp⟩ := split_ne_nil '.' a
    have hj := joinDots_split a
    rw [hp] at hj
    rw [hp]
    simp only [sectionChars]
    rw [hj, cut_some sep l b a hc]

theorem parse_string (s : List Char) (v : Version) (h : semver.Parse s = .ok v) :
    v.String.data = s := by
  unfold semver.Parse at h
  split at h
  · simp at h
  · split at h
    · rename_i p0 p1 p2 hsplit
      cases h0 : semver.parseNumber p0 with
      | error e => simp [h0] at h
      | ok major =>
        cases h1 : semver.parseNumber p1 with
        | error e => simp [h0, h1] at h
        | ok minor =>
          simp only [h0, h1] at h
          generalize hA : (match semver.cut '+' p2 with
            | some (before, after) => (before, semver.Split '.' after)
            | none => (p2, [])) = A at h
          obtain ⟨patchStr1, build⟩ := A
          simp only at h
          generalize hB : (match semver.cut '-' patchStr1 with
            | some (before, after) => (before, semver.Split '.' after)
            | none => (patchStr1, [])) = B at h
          obtain ⟨patchStr, prerelease⟩ := B
          simp only at h
          cases h2 : semver.parseNumber patchStr with
          | error e => simp [h2] at h
          | ok patch =>
            cases h3 : semver.parsePre prerelease with
            | error e => simp [h2, h3] at h
            | ok pre =>
              cases h4 : semver.parseBuild build with
              | error e => simp [h2, h3, h4] at h
              | ok bld =>
                simp only [h2, h3, h4, Except.ok.injEq] at h
                subst h
                rw [version_string_data, splitN3_three s p0 p1 p2 hsplit,
                  parseNumber_toDigits p0 major h0, parseNumber_toDigits p1 minor h1]
                simp only
                rw [parsePre_strings prerelease pre h3, parseBuild_strings build bld h4,
                  ← List.append_assoc, parseNumber_toDigits patchStr patch h2,
                  optional_section '-' patchStr1 patchStr prerelease hB,
                  optional_section '+' p2 patchStr1 build hA]
    · simp at h

theorem new_string (s : String) (v : Version) (h : semver.New s = .ok v) : v.String = s := by
  apply String.ext
  exact parse_string s.toList v h

/-- C20 (counterexample): the csv-version "1.2.3-alpha.1+build.5" is a valid semantic
version, but on a manifest whose install strategy has no deployment specification
`replaceVariables` faults at `DeploymentSpecs[0]` and hands back no manifest, so no
spec version is set. -/
theorem version_not_set_without_deployments :
    semver.New "1.2.3-alpha.1+build.5"
        = .ok { Major := 1, Minor := 2, Patch := 3
                Pre := [{ VersionStr := "alpha", VersionNum := 0, IsNum := false },
                        { VersionStr := "", VersionNum := 1, IsNum := true }]
                Build := ["build", "5"] }
      ∧ replaceVariables semver.New sampleEnvironment
            { sampleFlags with csvVersion := "1.2.3-alpha.1+build.5" } (sampleManifest [] [])
          = .panicked
      ∧ ¬ ∃ csv2 err, replaceVariables semver.New sampleEnvironment
            { sampleFlags with csvVersion := "1.2.3-alpha.1+build.5" } (sampleManifest [] [])
          = .returned csv2 err := by
  have hp : replaceVariables semver.New sampleEnvironment
        { sampleFlags with csvVersion := "1.2.3-alpha.1+build.5" } (sampleManifest [] [])
      = .panicked := by decide
  refine ⟨by decide, hp, ?_⟩
  rintro ⟨csv2, err, h⟩
  rw [hp] at h
  exact Outcome.noConfusion h

/-- C20 (amended): for every manifest with at least one deployment specification and
every string that the parser accepts as a semantic version (major.minor.patch with
optional pre-release and build metadata), `replaceVariables` with that csv-version
sets the manifest's spec version to the parsed version, and the parsed version
rendered back to a string is the csv-version exactly. -/
theorem replaceVariables_version_roundtrip (env : Environment) (flags : generatorFlags)
    (csv : ClusterServiceVersion) (v : Version) (first : StrategyDeploymentSpec)
    (others : List StrategyDeploymentSpec)
    (hv : semver.New flags.csvVersion = .ok v) (hd : deploymentSpecs csv = first :: others) :
    ∃ csv2, replaceVariables semver.New env flags csv = .returned csv2 none
      ∧ csv2.Spec.Version = { Version := v }
      ∧ csv2.Spec.Version.Version.String = flags.csvVersion := by
  refine ⟨_, replaceVariables_of_cons semver.New env flags csv v first others hv hd, rfl, ?_⟩
  exact new_string flags.csvVersion v hv

/-- C20 (witness): the csv-version "1.2.3-alpha.1+build.5" is parsed into major 1,
minor 2, patch 3, the pre-release identifiers alpha and 1 and the build identifiers
build and 5, and is rendered back unchanged. -/
theorem replaceVariables_version_roundtrip_witness :
    ∃ csv2, replaceVariables semver.New sampleEnvironment
          { sampleFlags with csvVersion := "1.2.3-alpha.1+build.5" } usualManifest
        = .returned csv2 none
      ∧ csv2.Spec.Version
          = { Version :=
              { Major := 1, Minor := 2, Patch := 3
                Pre := [{ VersionStr := "alpha", VersionNum := 0, IsNum := false },
                        { VersionStr := "", VersionNum := 1, IsNum := true }]
                Build := ["build", "5"] } }
      ∧ csv2.Spec.Version.Version.String = "1.2.3-alpha.1+build.5" :=
  replaceVariables_version_roundtrip sampleEnvironment
    { sampleFlags with csvVersion := "1.2.3-alpha.1+build.5" } usualManifest
    { Major := 1, Minor := 2, Patch := 3
      Pre := [{ VersionStr := "alpha", VersionNum := 0, IsNum := false },
              { VersionStr := "", VersionNum := 1, IsNum := true }]
      Build := ["build", "5"] }
    (sampleDeployment "tekton-tasks-operator" [sampleSidecar, sampleManager])
    [sampleDeployment "second" [sampleSidecar]] (by decide) (by decide)

/-! ## The pipelines namespace and the failure path: lemmas -/

theorem updateContainerEnvVars_pipelinesNamespace (env : Environment) (f : generatorFlags)
    (ns : String) (container : Container) :
    updateContainerEnvVars env { f with pipelinesNamespace := ns } container
      = updateContainerEnvVars env f container := rfl

theorem replaceManager_pipelinesNamespace (env : Environment) (f : generatorFlags)
    (ns : String) (containers : List Container) :
    replaceManager env { f with pipelinesNamespace := ns } containers
      = replaceManager env f containers := by
  induction containers with
  | nil => rfl
  | cons c rest ih =>
    simp only [replaceManager, ih, updateContainerEnvVars_pipelinesNamespace]

theorem replaceVariables_pipelinesNamespace (semverNew : String → Except GoError Version)
    (env : Environment) (f : generatorFlags) (ns : String) (csv : ClusterServiceVersion) :
    replaceVariables semverNew env { f with pipelinesNamespace := ns } csv
      = replaceVariables semverNew env f csv := by
  unfold replaceVariables
  simp only [replaceManager_pipelinesNamespace]

theorem buildRelatedImages_pipelinesNamespace (f : generatorFlags) (ns : String) :
    buildRelatedImages { f with pipelinesNamespace := ns } = buildRelatedImages f := rfl

/-! ## The pipelines namespace and the failure path: the claims -/

/-- C21: the pipelines namespace does not influence the transformation: for every
manifest and every two configurations that differ only in `pipelinesNamespace`,
`replaceVariables` has the same outcome (the same manifest, the same error, or the
same fault), `buildRelatedImages` returns the same list, and `runGenerator` writes
the same output and returns the same error. -/
theorem pipelinesNamespace_unused (semverNew : String → Except GoError Version)
    (env : Environment) (readCSV : String → Except GoError ClusterServiceVersion)
    (jsonRoundTrip : ClusterServiceVersion → Except GoError Object)
    (readDir : Except GoError (List String))
    (readAndDecodeToCRD : String → Except GoError CustomResourceDefinition)
    (f : generatorFlags) (ns : String) (csv : ClusterServiceVersion) (stdout : Writer) :
    replaceVariables semverNew env { f with pipelinesNamespace := ns } csv
        = replaceVariables semverNew env f csv
      ∧ buildRelatedImages { f with pipelinesNamespace := ns } = buildRelatedImages f
      ∧ runGenerator semverNew env readCSV jsonRoundTrip readDir readAndDecodeToCRD
            { f with pipelinesNamespace := ns } stdout
          = runGenerator semverNew env readCSV jsonRoundTrip readDir readAndDecodeToCRD
              f stdout := by
  refine ⟨replaceVariables_pipelinesNamespace semverNew env f ns csv,
    buildRelatedImages_pipelinesNamespace f ns, ?_⟩
  unfold runGenerator
  simp only [replaceVariables_pipelinesNamespace, buildRelatedImages_pipelinesNamespace]

/-- C22: when the csv-version fails to parse, `replaceVariables` returns the parser's
error with the manifest's name already overwritten by "tekton-tasks-operator.v"
followed by the invalid csv-version, while the spec (version, install strategy with
the pod template namespaces and the containers) and the manifest's namespace are
as before the call. -/
theorem replaceVariables_not_atomic (semverNew : String → Except GoError Version)
    (env : Environment) (flags : generatorFlags) (csv : ClusterServiceVersion) (err : GoError)
    (hv : semverNew flags.csvVersion = .error err) :
    ∃ csv2, replaceVariables semverNew env flags csv = .returned csv2 (some err)
      ∧ csv2.Name = "tekton-tasks-operator.v" ++ flags.csvVersion
      ∧ csv2.Spec.Version = csv.Spec.Version
      ∧ csv2.Namespace = csv.Namespace
      ∧ (deploymentSpecs csv2).map (fun d => d.Spec.Template.Namespace)
          = (deploymentSpecs csv).map (fun d => d.Spec.Template.Namespace)
      ∧ (deploymentSpecs csv2).map (fun d => d.Spec.Template.Spec.Containers)
          = (deploymentSpecs csv).map (fun d => d.Spec.Template.Spec.Containers)
      ∧ csv2.Spec = csv.Spec :=
  ⟨_, replaceVariables_of_error semverNew env flags csv err hv, rfl, rfl, rfl, rfl, rfl, rfl⟩

/-- C22 (witness): csv-version "not-a-version" on the usual template: the error is
returned and the name is "tekton-tasks-operator.vnot-a-version", the rest of the
template being untouched. -/
theorem replaceVariables_not_atomic_witness :
    replaceVariables semver.New sampleEnvironment
        { sampleFlags with csvVersion := "not-a-version" } usualManifest
      = .returned { usualManifest with Name := "tekton-tasks-operator.vnot-a-version" }
          (some "No Major.Minor.Patch elements found")
    ∧ ∃ csv2, replaceVariables semver.New sampleEnvironment
          { sampleFlags with csvVersion := "not-a-version" } usualManifest
        = .returned csv2 (some "No Major.Minor.Patch elements found")
      ∧ csv2.Name = "tekton-tasks-operator.v" ++ "not-a-version"
      ∧ csv2.Spec.Version = usualManifest.Spec.Version
      ∧ csv2.Namespace = usualManifest.Namespace
      ∧ (deploymentSpecs csv2).map (fun d => d.Spec.Template.Namespace)
          = (deploymentSpecs usualManifest).map (fun d => d.Spec.Template.Namespace)
      ∧ (deploymentSpecs csv2).map (fun d => d.Spec.Template.Spec.Containers)
          = (deploymentSpecs usualManifest).map (fun d => d.Spec.Template.Spec.Containers)
      ∧ csv2.Spec = usualManifest.Spec :=
  ⟨by decide,
   replaceVariables_not_atomic semver.New sampleEnvironment
    { sampleFlags with csvVersion := "not-a-version" } usualManifest
    "No Major.Minor.Patch elements found" (by decide)⟩

/-! ## Volumes with at most one certificate volume -/

theorem removeCertVolumesLoop_of_no_cert_from (fuel i : Nat) (backing : List Volume)
    (updated : Option Nat) (h : ∀ v ∈ backing.drop i, v.Name ≠ "cert") :
    removeCertVolumesLoop fuel i backing updated = (backing, updated) := by
  induction fuel generalizing i with
  | zero => rfl
  | succ fuel ih =>
    simp only [removeCertVolumesLoop]
    cases hg : backing.get? i with
    | none => rfl
    | some volume =>
      have hi : i < backing.length := by
        rw [List.get?_eq_some] at hg
        exact hg.1
      have hdrop : backing.drop i = volume :: backing.drop (i + 1) := by
        rw [List.drop_eq_getElem_cons hi]
        congr 1
        rw [List.get?_eq_getElem?, List.getElem?_eq_getElem hi] at hg
        exact Option.some.inj hg
      have hv : volume.Name ≠ "cert" := h volume (by rw [hdrop]; exact List.mem_cons_self _ _)
      simp only [hv, if_false]
      exact ih (i + 1) (fun v hv2 => h v (by rw [hdrop]; exact List.mem_cons_of_mem _ hv2))

theorem removeCertVolumesLoop_to_cert (vpre vpost : List Volume) (cert : Volume)
    (hpre : ∀ v ∈ vpre, v.Name ≠ "cert") (hcert : cert.Name = "cert") :
    ∀ (d i fuel : Nat), i + d = vpre.length → d + 1 ≤ fuel →
      removeCertVolumesLoop fuel i (vpre ++ cert :: vpost) none
        = removeCertVolumesLoop (fuel - d - 1) (vpre.length + 1)
            (shiftDown (vpre ++ cert :: vpost) vpre.length)
            (some ((vpre ++ cert :: vpost).length - 1)) := by
  intro d
  induction d with
  | zero =>
    intro i fuel hi hfuel
    have hik : i = vpre.length := by omega
    subst hik
    cases fuel with
    | zero => omega
    | succ f =>
      simp only [removeCertVolumesLoop]
      have hg : (vpre ++ cert :: vpost).get? vpre.length = some cert := by
        rw [List.get?_eq_getElem?, List.getElem?_append_right (le_refl _)]
        simp
      simp only [hg, hcert, if_true]
      congr 1
  | succ d ih =>
    intro i fuel hi hfuel
    cases fuel with
    | zero => omega
    | succ f =>
      have hlt : i < vpre.length := by omega
      simp only [removeCertVolumesLoop]
      have hg : (vpre ++ cert :: vpost).get? i = some (vpre[i]) := by
        simp [List.getElem?_append_left hlt]
      have hv : (vpre[i]).Name ≠ "cert" := hpre _ (List.getElem_mem hlt)
      simp only [hg, hv, if_false]
      rw [ih (i + 1) f (by omega) (by omega)]
      congr 1
      omega

theorem shiftDown_split (vpre vpost : List Volume) (cert : Volume) :
    shiftDown (vpre ++ cert :: vpost) vpre.length
      = vpre ++ vpost ++ (cert :: vpost).drop vpost.length := by
  have h1 : (vpre ++ cert :: vpost).take vpre.length = vpre := List.take_left' rfl
  have h2 : (vpre ++ cert :: vpost).drop (vpre.length + 1) = vpost := by
    rw [← List.drop_drop, List.drop_left' rfl]
    rfl
  have h3 : (vpre ++ cert :: vpost).drop ((vpre ++ cert :: vpost).length - 1)
      = (cert :: vpost).drop vpost.length := by
    have h : (vpre ++ cert :: vpost).length - 1 = vpre.length + vpost.length := by
      simp only [List.length_append, List.length_cons]
      omega
    rw [h, List.drop_append]
  unfold shiftDown
  rw [h1, h2, h3]

theorem shiftDown_tail_no_cert (vpre vpost : List Volume) (cert : Volume)
    (hpost : ∀ v ∈ vpost, v.Name ≠ "cert") :
    ∀ v ∈ (shiftDown (vpre ++ cert :: vpost) vpre.length).drop (vpre.length + 1),
      v.Name ≠ "cert" := by
  rw [shiftDown_split, List.append_assoc, List.drop_append]
  cases vpost with
  | nil => intro v hv; simp at hv
  | cons x xs =>
    intro v hv
    have hv2 := List.mem_of_mem_drop hv
    rcases List.mem_append.mp hv2 with h | h
    · exact hpost v h
    · have h3 : v ∈ (x :: xs) := by
        have h4 := List.mem_of_mem_drop h
        rcases List.mem_cons.mp h4 with h5 | h5
        · subst h5
          simp at h
          exact List.mem_of_mem_drop h
        · exact h5
      exact hpost v h3

theorem removeCertVolumes_of_one (vpre vpost : List Volume) (cert : Volume)
    (hpre : ∀ v ∈ vpre, v.Name ≠ "cert") (hcert : cert.Name = "cert")
    (hpost : ∀ v ∈ vpost, v.Name ≠ "cert") :
    removeCertVolumes (vpre ++ cert :: vpost) = vpre ++ vpost := by
  unfold removeCertVolumes
  rw [removeCertVolumesLoop_to_cert vpre vpost cert hpre hcert vpre.length 0
      (vpre ++ cert :: vpost).length (by omega) (by simp),
    removeCertVolumesLoop_of_no_cert_from _ _ _ _
      (shiftDown_tail_no_cert vpre vpost cert hpost)]
  simp only
  rw [shiftDown_take _ _ (by simp)]
  simp

theorem no_cert_of_filter_nil (volumes : List Volume)
    (h : (volumes.filter (fun v => decide (v.Name = "cert"))).length = 0) :
    ∀ v ∈ volumes, v.Name ≠ "cert" := by
  intro v hv hname
  have hmem : v ∈ volumes.filter (fun v => decide (v.Name = "cert")) :=
    List.mem_filter.mpr ⟨hv, by simp [hname]⟩
  rw [List.length_eq_zero] at h
  rw [h] at hmem
  exact List.not_mem_nil _ hmem

theorem split_at_most_one_cert (volumes : List Volume)
    (h : (volumes.filter (fun v => decide (v.Name = "cert"))).length ≤ 1) :
    (∀ v ∈ volumes, v.Name ≠ "cert")
      ∨ ∃ vpre cert vpost, volumes = vpre ++ cert :: vpost
          ∧ (∀ v ∈ vpre, v.Name ≠ "cert") ∧ cert.Name = "cert"
          ∧ (∀ v ∈ vpost, v.Name ≠ "cert") := by
  induction volumes with
  | nil => exact Or.inl (fun v hv => absurd hv (List.not_mem_nil _))
  | cons x xs ih =>
    by_cases hx : x.Name = "cert"
    · right
      have hf : (x :: xs).filter (fun v => decide (v.Name = "cert"))
          = x :: xs.filter (fun v => decide (v.Name = "cert")) :=
        List.filter_cons_of_pos (by simp [hx])
      rw [hf, List.length_cons] at h
      exact ⟨[], x, xs, rfl, fun v hv => absurd hv (List.not_mem_nil _), hx,
        no_cert_of_filter_nil xs (by omega)⟩
    · have hf : (x :: xs).filter (fun v => decide (v.Name = "cert"))
          = xs.filter (fun v => decide (v.Name = "cert")) :=
        List.filter_cons_of_neg (by simp [hx])
      rw [hf] at h
      rcases ih h with hnone | ⟨vpre, cert, vpost, hsplit, hpre, hcert, hpost⟩
      · left
        intro v hv
        rcases List.mem_cons.mp hv with hv2 | hv2
        · rw [hv2]; exact hx
        · exact hnone v hv2
      · right
        refine ⟨x :: vpre, cert, vpost, by rw [hsplit]; rfl, ?_, hcert, hpost⟩
        intro v hv
        rcases List.mem_cons.mp hv with hv2 | hv2
        · rw [hv2]; exact hx
        · exact hpre v hv2

theorem filter_others_of_none (volumes : List Volume) (h : ∀ v ∈ volumes, v.Name ≠ "cert") :
    volumes.filter (fun v => decide (v.Name ≠ "cert")) = volumes :=
  List.filter_eq_self.mpr (fun v hv => by simp [h v hv])

theorem removeCertVolumes_of_at_most_one (volumes : List Volume)
    (h : (volumes.filter (fun v => decide (v.Name = "cert"))).length ≤ 1) :
    removeCertVolumes volumes = volumes.filter (fun v => decide (v.Name ≠ "cert")) := by
  rcases split_at_most_one_cert volumes h with
    hnone | ⟨vpre, cert, vpost, hsplit, hpre, hcert, hpost⟩
  · rw [removeCertVolumes_of_none volumes hnone, filter_others_of_none volumes hnone]
  · rw [hsplit, removeCertVolumes_of_one vpre vpost cert hpre hcert hpost, List.filter_append,
      List.filter_cons_of_neg (by simp [hcert]), filter_others_of_none vpre hpre,
      filter_others_of_none vpost hpost]

/-- C23: when the first deployment's pod template has at most one volume named "cert",
`removeCerts` returns without error and leaves as volume list the original list with
the volumes named "cert" filtered out, that is every other volume once and in the
original order; when no volume is named "cert" that is the original list itself, and
when the list is some volumes, the "cert" volume, then further volumes, it is the
volumes before followed by the volumes after. -/
theorem removeCerts_at_most_one_cert_volume (csv : ClusterServiceVersion)
    (first : StrategyDeploymentSpec) (others : List StrategyDeploymentSpec)
    (hd : deploymentSpecs csv = first :: others)
    (hone : (first.Spec.Template.Spec.Volumes.filter
        (fun v => decide (v.Name = "cert"))).length ≤ 1) :
    ∃ csv2, removeCerts csv = .returned csv2 none
      ∧ firstVolumes csv2
          = some (first.Spec.Template.Spec.Volumes.filter (fun v => decide (v.Name ≠ "cert")))
      ∧ ((∀ v ∈ first.Spec.Template.Spec.Volumes, v.Name ≠ "cert") →
          firstVolumes csv2 = some first.Spec.Template.Spec.Volumes)
      ∧ (∀ vpre cert vpost, first.Spec.Template.Spec.Volumes = vpre ++ cert :: vpost →
          cert.Name = "cert" → firstVolumes csv2 = some (vpre ++ vpost)) := by
  have hloop := removeCertVolumes_of_at_most_one first.Spec.Template.Spec.Volumes hone
  refine ⟨_, removeCerts_of_cons csv first others hd, ?_, ?_, ?_⟩
  · simp only [firstVolumes, deploymentSpecs, hloop]
  · intro hnone
    simp only [firstVolumes, deploymentSpecs, hloop,
      filter_others_of_none first.Spec.Template.Spec.Volumes hnone]
  · intro vpre cert vpost hsplit hcert
    have hcount : (vpre.filter (fun v => decide (v.Name = "cert"))).length
        + (1 + (vpost.filter (fun v => decide (v.Name = "cert"))).length) ≤ 1 := by
      have h := hone
      rw [hsplit, List.filter_append, List.filter_cons_of_pos (by simp [hcert]),
        List.length_append, List.length_cons] at h
      omega
    have hpre := no_cert_of_filter_nil vpre (by omega)
    have hpost := no_cert_of_filter_nil vpost (by omega)
    simp only [firstVolumes, deploymentSpecs, hloop]
    rw [hsplit, List.filter_append, List.filter_cons_of_neg (by simp [hcert]),
      filter_others_of_none vpre hpre, filter_others_of_none vpost hpost]

/-- C23 (witness): with the volumes data, cert, logs the one "cert" volume is deleted
and data, logs remain in this order; with the volumes data, logs the list is kept. -/
theorem removeCerts_at_most_one_cert_volume_witness :
    (∃ csv2, removeCerts (manifestWithVolumes
          [{ Name := "data", Source := "emptyDir" }, { Name := "cert", Source := "secret-a" },
           { Name := "logs", Source := "emptyDir" }])
        = .returned csv2 none
      ∧ firstVolumes csv2
          = some [{ Name := "data", Source := "emptyDir" }, { Name := "logs", Source := "emptyDir" }])
    ∧ (∃ csv3, removeCerts (manifestWithVolumes
          [{ Name := "data", Source := "emptyDir" }, { Name := "logs", Source := "emptyDir" }])
        = .returned csv3 none
      ∧ firstVolumes csv3
          = some [{ Name := "data", Source := "emptyDir" }, { Name := "logs", Source := "emptyDir" }]) := by
  constructor
  · obtain ⟨csv2, h1, _, _, h4⟩ := removeCerts_at_most_one_cert_volume
      (manifestWithVolumes
        [{ Name := "data", Source := "emptyDir" }, { Name := "cert", Source := "secret-a" },
         { Name := "logs", Source := "emptyDir" }])
      _ [] rfl (by decide)
    exact ⟨csv2, h1, h4 [{ Name := "data", Source := "emptyDir" }]
      { Name := "cert", Source := "secret-a" } [{ Name := "logs", Source := "emptyDir" }] rfl rfl⟩
  · obtain ⟨csv3, h1, _, h3, _⟩ := removeCerts_at_most_one_cert_volume
      (manifestWithVolumes
        [{ Name := "data", Source := "emptyDir" }, { Name := "logs", Source := "emptyDir" }])
      _ [] rfl (by decide)
    exact ⟨csv3, h1, h3 (by decide)⟩

end CsvGenerator
